import Mathlib

/-!
# KWin: activation broker and output shuffler

A shallow embedding of `xdgactivationv1.cpp` (the XDG activation token broker)
and `shuffler.cpp` (restoring windows after output hotplug), followed by the
properties established about them.

Conventions of the embedding

* Pointers are addresses (`Nat`); a pointer that the code tests against null
  is an `Option`.
* An operation returns `none` exactly where the C++ dereferences a null
  pointer or trips `Q_ASSERT` (no defined outcome).
* Signals emitted and requests made to the workspace (`activateClient`,
  `demandAttention`, `setFrameGeometry`) are recorded, in order, as a list of
  effects. What the workspace does in answer to `activateClient` or
  `demandAttention` is not part of these files; a change of the active window
  reaches the broker as a separate `clientActivated` request.
* The workspace situation (active window, surface-to-window lookup, window
  properties, connected outputs) is a parameter of every step and may differ
  from one request to the next.
* Values of type `int` that the code computes wrap at 32 bits (`wrapInt32`).
  Where C++ leaves an overflow undefined (signed arithmetic, the conversion
  of an out-of-range double) the wrapped value is a stand-in, and the
  theorems about `moveBetweenRects` carry the hypothesis that no overflow
  occurs. The four coordinates stored in a `QRect` are integers, and the
  accessors `width()` and `height()` are the mathematical `x2 - x1 + 1`.
* A `qreal` is an IEEE 754 double, and a double is represented by the
  rational it denotes: every arithmetic operation on `qreal`s is the exact
  operation on rationals followed by `toDouble`, rounding to the nearest value
  with a 53-bit significand, ties to even (each operation rounded on its own:
  no extended precision, no fused multiply-add). The exponent is not bounded,
  which loses nothing here: with 32-bit operands and a non-zero divisor all
  values of `moveBetweenRects` are zero or lie between 2^-90 and 2^64 in
  magnitude.
-/

namespace KWin

/-! ## Activation broker: data -/

/-- Address of a `KWaylandServer::SurfaceInterface`. -/
abbrev SurfaceInterface := Nat

/-- Address of a `KWaylandServer::SeatInterface`. -/
abbrev SeatInterface := Nat

/-- Address of a (non-null) `AbstractClient`. -/
abbrev AbstractClient := Nat

/-- The record `ActivationToken` held in `m_currentActivationToken`. -/
structure ActivationToken where
  token : String
  surface : SurfaceInterface
  serial : Nat
  seat : SeatInterface
  applicationId : String
deriving DecidableEq, Repr

/-- What the broker reads from the workspace, the Wayland server and the
windows: `Workspace::activeClient()`, `WaylandServer::findClient(surface)`,
`AbstractClient::surface()`, `AbstractClient::desktopFileName()`,
`client->property("token").toString()` and
`AbstractClient::iconFromDesktopFile(appId)`. -/
structure Workspace where
  activeClient : Option AbstractClient
  findClient : SurfaceInterface → Option AbstractClient
  surface : AbstractClient → SurfaceInterface
  desktopFileName : AbstractClient → String
  tokenProperty : AbstractClient → String
  iconFromDesktopFile : String → String

/-- Observable actions of the broker: the two effects signals and the two
requests made on the target window. -/
inductive Effect where
  | startupAdded (token : String) (icon : String) (fallbackIcon : String)
  | startupRemoved (token : String)
  | activateClient (client : AbstractClient)
  | demandAttention (client : AbstractClient)
deriving DecidableEq, Repr

/-- State of `XdgActivationV1Integration`: the live token and the
function-local `static int i` of the token creator. -/
structure XdgActivationV1Integration where
  m_currentActivationToken : Option ActivationToken
  i : Int
deriving DecidableEq, Repr

/-- State at construction: no live token, counter zero. -/
def XdgActivationV1Integration.init : XdgActivationV1Integration :=
  { m_currentActivationToken := none, i := 0 }

/-- Value of a 32-bit `int` after an arithmetic result `n` (two's complement). -/
def wrapInt32 (n : Int) : Int := (n + 2 ^ 31) % 2 ^ 32 - 2 ^ 31

/-- The string `QStringLiteral("kwin-%1").arg(n)`. -/
def tokenString (n : Int) : String := "kwin-" ++ toString n

/-! ## Activation broker: operations -/

/-- Body of `XdgActivationV1Integration::clear()`: asserts a live token, emits
`startupRemoved` for it and resets the pointer. -/
def clear (st : XdgActivationV1Integration) :
    Option (XdgActivationV1Integration × List Effect) :=
  match st.m_currentActivationToken with
  | none => none
  | some t =>
    some ({ st with m_currentActivationToken := none }, [Effect.startupRemoved t.token])

/-- Handler connected to `Workspace::clientActivated`. -/
def clientActivated (ws : Workspace) (st : XdgActivationV1Integration)
    (client : Option AbstractClient) :
    Option (XdgActivationV1Integration × List Effect) :=
  match st.m_currentActivationToken, client with
  | none, _ => some (st, [])
  | some _, none => some (st, [])
  | some t, some c =>
    if ws.tokenProperty c = t.token then some (st, []) else clear st

/-- The lambda installed with `setActivationTokenCreator`. The first
component of the result is the returned string. -/
def activationTokenCreator (ws : Workspace) (st : XdgActivationV1Integration)
    (surface : SurfaceInterface) (serial : Nat) (seat : SeatInterface)
    (appId : String) : Option (String × XdgActivationV1Integration × List Effect) :=
  match ws.activeClient with
  | none => none
  | some active =>
    if ws.surface active ≠ surface then some ("", st, [])
    else
      let st1 := { st with i := wrapInt32 (st.i + 1) }
      let newToken := tokenString st1.i
      let cleared : Option (XdgActivationV1Integration × List Effect) :=
        if st1.m_currentActivationToken.isSome then clear st1 else some (st1, [])
      match cleared with
      | none => none
      | some (st2, es) =>
        let tok : ActivationToken :=
          { token := newToken, surface := surface, serial := serial, seat := seat,
            applicationId := appId }
        some (newToken, { st2 with m_currentActivationToken := some tok },
          es ++ [Effect.startupAdded tok.token (ws.iconFromDesktopFile appId) "system-run"])

/-- Body of `XdgActivationV1Integration::activateSurface(surface, token)`. -/
def activateSurface (ws : Workspace) (st : XdgActivationV1Integration)
    (surface : SurfaceInterface) (token : String) :
    Option (XdgActivationV1Integration × List Effect) :=
  match ws.findClient surface with
  | none => some (st, [])
  | some client =>
    match st.m_currentActivationToken with
    | none => some (st, [])
    | some cur =>
      if cur.token ≠ token then some (st, [])
      else
        let ownerSurfaceClient := ws.findClient cur.surface
        let decision : Option Effect :=
          if ws.activeClient = ownerSurfaceClient then some (Effect.activateClient client)
          else if cur.applicationId = "" then some (Effect.activateClient client)
          else
            match ownerSurfaceClient with
            | none => none
            | some owner =>
              if ws.desktopFileName owner = "" then some (Effect.activateClient client)
              else some (Effect.demandAttention client)
        match decision with
        | none => none
        | some e =>
          match clear st with
          | none => none
          | some (st1, es) => some (st1, e :: es)

/-! ## Activation broker: request sequences -/

/-- Requests reaching the broker from the protocol layer and the workspace. -/
inductive Request where
  | createToken (surface : SurfaceInterface) (serial : Nat) (seat : SeatInterface)
      (appId : String)
  | activate (surface : SurfaceInterface) (token : String)
  | clientActivated (client : Option AbstractClient)
deriving DecidableEq, Repr

/-- Result of one request: the new state, the effects, and the string
returned to the protocol layer (only the token creator returns one). -/
structure Reply where
  state : XdgActivationV1Integration
  effects : List Effect
  returned : Option String
deriving DecidableEq, Repr

/-- One request handled in the workspace situation `ws` current at that time. -/
def handle (ws : Workspace) (st : XdgActivationV1Integration) : Request → Option Reply
  | Request.createToken surface serial seat appId =>
    (activationTokenCreator ws st surface serial seat appId).map
      fun r => { state := r.2.1, effects := r.2.2, returned := some r.1 }
  | Request.activate surface token =>
    (activateSurface ws st surface token).map
      fun r => { state := r.1, effects := r.2, returned := none }
  | Request.clientActivated client =>
    (clientActivated ws st client).map
      fun r => { state := r.1, effects := r.2, returned := none }

/-- Whether a reply is a successful issuance (a non-empty string returned). -/
def Reply.issued (r : Reply) : Option String :=
  match r.returned with
  | some s => if s = "" then none else some s
  | none => none

/-- A sequence of requests, each with the workspace situation it meets; the
result is the final state and the replies in order. -/
def run (st : XdgActivationV1Integration) :
    List (Workspace × Request) → Option (XdgActivationV1Integration × List Reply)
  | [] => some (st, [])
  | (ws, rq) :: rest =>
    match handle ws st rq with
    | none => none
    | some r =>
      match run r.state rest with
      | none => none
      | some (st1, rs) => some (st1, r :: rs)

/-- The tokens handed out by the successful issuances among `rs`, in order. -/
def issuedTokens (rs : List Reply) : List String := rs.filterMap Reply.issued

/-! ## Geometry types used by the shuffler (Qt 5 `QPoint`, `QRect`, `QRectF`) -/

/-- A `QPoint`. -/
structure QPoint where
  xp : Int
  yp : Int
deriving DecidableEq, Repr

/-- A `QRect`, stored as Qt stores it: the left, top, right and bottom pixel
coordinates, all inclusive. -/
structure QRect where
  x1 : Int
  y1 : Int
  x2 : Int
  y2 : Int
deriving DecidableEq, Repr

namespace QRect

/-- The default-constructed (null) rectangle `QRect()`. -/
def null : QRect := { x1 := 0, y1 := 0, x2 := -1, y2 := -1 }

/-- The constructor `QRect(left, top, width, height)`. -/
def ofXYWH (left top width height : Int) : QRect :=
  { x1 := left, y1 := top, x2 := left + width - 1, y2 := top + height - 1 }

/-- The constructor `QRect(topLeft, bottomRight)`. -/
def ofPoints (topLeft bottomRight : QPoint) : QRect :=
  { x1 := topLeft.xp, y1 := topLeft.yp, x2 := bottomRight.xp, y2 := bottomRight.yp }

/-- Accessor `QRect::x()`. -/
def x (r : QRect) : Int := r.x1

/-- Accessor `QRect::y()`. -/
def y (r : QRect) : Int := r.y1

/-- Accessor `QRect::width()`. -/
def width (r : QRect) : Int := r.x2 - r.x1 + 1

/-- Accessor `QRect::height()`. -/
def height (r : QRect) : Int := r.y2 - r.y1 + 1

/-- Predicate `QRect::isValid()`: `x1 <= x2 && y1 <= y2`. -/
def isValid (r : QRect) : Bool := decide (r.x1 ≤ r.x2) && decide (r.y1 ≤ r.y2)

/-- The point `QRect::center()`; the division truncates as in C++. -/
def center (r : QRect) : QPoint :=
  { xp := Int.tdiv (r.x1 + r.x2) 2, yp := Int.tdiv (r.y1 + r.y2) 2 }

/-- The test `QRect::contains(point)` (edges included; a rectangle stored with
swapped corners is normalised first, as Qt does). -/
def contains (r : QRect) (p : QPoint) : Bool :=
  let l := if r.x2 < r.x1 - 1 then r.x2 else r.x1
  let rr := if r.x2 < r.x1 - 1 then r.x1 else r.x2
  let t := if r.y2 < r.y1 - 1 then r.y2 else r.y1
  let b := if r.y2 < r.y1 - 1 then r.y1 else r.y2
  !(decide (p.xp < l) || decide (p.xp > rr)) && !(decide (p.yp < t) || decide (p.yp > b))

end QRect

/-! ## Double arithmetic (`qreal`) -/

/-- Rounding of a rational to the nearest integer, ties to the even one. -/
def roundHalfEven (t : ℚ) : Int :=
  if t - (⌊t⌋ : ℚ) < 1 / 2 then ⌊t⌋
  else if 1 / 2 < t - (⌊t⌋ : ℚ) then ⌊t⌋ + 1
  else if ⌊t⌋ % 2 = 0 then ⌊t⌋ else ⌊t⌋ + 1

/-- The number of halvings that bring `n` below 2, at most `fuel` of them;
with `fuel = n` this is the position of the leading bit of `n`. -/
def log2Fuel : Nat → Nat → Nat
  | 0, _ => 0
  | fuel + 1, n => if n < 2 then 0 else log2Fuel fuel (n / 2) + 1

/-- The binary exponent of a non-zero rational: the integer `e` with
`2^e ≤ |q| < 2^(e+1)`, found from the leading bits of numerator and
denominator. -/
def binade (q : ℚ) : Int :=
  if (2 : ℚ) ^ ((log2Fuel q.num.natAbs q.num.natAbs : Int) - (log2Fuel q.den q.den : Int)) ≤ |q|
  then (log2Fuel q.num.natAbs q.num.natAbs : Int) - (log2Fuel q.den q.den : Int)
  else (log2Fuel q.num.natAbs q.num.natAbs : Int) - (log2Fuel q.den q.den : Int) - 1

/-- The IEEE 754 double nearest to the rational `q` (round to nearest, ties to
even): `q` is scaled by the power of two that brings its magnitude into
[2^52, 2^53), rounded to an integer and scaled back. The result of a `qreal`
operation is `toDouble` of the exact result. -/
def toDouble (q : ℚ) : ℚ :=
  if q = 0 then 0
  else (roundHalfEven (q / 2 ^ (binade q - 52)) : ℚ) * 2 ^ (binade q - 52)

/-- The conversion `int(d)` of a `qreal`: truncation towards zero. A value
outside the `int` range, for which C++ leaves the conversion undefined, is
wrapped. -/
def truncToInt (d : ℚ) : Int := wrapInt32 (if 0 ≤ d then ⌊d⌋ else ⌈d⌉)

/-- The Qt 5 function `qRound(double)`:
`d >= 0.0 ? int(d + 0.5) : int(d - double(int(d-1)) + 0.5) + int(d-1)`.
Each `+` and `-` on doubles rounds its result; `double(int)` is exact. -/
def qRound (d : ℚ) : Int :=
  if 0 ≤ d then truncToInt (toDouble (d + 1 / 2))
  else
    wrapInt32
      (truncToInt (toDouble (toDouble (d - ((truncToInt (toDouble (d - 1)) : Int) : ℚ)) + 1 / 2))
        + truncToInt (toDouble (d - 1)))

/-- A `QRectF`: position and size as `qreal`s. -/
structure QRectF where
  xp : ℚ
  yp : ℚ
  w : ℚ
  h : ℚ

/-- The Qt 5 conversion `QRectF::toRect()`:
`QRect(QPoint(qRound(xp), qRound(yp)), QPoint(qRound(xp + w) - 1, qRound(yp + h) - 1))`. -/
def QRectF.toRect (r : QRectF) : QRect :=
  QRect.ofPoints { xp := qRound r.xp, yp := qRound r.yp }
    { xp := wrapInt32 (qRound (toDouble (r.xp + r.w)) - 1)
      yp := wrapInt32 (qRound (toDouble (r.yp + r.h)) - 1) }

/-- A value that fits a 32-bit `int`. -/
def isInt32 (n : Int) : Prop := -2147483648 ≤ n ∧ n < 2147483648

/-- No `int` overflows along one axis of `moveBetweenRects`: for a source
area starting at `s0` with extent `sw`, a target area starting at `t0` with
extent `tw` and a rectangle starting at `r0` with extent `rw`, the target
origin, the offset `r0 - s0` and the three extents are `int`s, and the exactly
scaled positions of the rectangle's two edges are at most 2^31 - 1 in
magnitude, so that their roundings, and the rounding of the second less one,
are `int`s. -/
def axisInRange (s0 sw t0 tw r0 rw : Int) : Prop :=
  isInt32 t0 ∧ isInt32 (r0 - s0) ∧ isInt32 sw ∧ isInt32 tw ∧ isInt32 rw ∧
  |(t0 : ℚ) + ((r0 - s0 : Int) : ℚ) * ((tw : ℚ) / (sw : ℚ))| ≤ 2147483647 ∧
  |(t0 : ℚ) + ((r0 - s0 : Int) : ℚ) * ((tw : ℚ) / (sw : ℚ)) + (rw : ℚ) * ((tw : ℚ) / (sw : ℚ))|
    ≤ 2147483647

/-- The left (top) coordinate that `moveBetweenRects` hands to `QRectF`, as a
double: `t0 + (r0 - s0) * (qreal(tw) / sw)`. -/
def scaledStart (s0 sw t0 tw r0 : Int) : ℚ :=
  toDouble ((t0 : ℚ) + toDouble (((wrapInt32 (r0 - s0) : Int) : ℚ) *
    toDouble (((wrapInt32 tw : Int) : ℚ) / ((wrapInt32 sw : Int) : ℚ))))

/-- The width (height) that `moveBetweenRects` hands to `QRectF`, as a
double: `rw * (qreal(tw) / sw)`. -/
def scaledExtent (sw tw rw : Int) : ℚ :=
  toDouble (((wrapInt32 rw : Int) : ℚ) *
    toDouble (((wrapInt32 tw : Int) : ℚ) / ((wrapInt32 sw : Int) : ℚ)))

/-! ## Output shuffler: data -/

/-- The struct `ShuffleData` of shuffler.h; default-constructed it holds null
rectangles and empty names. -/
structure ShuffleData where
  savedOutputRect : QRect := QRect.null
  savedGeometry : QRect := QRect.null
  savedOutputName : String := ""
  lastOutputRect : QRect := QRect.null
  lastGeometry : QRect := QRect.null
  lastOutputName : String := ""
deriving DecidableEq, Repr

/-- What the shuffler reads from an `AbstractOutput`: `name()` and `geometry()`. -/
structure AbstractOutput where
  name : String
  geometry : QRect
deriving DecidableEq, Repr

/-- A window tracked by the shuffler: the key of `m_shuffleData`, the window's
current `frameGeometry()`, and the value stored under the key. -/
structure TrackedWindow where
  window : AbstractClient
  frameGeometry : QRect
  data : ShuffleData
deriving DecidableEq, Repr

/-- The shuffler together with the part of the world it works on: the
connected outputs (in screen-id order) and the entries of `m_shuffleData` in
iteration order. -/
structure Shuffler where
  outputs : List AbstractOutput
  m_shuffleData : List TrackedWindow
deriving DecidableEq, Repr

/-- A call `window->setFrameGeometry(rect)` made by the shuffler. -/
structure GeometryRequest where
  window : AbstractClient
  rect : QRect
deriving DecidableEq, Repr

/-! ## Output shuffler: operations -/

/-- Modelled from the spec: `Platform::findOutput(name)`, the output lookup by
name; it yields the first connected output carrying the name, if any. -/
def findOutput (outputs : List AbstractOutput) (name : String) : Option AbstractOutput :=
  outputs.find? (fun o => o.name = name)

/-- Modelled from the spec: `screens()->number(point)` followed by
`Platform::findOutput(screenId)`, the output lookup by point; it yields the
first connected output whose rectangle contains the point, and nothing (screen
id -1) when no output does. -/
def outputAt (outputs : List AbstractOutput) (p : QPoint) : Option AbstractOutput :=
  outputs.find? (fun o => o.geometry.contains p)

/-- The static function `moveBetweenRects`; `none` when the `Q_ASSERT` on the
two areas fails. The offsets, and the widths and heights (which Qt computes
as `x2 - x1 + 1`), are `int`s; the scales and the four values handed to
`QRectF` are doubles, each operation rounding its result. -/
def moveBetweenRects (sourceArea targetArea rect : QRect) : Option QRect :=
  if sourceArea.isValid && targetArea.isValid then
    let xOffset : Int := wrapInt32 (rect.x - sourceArea.x)
    let yOffset : Int := wrapInt32 (rect.y - sourceArea.y)
    let xScale : ℚ :=
      toDouble (((wrapInt32 targetArea.width : Int) : ℚ) / ((wrapInt32 sourceArea.width : Int) : ℚ))
    let yScale : ℚ :=
      toDouble (((wrapInt32 targetArea.height : Int) : ℚ) /
        ((wrapInt32 sourceArea.height : Int) : ℚ))
    some (QRectF.toRect
      { xp := toDouble ((targetArea.x : ℚ) + toDouble ((xOffset : ℚ) * xScale))
        yp := toDouble ((targetArea.y : ℚ) + toDouble ((yOffset : ℚ) * yScale))
        w := toDouble (((wrapInt32 rect.width : Int) : ℚ) * xScale)
        h := toDouble (((wrapInt32 rect.height : Int) : ℚ) * yScale) })
  else none

/-- No `int` overflows in `moveBetweenRects(S, T, R)` and in the conversion of
its result: `axisInRange` holds horizontally and vertically. -/
def moveInRange (S T R : QRect) : Prop :=
  axisInRange S.x S.width T.x T.width R.x R.width ∧
  axisInRange S.y S.height T.y T.height R.y R.height

instance isInt32.decidable (n : Int) : Decidable (isInt32 n) :=
  inferInstanceAs (Decidable (-2147483648 ≤ n ∧ n < 2147483648))

instance axisInRange.decidable (s0 sw t0 tw r0 rw : Int) :
    Decidable (axisInRange s0 sw t0 tw r0 rw) :=
  inferInstanceAs (Decidable (isInt32 t0 ∧ isInt32 (r0 - s0) ∧ isInt32 sw ∧ isInt32 tw ∧
    isInt32 rw ∧
    |(t0 : ℚ) + ((r0 - s0 : Int) : ℚ) * ((tw : ℚ) / (sw : ℚ))| ≤ 2147483647 ∧
    |(t0 : ℚ) + ((r0 - s0 : Int) : ℚ) * ((tw : ℚ) / (sw : ℚ)) + (rw : ℚ) * ((tw : ℚ) / (sw : ℚ))|
      ≤ 2147483647))

instance moveInRange.decidable (S T R : QRect) : Decidable (moveInRange S T R) :=
  inferInstanceAs (Decidable (axisInRange S.x S.width T.x T.width R.x R.width ∧
    axisInRange S.y S.height T.y T.height R.y R.height))

/-- The rectangle fits `int` together with what is computed around it: its
left and top are above the least `int` (for a negative `d`, `qRound` converts
`d - 1`), the coordinates just past its right and bottom edge are `int`s, and
so are its width and height. -/
def QRect.inIntRange (r : QRect) : Prop :=
  -2147483648 < r.x ∧ r.x + r.width < 2147483648 ∧ r.width < 2147483648 ∧
  -2147483648 < r.y ∧ r.y + r.height < 2147483648 ∧ r.height < 2147483648

instance QRect.inIntRange.decidable (r : QRect) : Decidable r.inIntRange :=
  inferInstanceAs (Decidable (-2147483648 < r.x ∧ r.x + r.width < 2147483648 ∧
    r.width < 2147483648 ∧ -2147483648 < r.y ∧ r.y + r.height < 2147483648 ∧
    r.height < 2147483648))

/-- The helper `updateSavedShuffleState_helper`. -/
def updateSavedShuffleState_helper (data : ShuffleData) : ShuffleData :=
  { data with
    savedOutputName := data.lastOutputName
    savedGeometry := data.lastGeometry
    savedOutputRect := data.lastOutputRect }

/-- The helper `updateLastShuffleState_helper`, given the window's frame
geometry. -/
def updateLastShuffleState_helper (outputs : List AbstractOutput) (data : ShuffleData)
    (frameGeometry : QRect) : ShuffleData :=
  match outputAt outputs frameGeometry.center with
  | none => data
  | some output =>
    { data with
      lastOutputName := output.name
      lastGeometry := frameGeometry
      lastOutputRect := output.geometry }

/-- The helper `updateFullShuffleState_helper`. -/
def updateFullShuffleState_helper (outputs : List AbstractOutput) (data : ShuffleData)
    (frameGeometry : QRect) : ShuffleData :=
  updateSavedShuffleState_helper (updateLastShuffleState_helper outputs data frameGeometry)

/-- Modelled from the spec: the operation "set a window's geometry"
(`AbstractClient::setFrameGeometry`). The window takes the rectangle; when
that changes its frame geometry the window emits `frameGeometryChanged`, which
the shuffler answers with `updateLastShuffleState`. -/
def setFrameGeometry (outputs : List AbstractOutput) (tw : TrackedWindow) (rect : QRect) :
    TrackedWindow :=
  if rect = tw.frameGeometry then tw
  else
    { tw with
      frameGeometry := rect
      data := updateLastShuffleState_helper outputs tw.data rect }

/-- The three locals `originalArea`, `originalRect`, `targetArea` that the loop
body of `Shuffler::shuffle` selects for one entry; `none` is the `continue`
taken when neither output is found. -/
def shuffleSource (outputs : List AbstractOutput) (data : ShuffleData) :
    Option (QRect × QRect × QRect) :=
  match findOutput outputs data.savedOutputName with
  | some output => some (data.savedOutputRect, data.savedGeometry, output.geometry)
  | none =>
    match findOutput outputs data.lastOutputName with
    | some output => some (data.lastOutputRect, data.lastGeometry, output.geometry)
    | none => none

/-- One iteration of the loop of `Shuffler::shuffle`: the entry afterwards and
the `setFrameGeometry` calls made (none or one). -/
def shuffleWindow (outputs : List AbstractOutput) (tw : TrackedWindow) :
    Option (TrackedWindow × List GeometryRequest) :=
  match shuffleSource outputs tw.data with
  | none => some (tw, [])
  | some (originalArea, originalRect, targetArea) =>
    if originalArea = targetArea then some (tw, [])
    else if !originalRect.isValid then some (tw, [])
    else
      match moveBetweenRects originalArea targetArea originalRect with
      | none => none
      | some rect =>
        some (setFrameGeometry outputs tw rect, [{ window := tw.window, rect := rect }])

/-- The loop of `Shuffler::shuffle` over the entries. -/
def shuffleEntries (outputs : List AbstractOutput) :
    List TrackedWindow → Option (List TrackedWindow × List GeometryRequest)
  | [] => some ([], [])
  | tw :: rest =>
    match shuffleWindow outputs tw with
    | none => none
    | some (tw1, calls) =>
      match shuffleEntries outputs rest with
      | none => none
      | some (rest1, calls1) => some (tw1 :: rest1, calls ++ calls1)

/-- The method `Shuffler::shuffle()`. -/
def Shuffler.shuffle (s : Shuffler) : Option (Shuffler × List GeometryRequest) :=
  match shuffleEntries s.outputs s.m_shuffleData with
  | none => none
  | some (entries, calls) => some ({ s with m_shuffleData := entries }, calls)

/-- Apply `f` to the entry stored under `client`; `none` when
`Q_ASSERT(m_shuffleData.contains(client))` fails. -/
def Shuffler.updateEntry (s : Shuffler) (client : AbstractClient)
    (f : TrackedWindow → TrackedWindow) : Option Shuffler :=
  if s.m_shuffleData.any (fun e => e.window = client) then
    some { s with
      m_shuffleData := s.m_shuffleData.map (fun e => if e.window = client then f e else e) }
  else none

/-- The method `Shuffler::updateLastShuffleState(client)`. -/
def Shuffler.updateLastShuffleState (s : Shuffler) (client : AbstractClient) : Option Shuffler :=
  s.updateEntry client
    (fun e => { e with data := updateLastShuffleState_helper s.outputs e.data e.frameGeometry })

/-- The method `Shuffler::updateFullShuffleState(client)`. -/
def Shuffler.updateFullShuffleState (s : Shuffler) (client : AbstractClient) : Option Shuffler :=
  s.updateEntry client
    (fun e => { e with data := updateFullShuffleState_helper s.outputs e.data e.frameGeometry })

/-- The slot `Shuffler::handleClientAdded(client)`, given what it reads from the
client. `QHash::insert` replaces the value of a key already present and adds a
new entry otherwise. -/
def Shuffler.handleClientAdded (s : Shuffler) (client : AbstractClient) (frameGeometry : QRect)
    (isSpecialWindow isPopupWindow isPlaceable : Bool) : Option Shuffler :=
  if isSpecialWindow || isPopupWindow || !isPlaceable then some s
  else
    let entry : TrackedWindow := { window := client, frameGeometry := frameGeometry, data := {} }
    let inserted : List TrackedWindow :=
      if s.m_shuffleData.any (fun e => e.window = client) then
        s.m_shuffleData.map (fun e => if e.window = client then entry else e)
      else s.m_shuffleData ++ [entry]
    Shuffler.updateFullShuffleState { s with m_shuffleData := inserted } client

/-- The slot `Shuffler::handleClientRemoved(client)`. -/
def Shuffler.handleClientRemoved (s : Shuffler) (client : AbstractClient) : Shuffler :=
  { s with m_shuffleData := s.m_shuffleData.filter (fun e => !decide (e.window = client)) }

/-- A tracked window is given the frame geometry `rect` from outside the
shuffler (by the workspace or the user); see `setFrameGeometry`. -/
def Shuffler.windowMoved (s : Shuffler) (client : AbstractClient) (rect : QRect) :
    Option Shuffler :=
  s.updateEntry client (fun e => setFrameGeometry s.outputs e rect)

/-! ## Concrete situations used to exercise the shuffler -/

/-- Output "DP-1" at (0,0) with size 1000x500. -/
def outputDP1 : AbstractOutput := { name := "DP-1", geometry := QRect.ofXYWH 0 0 1000 500 }

/-- Output "HDMI-1" at (1000,0) with size 1000x500. -/
def outputHDMI1 : AbstractOutput :=
  { name := "HDMI-1", geometry := QRect.ofXYWH 1000 0 1000 500 }

/-- Output "DP-1" coming back at (0,0) with size 2000x1000. -/
def outputDP1Large : AbstractOutput :=
  { name := "DP-1", geometry := QRect.ofXYWH 0 0 2000 1000 }

/-- Shuffle data of a window first seen on "DP-1" at (10,10) 100x50 and later
moved to (1010,10) on "HDMI-1". -/
def dataMovedAway : ShuffleData :=
  { savedOutputRect := QRect.ofXYWH 0 0 1000 500
    savedGeometry := QRect.ofXYWH 10 10 100 50
    savedOutputName := "DP-1"
    lastOutputRect := QRect.ofXYWH 1000 0 1000 500
    lastGeometry := QRect.ofXYWH 1010 10 100 50
    lastOutputName := "HDMI-1" }

/-- Window 1 sitting on "HDMI-1" with the shuffle data `dataMovedAway`. -/
def windowMovedAway : TrackedWindow :=
  { window := 1, frameGeometry := QRect.ofXYWH 1010 10 100 50, data := dataMovedAway }

/-- Shuffle data of the same window right after it was first tracked on "DP-1". -/
def dataHome : ShuffleData :=
  { savedOutputRect := QRect.ofXYWH 0 0 1000 500
    savedGeometry := QRect.ofXYWH 10 10 100 50
    savedOutputName := "DP-1"
    lastOutputRect := QRect.ofXYWH 0 0 1000 500
    lastGeometry := QRect.ofXYWH 10 10 100 50
    lastOutputName := "DP-1" }

/-- Window 1 on "DP-1" at (10,10) 100x50, as first tracked. -/
def windowHome : TrackedWindow :=
  { window := 1, frameGeometry := QRect.ofXYWH 10 10 100 50, data := dataHome }

/-- Window 1 after being restored onto the enlarged "DP-1". -/
def windowRestoredLarge : TrackedWindow :=
  { window := 1
    frameGeometry := QRect.ofXYWH 20 20 200 100
    data := { dataMovedAway with
      lastOutputRect := QRect.ofXYWH 0 0 2000 1000
      lastGeometry := QRect.ofXYWH 20 20 200 100
      lastOutputName := "DP-1" } }

/-! ## Concrete situations used to exercise the broker -/

/-- Workspace with two windows: window 1 (surface 11, the token issuer) and
window 2 (surface 22, the redeemer); window 1 is active. -/
def wsIssuerActive : Workspace :=
  { activeClient := some 1
    findClient := fun s => if s = 11 then some 1 else if s = 22 then some 2 else none
    surface := fun c => if c = 1 then 11 else 22
    desktopFileName := fun c => if c = 1 then "org.kde.konsole" else "org.kde.dolphin"
    tokenProperty := fun _ => ""
    iconFromDesktopFile := fun appId => appId }

/-- The same two windows with window 2 active, so the issuer is in the background. -/
def wsIssuerBackground : Workspace := { wsIssuerActive with activeClient := some 2 }

/-- The token minted by the first issuance for surface 11. -/
def firstToken : ActivationToken :=
  { token := "kwin-1", surface := 11, serial := 5, seat := 0,
    applicationId := "org.kde.konsole" }

/-- Broker state after the first issuance. -/
def stFirstIssued : XdgActivationV1Integration :=
  { m_currentActivationToken := some firstToken, i := 1 }

/-- The token minted by the second issuance for surface 11. -/
def secondToken : ActivationToken :=
  { token := "kwin-2", surface := 11, serial := 6, seat := 0,
    applicationId := "org.kde.konsole" }

/-- Broker state after the second issuance. -/
def stSecondIssued : XdgActivationV1Integration :=
  { m_currentActivationToken := some secondToken, i := 2 }

/-- Workspace in which the issuing surface 11 belongs to no window any more,
window 2 is active and window 3 (surface 33) carries the live token's value in
its token property. -/
def wsIssuerGone : Workspace :=
  { activeClient := some 2
    findClient := fun s => if s = 22 then some 2 else if s = 33 then some 3 else none
    surface := fun c => if c = 2 then 22 else 33
    desktopFileName := fun _ => "org.kde.dolphin"
    tokenProperty := fun c => if c = 3 then "kwin-1" else ""
    iconFromDesktopFile := fun appId => appId }

/-- Two token-creation requests made by the active window's surface. -/
def twoIssuances : List (Workspace × Request) :=
  [(wsIssuerActive, Request.createToken 11 5 0 "org.kde.konsole"),
   (wsIssuerActive, Request.createToken 11 6 0 "org.kde.konsole")]

/-- The replies to `twoIssuances` from the initial state. -/
def twoReplies : List Reply :=
  [{ state := stFirstIssued,
     effects := [Effect.startupAdded "kwin-1" "org.kde.konsole" "system-run"],
     returned := some "kwin-1" },
   { state := stSecondIssued,
     effects := [Effect.startupRemoved "kwin-1",
       Effect.startupAdded "kwin-2" "org.kde.konsole" "system-run"],
     returned := some "kwin-2" }]

/-! ## Output shuffler: the signal connections of `handleClientAdded` -/

/-- The signals of a tracked window that `Shuffler::handleClientAdded` connects. -/
inductive WindowSignal where
  | clientFinishUserMovedResized
  | frameGeometryChanged
  | fullScreenChanged
  | clientMaximizedStateChanged
  | quickTileModeChanged
  | sentToScreen
deriving DecidableEq, Repr

/-- The slot each signal of `client` is connected to: `frameGeometryChanged`
runs `updateLastShuffleState(client)`, the five others run
`updateFullShuffleState(client)`. -/
def Shuffler.handleSignal (s : Shuffler) (client : AbstractClient) :
    WindowSignal → Option Shuffler
  | WindowSignal.frameGeometryChanged => s.updateLastShuffleState client
  | WindowSignal.clientFinishUserMovedResized => s.updateFullShuffleState client
  | WindowSignal.fullScreenChanged => s.updateFullShuffleState client
  | WindowSignal.clientMaximizedStateChanged => s.updateFullShuffleState client
  | WindowSignal.quickTileModeChanged => s.updateFullShuffleState client
  | WindowSignal.sentToScreen => s.updateFullShuffleState client

/-- The keyboard-interactivity mode of a layer surface. -/
inductive KeyboardInteractivity where
  | none
  | exclusive
  | onDemand
deriving DecidableEq, Repr

/-- Address of a `LayerShellV1Client`. -/
abbrev LayerShellV1Client := Nat

/-- The two queues of `LayerShellV1Integration`
(`QVector<QPointer<LayerShellV1Client>>`), in insertion order. -/
structure LayerShellV1Integration where
  m_activateQueue : List LayerShellV1Client
  m_deactivateQueue : List LayerShellV1Client
deriving DecidableEq, Repr

/-- Modelled from the spec: `LayerShellV1Integration::scheduleActivate`, whose
body is not in layershellv1integration.h. The window is enqueued for
activation, removed from the deactivate queue if present, and appears at most
once. -/
def LayerShellV1Integration.scheduleActivate (l : LayerShellV1Integration)
    (client : LayerShellV1Client) : LayerShellV1Integration :=
  { m_activateQueue :=
      if client ∈ l.m_activateQueue then l.m_activateQueue
      else l.m_activateQueue ++ [client]
    m_deactivateQueue := l.m_deactivateQueue.filter (fun c => c ≠ client) }

/-- Modelled from the spec: `LayerShellV1Integration::scheduleDeactivate`, whose
body is not in layershellv1integration.h; the mirror image of
`scheduleActivate`. -/
def LayerShellV1Integration.scheduleDeactivate (l : LayerShellV1Integration)
    (client : LayerShellV1Client) : LayerShellV1Integration :=
  { m_activateQueue := l.m_activateQueue.filter (fun c => c ≠ client)
    m_deactivateQueue :=
      if client ∈ l.m_deactivateQueue then l.m_deactivateQueue
      else l.m_deactivateQueue ++ [client] }

/-- Modelled from the spec: `LayerShellV1Integration::handleActivateExclusive`,
whose body is not in layershellv1integration.h. It scans the activate queue;
the first entry whose weak reference still resolves (`mode` gives its
keyboard-interactivity mode, `none` for a destroyed surface) and whose mode is
exclusive becomes the focused surface. The result is that surface, if any; the
C++ return value is whether there is one. -/
def LayerShellV1Integration.handleActivateExclusive (l : LayerShellV1Integration)
    (mode : LayerShellV1Client → Option KeyboardInteractivity) : Option LayerShellV1Client :=
  l.m_activateQueue.find? (fun c => mode c = some KeyboardInteractivity.exclusive)

/-- Modelled from the spec: `LayerShellV1Integration::handleActivateOnDemand`,
whose body is not in layershellv1integration.h: the first on-demand entry of
the activate queue receives focus. -/
def LayerShellV1Integration.handleActivateOnDemand (l : LayerShellV1Integration)
    (mode : LayerShellV1Client → Option KeyboardInteractivity) : Option LayerShellV1Client :=
  l.m_activateQueue.find? (fun c => mode c = some KeyboardInteractivity.onDemand)

/-- Modelled from the spec: the activate pass of one drain cycle, whose body
is not in layershellv1integration.h: `handleActivateExclusive()` first, and
`handleActivateOnDemand()` only if no exclusive grab occurred. The result is
the surface given focus. -/
def LayerShellV1Integration.activatePass (l : LayerShellV1Integration)
    (mode : LayerShellV1Client → Option KeyboardInteractivity) : Option LayerShellV1Client :=
  match l.handleActivateExclusive mode with
  | some c => some c
  | none => l.handleActivateOnDemand mode

/-- Modelled from the spec: `LayerShellV1Integration::handleDeactivate`, whose
body is not in layershellv1integration.h: the live entries of the deactivate
queue lose focus, except the one just granted focus by the activate pass. The
result lists the surfaces that lose focus. -/
def LayerShellV1Integration.handleDeactivate (l : LayerShellV1Integration)
    (mode : LayerShellV1Client → Option KeyboardInteractivity)
    (granted : Option LayerShellV1Client) : List LayerShellV1Client :=
  l.m_deactivateQueue.filter (fun c => (mode c).isSome && decide (some c ≠ granted))

/-- Modelled from the spec: one drain cycle, whose body is not in
layershellv1integration.h: the activate pass, the deactivate pass, then both
queues are cleared. The result is the surface given focus, the surfaces that
lose focus, and the emptied queues. -/
def LayerShellV1Integration.drain (l : LayerShellV1Integration)
    (mode : LayerShellV1Client → Option KeyboardInteractivity) :
    Option LayerShellV1Client × List LayerShellV1Client × LayerShellV1Integration :=
  let granted := l.activatePass mode
  (granted, l.handleDeactivate mode granted, { m_activateQueue := [], m_deactivateQueue := [] })

/-- Keyboard modes of the example surfaces: 1 is on-demand, 2 is exclusive,
3 is on-demand, 4 has been destroyed. -/
def exampleModes : LayerShellV1Client → Option KeyboardInteractivity := fun c =>
  if c = 1 then some KeyboardInteractivity.onDemand
  else if c = 2 then some KeyboardInteractivity.exclusive
  else if c = 3 then some KeyboardInteractivity.onDemand
  else none

/-! ## Activation broker: startup indicators -/

/-- The effect of one broker action on the list of startup indicators on
display: `startupAdded` shows one, `startupRemoved` withdraws one. -/
def applyIndicator (shown : List String) : Effect → List String
  | Effect.startupAdded token _ _ => shown ++ [token]
  | Effect.startupRemoved token => shown.erase token
  | Effect.activateClient _ => shown
  | Effect.demandAttention _ => shown

/-- The indicators on display after the effects `es`, starting from `shown`. -/
def indicatorsAfter (shown : List String) (es : List Effect) : List String :=
  es.foldl applyIndicator shown

/-- All effects of a sequence of replies, in order. -/
def allEffects : List Reply → List Effect
  | [] => []
  | r :: rs => r.effects ++ allEffects rs

/-- The tokens withdrawn by the `startupRemoved` signals among `es`. -/
def removedTokens (es : List Effect) : List String :=
  es.filterMap (fun e => match e with
    | Effect.startupRemoved token => some token
    | _ => none)

/-- The tokens announced by the `startupAdded` signals among `es`. -/
def addedTokens (es : List Effect) : List String :=
  es.filterMap (fun e => match e with
    | Effect.startupAdded token _ _ => some token
    | _ => none)

/-- The value of the live token as a list: empty when no token is live. -/
def liveTokens (st : XdgActivationV1Integration) : List String :=
  match st.m_currentActivationToken with
  | none => []
  | some t => [t.token]

/-! ## Further concrete situations for the shuffler -/

/-- A window tracked with default-constructed shuffle data while no output
carries the empty name. -/
def windowUnplaced : TrackedWindow :=
  { window := 3, frameGeometry := QRect.ofXYWH 5 5 10 10, data := {} }

/-- Window 1 with the shuffle data written on "DP-1", its frame already at
(1010,10) on "HDMI-1" and `frameGeometryChanged` not yet handled. -/
def windowJustMoved : TrackedWindow :=
  { window := 1, frameGeometry := QRect.ofXYWH 1010 10 100 50, data := dataHome }

/-! ## Output shuffler: reachable states -/

/-- What happens to the shuffler and its world: the two slots connected to the
workspace, a signal of a tracked window, a window being given a new frame
geometry from outside, a change of the connected outputs, and a call of
`shuffle()`. -/
inductive ShufflerEvent where
  | clientAdded (client : AbstractClient) (frameGeometry : QRect)
      (isSpecialWindow isPopupWindow isPlaceable : Bool)
  | clientRemoved (client : AbstractClient)
  | signal (client : AbstractClient) (sig : WindowSignal)
  | windowMoved (client : AbstractClient) (rect : QRect)
  | outputsChanged (outputs : List AbstractOutput)
  | shuffle
deriving DecidableEq, Repr

/-- One event; `none` when an assertion of the shuffler fails. -/
def Shuffler.step (s : Shuffler) : ShufflerEvent → Option Shuffler
  | ShufflerEvent.clientAdded client frameGeometry isSpecialWindow isPopupWindow isPlaceable =>
    s.handleClientAdded client frameGeometry isSpecialWindow isPopupWindow isPlaceable
  | ShufflerEvent.clientRemoved client => some (s.handleClientRemoved client)
  | ShufflerEvent.signal client sig => s.handleSignal client sig
  | ShufflerEvent.windowMoved client rect => s.windowMoved client rect
  | ShufflerEvent.outputsChanged outputs => some { s with outputs := outputs }
  | ShufflerEvent.shuffle => s.shuffle.map (fun p => p.1)

/-- A sequence of events from state `s`. -/
def Shuffler.runEvents (s : Shuffler) : List ShufflerEvent → Option Shuffler
  | [] => some s
  | e :: es =>
    match s.step e with
    | none => none
    | some s1 => s1.runEvents es

/-- Every output has a valid rectangle and a non-empty name. -/
def outputsWellFormed (outputs : List AbstractOutput) : Prop :=
  ∀ o ∈ outputs, o.geometry.isValid = true ∧ o.name ≠ ""

/-- An event brings only well-formed output lists. -/
def ShufflerEvent.wellFormed : ShufflerEvent → Prop
  | ShufflerEvent.outputsChanged outputs => outputsWellFormed outputs
  | _ => True

/-- Shuffle data in which each of the saved and the last state either names no
output or holds a valid output rectangle. -/
def ShuffleData.wellFormed (d : ShuffleData) : Prop :=
  (d.savedOutputName = "" ∨ d.savedOutputRect.isValid = true) ∧
  (d.lastOutputName = "" ∨ d.lastOutputRect.isValid = true)

/-- A shuffler state whose outputs are well formed and whose entries all hold
well-formed shuffle data. -/
def Shuffler.wellFormed (s : Shuffler) : Prop :=
  outputsWellFormed s.outputs ∧ ∀ e ∈ s.m_shuffleData, e.data.wellFormed

/-- The hotplug round trip of window 1: tracked on "DP-1", "DP-1" unplugged,
window moved onto "HDMI-1", shuffle(), "DP-1" plugged back in with a larger
rectangle. -/
def roundTripEvents : List ShufflerEvent :=
  [ShufflerEvent.clientAdded 1 (QRect.ofXYWH 10 10 100 50) false false true,
   ShufflerEvent.outputsChanged [outputHDMI1],
   ShufflerEvent.windowMoved 1 (QRect.ofXYWH 1010 10 100 50),
   ShufflerEvent.shuffle,
   ShufflerEvent.outputsChanged [outputDP1Large, outputHDMI1]]

/-! ## Activation broker: a workspace without an active window -/

/-- The two windows of `wsIssuerActive` with no window active. -/
def wsNoneActive : Workspace := { wsIssuerActive with activeClient := none }

/-! ## Activation broker: the issuing window closed -/

/-- The workspace of `wsIssuerGone` with window 3 active, the window that
carries the live token's value in its token property: the issuing surface 11
belongs to no window any more. -/
def wsIssuerGoneHolderActive : Workspace := { wsIssuerGone with activeClient := some 3 }

/-! ## Decimal rendering of the counter -/

/-- Numeric value of a list of decimal digit characters. -/
def digitsValue (cs : List Char) : Nat :=
  cs.foldl (fun a c => 10 * a + (c.toNat - 48)) 0

theorem digitsValue_append_single (cs : List Char) (c : Char) :
    digitsValue (cs ++ [c]) = 10 * digitsValue cs + (c.toNat - 48) := by
  simp [digitsValue, List.foldl_append]

theorem digitChar_value (k : Nat) (hk : k < 10) : (Nat.digitChar k).toNat - 48 = k := by
  interval_cases k <;> rfl

theorem digitChar_ne_minus (k : Nat) (hk : k < 10) : Nat.digitChar k ≠ '-' := by
  interval_cases k <;> decide

theorem toDigitsCore_append (fuel : Nat) : ∀ (n : Nat) (ds : List Char),
    Nat.toDigitsCore 10 fuel n ds = Nat.toDigitsCore 10 fuel n [] ++ ds := by
  induction fuel with
  | zero => intro n ds; simp [Nat.toDigitsCore]
  | succ fuel ih =>
    intro n ds
    simp only [Nat.toDigitsCore]
    split
    · simp
    · rw [ih (n / 10) (_ :: ds), ih (n / 10) [_]]
      simp

theorem toDigitsCore_value (fuel : Nat) : ∀ n : Nat, n < fuel →
    digitsValue (Nat.toDigitsCore 10 fuel n []) = n := by
  induction fuel with
  | zero => intro n hn; omega
  | succ fuel ih =>
    intro n hn
    simp only [Nat.toDigitsCore]
    split
    · rename_i h0
      have : n % 10 < 10 := Nat.mod_lt _ (by decide)
      have hv := digitChar_value (n % 10) this
      simp only [digitsValue, List.foldl_cons, List.foldl_nil, hv]
      omega
    · rename_i h0
      rw [toDigitsCore_append, digitsValue_append_single, ih (n / 10) (by omega),
        digitChar_value (n % 10) (Nat.mod_lt _ (by decide))]
      omega

theorem toDigitsCore_no_minus (fuel : Nat) : ∀ (n : Nat) (ds : List Char),
    '-' ∉ ds → '-' ∉ Nat.toDigitsCore 10 fuel n ds := by
  induction fuel with
  | zero => intro n ds h; simpa [Nat.toDigitsCore] using h
  | succ fuel ih =>
    intro n ds h
    have hd : '-' ∉ Nat.digitChar (n % 10) :: ds := by
      intro hc
      rcases List.mem_cons.1 hc with hc | hc
      · exact digitChar_ne_minus (n % 10) (Nat.mod_lt _ (by decide)) hc.symm
      · exact h hc
    simp only [Nat.toDigitsCore]
    split
    · exact hd
    · exact ih _ _ hd

theorem natRepr_injective : Function.Injective Nat.repr := by
  intro a b h
  have h1 : Nat.toDigits 10 a = Nat.toDigits 10 b := by
    have := congrArg String.data h
    simpa [Nat.repr, List.asString] using this
  have ha := toDigitsCore_value (a + 1) a (by omega)
  have hb := toDigitsCore_value (b + 1) b (by omega)
  simp only [Nat.toDigits] at h1
  rw [h1] at ha
  omega

theorem natRepr_no_minus (n : Nat) : '-' ∉ (Nat.repr n).data := by
  simp only [Nat.repr, List.asString, Nat.toDigits]
  exact toDigitsCore_no_minus _ _ _ (by simp)

theorem intToString_ofNat (m : Nat) : toString (Int.ofNat m) = Nat.repr m := rfl

theorem intToString_negSucc (m : Nat) :
    toString (Int.negSucc m) = "-" ++ Nat.repr (m + 1) := rfl

theorem intToString_injective : Function.Injective (fun n : Int => toString n) := by
  intro a b h
  simp only at h
  cases a with
  | ofNat m =>
    cases b with
    | ofNat k =>
      rw [intToString_ofNat, intToString_ofNat] at h
      rw [natRepr_injective h]
    | negSucc k =>
      rw [intToString_ofNat, intToString_negSucc] at h
      exfalso
      apply natRepr_no_minus m
      rw [h]
      simp
  | negSucc m =>
    cases b with
    | ofNat k =>
      rw [intToString_ofNat, intToString_negSucc] at h
      exfalso
      apply natRepr_no_minus k
      rw [← h]
      simp
    | negSucc k =>
      rw [intToString_negSucc, intToString_negSucc] at h
      have h2 : Nat.repr (m + 1) = Nat.repr (k + 1) := by
        have := congrArg String.data h
        simp only [String.data_append, List.append_cancel_left_eq] at this
        exact String.ext this
      have := natRepr_injective h2
      have : m = k := by omega
      rw [this]

theorem tokenString_injective : Function.Injective tokenString := by
  intro a b h
  apply intToString_injective
  have := congrArg String.data h
  simp only [tokenString, String.data_append, List.append_cancel_left_eq] at this
  exact String.ext this

theorem tokenString_ne_empty (n : Int) : tokenString n ≠ "" := by
  intro h
  have := congrArg String.data h
  simp [tokenString, String.data_append] at this

/-! ## Arithmetic of the wrapping counter -/

theorem wrapInt32_range (n : Int) :
    -2147483648 ≤ wrapInt32 n ∧ wrapInt32 n < 2147483648 := by
  simp only [wrapInt32]
  norm_num
  omega

theorem wrapInt32_of_range (n : Int) (h1 : -2147483648 ≤ n) (h2 : n < 2147483648) :
    wrapInt32 n = n := by
  simp only [wrapInt32]
  norm_num
  omega

theorem wrapInt32_succ_wrap (n : Int) : wrapInt32 (wrapInt32 n + 1) = wrapInt32 (n + 1) := by
  simp only [wrapInt32]
  norm_num
  omega

theorem wrapInt32_eq_iff (a b : Int) :
    wrapInt32 a = wrapInt32 b ↔ (a - b) % 4294967296 = 0 := by
  simp only [wrapInt32]
  norm_num
  omega

/-! ## Activation broker: how each operation moves the state -/

theorem creator_cases (ws : Workspace) (st : XdgActivationV1Integration)
    (surface : SurfaceInterface) (serial : Nat) (seat : SeatInterface) (appId : String)
    (t : String) (st1 : XdgActivationV1Integration) (es : List Effect)
    (h : activationTokenCreator ws st surface serial seat appId = some (t, st1, es)) :
    (t = "" ∧ st1 = st ∧ es = []) ∨
    (t = tokenString (wrapInt32 (st.i + 1)) ∧ st1.i = wrapInt32 (st.i + 1) ∧
      st1.m_currentActivationToken =
        some { token := t, surface := surface, serial := serial, seat := seat,
               applicationId := appId }) := by
  unfold activationTokenCreator at h
  cases hact : ws.activeClient with
  | none => simp [hact] at h
  | some active =>
    simp only [hact] at h
    by_cases hs : ws.surface active = surface
    · right
      cases hlive : st.m_currentActivationToken with
      | none =>
        simp [hs, hlive] at h
        obtain ⟨h1, h2, _⟩ := h
        subst h1 h2
        simp
      | some old =>
        simp [hs, hlive, clear] at h
        obtain ⟨h1, h2, _⟩ := h
        subst h1 h2
        simp
    · left
      simp [hs] at h
      obtain ⟨h1, h2, h3⟩ := h
      exact ⟨h1.symm, h2.symm, by simpa [eq_comm] using h3⟩

theorem activateSurface_cases (ws : Workspace) (st st1 : XdgActivationV1Integration)
    (surface : SurfaceInterface) (token : String) (es : List Effect)
    (h : activateSurface ws st surface token = some (st1, es)) :
    st1 = st ∨ st1 = { st with m_currentActivationToken := none } := by
  unfold activateSurface at h
  cases hc : ws.findClient surface with
  | none => simp [hc] at h; exact Or.inl h.1.symm
  | some client =>
    cases hlive : st.m_currentActivationToken with
    | none => simp [hc, hlive] at h; exact Or.inl h.1.symm
    | some cur =>
      simp only [hc, hlive] at h
      by_cases ht : cur.token = token
      · right
        simp only [ht, ne_eq, not_true_eq_false, if_false, clear, hlive] at h
        split at h
        · simp at h
        · simp only [Option.some.injEq, Prod.mk.injEq] at h
          exact h.1.symm
      · simp [ht] at h
        exact Or.inl h.1.symm

theorem clientActivated_cases (ws : Workspace) (st st1 : XdgActivationV1Integration)
    (client : Option AbstractClient) (es : List Effect)
    (h : clientActivated ws st client = some (st1, es)) :
    st1 = st ∨ st1 = { st with m_currentActivationToken := none } := by
  unfold clientActivated at h
  split at h
  · simp at h; exact Or.inl h.1.symm
  · simp at h; exact Or.inl h.1.symm
  · rename_i t c hlive
    split at h
    · simp at h; exact Or.inl h.1.symm
    · simp [clear, hlive] at h
      exact Or.inr h.1.symm

/-- A request that is not a successful issuance keeps the counter and either
keeps or drops the live token; a successful issuance advances the counter by
one and returns the token built from the new counter value. -/
theorem handle_cases (ws : Workspace) (st : XdgActivationV1Integration) (rq : Request)
    (r : Reply) (h : handle ws st rq = some r) :
    (r.issued = none ∧ (r.state = st ∨ r.state = { st with m_currentActivationToken := none })) ∨
    (r.issued = some (tokenString (wrapInt32 (st.i + 1))) ∧
      r.state.i = wrapInt32 (st.i + 1) ∧
      (r.state.m_currentActivationToken.map ActivationToken.token) =
        some (tokenString (wrapInt32 (st.i + 1)))) := by
  cases rq with
  | createToken surface serial seat appId =>
    simp only [handle, Option.map_eq_some'] at h
    obtain ⟨⟨t, st1, es⟩, hc, hr⟩ := h
    subst hr
    rcases creator_cases ws st surface serial seat appId t st1 es hc with ⟨h1, h2, _⟩ | ⟨h1, h2, h3⟩
    · left
      subst h1 h2
      simp [Reply.issued]
    · right
      have hne := tokenString_ne_empty (wrapInt32 (st.i + 1))
      subst h1
      simp [Reply.issued, hne, h2, h3]
  | activate surface token =>
    simp only [handle, Option.map_eq_some'] at h
    obtain ⟨⟨st1, es⟩, hc, hr⟩ := h
    subst hr
    left
    exact ⟨rfl, activateSurface_cases ws st st1 surface token es hc⟩
  | clientActivated client =>
    simp only [handle, Option.map_eq_some'] at h
    obtain ⟨⟨st1, es⟩, hc, hr⟩ := h
    subst hr
    left
    exact ⟨rfl, clientActivated_cases ws st st1 client es hc⟩

/-! ## Activation broker: request sequences -/

theorem wrapInt32_add_wrap (a b : Int) : wrapInt32 (wrapInt32 a + b) = wrapInt32 (a + b) := by
  simp only [wrapInt32]
  norm_num
  omega

theorem wrapInt32_idem (a : Int) : wrapInt32 (wrapInt32 a) = wrapInt32 a := by
  simp only [wrapInt32]
  norm_num

theorem run_cons_some (ws : Workspace) (rq : Request) (rest : List (Workspace × Request))
    (st st1 : XdgActivationV1Integration) (rs : List Reply)
    (h : run st ((ws, rq) :: rest) = some (st1, rs)) :
    ∃ r rs1, handle ws st rq = some r ∧ run r.state rest = some (st1, rs1) ∧ rs = r :: rs1 := by
  simp only [run] at h
  cases hh : handle ws st rq with
  | none => simp [hh] at h
  | some r =>
    simp only [hh] at h
    cases hr : run r.state rest with
    | none => simp [hr] at h
    | some p =>
      obtain ⟨st2, rs1⟩ := p
      simp only [hr, Option.some.injEq, Prod.mk.injEq] at h
      exact ⟨r, rs1, rfl, by rw [hr, h.1], h.2.symm⟩

/-- Requests among which no issuance succeeds leave the counter alone and can
only drop the live token, never replace it. -/
theorem run_no_issue (reqs : List (Workspace × Request)) :
    ∀ (st st1 : XdgActivationV1Integration) (rs : List Reply),
      run st reqs = some (st1, rs) → issuedTokens rs = [] →
      st1.i = st.i ∧
        (st1.m_currentActivationToken = none ∨
         st1.m_currentActivationToken = st.m_currentActivationToken) := by
  induction reqs with
  | nil =>
    intro st st1 rs h _
    simp only [run, Option.some.injEq, Prod.mk.injEq] at h
    rw [← h.1]
    exact ⟨rfl, Or.inr rfl⟩
  | cons x rest ih =>
    intro st st1 rs h hno
    obtain ⟨ws, rq⟩ := x
    obtain ⟨r, rs1, hh, hr, hrs⟩ := run_cons_some ws rq rest st st1 rs h
    subst hrs
    have hnone : r.issued = none ∧ issuedTokens rs1 = [] := by
      simp only [issuedTokens, List.filterMap_cons] at hno
      cases hi : r.issued with
      | none => simp only [hi] at hno; exact ⟨rfl, hno⟩
      | some t => simp [hi] at hno
    obtain ⟨hi1, hi2⟩ := ih r.state st1 rs1 hr hnone.2
    rcases handle_cases ws st rq r hh with ⟨_, hst | hst⟩ | ⟨hiss, _, _⟩
    · rw [hst] at hi1 hi2
      exact ⟨hi1, hi2⟩
    · rw [hst] at hi1 hi2
      refine ⟨hi1, Or.inl ?_⟩
      rcases hi2 with h2 | h2 <;> simpa using h2
    · rw [hnone.1] at hiss
      simp at hiss

/-- The successful issuances of a request sequence hand out the tokens built
from consecutive counter values, and the counter ends advanced by their number. -/
theorem run_issued (reqs : List (Workspace × Request)) :
    ∀ (st st1 : XdgActivationV1Integration) (rs : List Reply),
      wrapInt32 st.i = st.i → run st reqs = some (st1, rs) →
      issuedTokens rs =
        (List.range (issuedTokens rs).length).map
          (fun j => tokenString (wrapInt32 (st.i + ((j : Nat) : Int) + 1))) ∧
      st1.i = wrapInt32 (st.i + (((issuedTokens rs).length : Nat) : Int)) := by
  induction reqs with
  | nil =>
    intro st st1 rs hin h
    simp only [run, Option.some.injEq, Prod.mk.injEq] at h
    rw [← h.1, ← h.2]
    simp [issuedTokens, hin]
  | cons x rest ih =>
    intro st st1 rs hin h
    obtain ⟨ws, rq⟩ := x
    obtain ⟨r, rs1, hh, hr, hrs⟩ := run_cons_some ws rq rest st st1 rs h
    subst hrs
    rcases handle_cases ws st rq r hh with ⟨hiss, hst⟩ | ⟨hiss, hcnt, _⟩
    · have hri : r.state.i = st.i := by
        rcases hst with hst | hst <;> rw [hst]
      have hin1 : wrapInt32 r.state.i = r.state.i := by rw [hri]; exact hin
      obtain ⟨ih1, ih2⟩ := ih r.state st1 rs1 hin1 hr
      have htok : issuedTokens (r :: rs1) = issuedTokens rs1 := by
        simp [issuedTokens, List.filterMap_cons, hiss]
      rw [htok, ← hri]
      exact ⟨ih1, ih2⟩
    · have hin1 : wrapInt32 r.state.i = r.state.i := by rw [hcnt]; exact wrapInt32_idem _
      obtain ⟨ih1, ih2⟩ := ih r.state st1 rs1 hin1 hr
      have htok : issuedTokens (r :: rs1) =
          tokenString (wrapInt32 (st.i + 1)) :: issuedTokens rs1 := by
        simp [issuedTokens, List.filterMap_cons, hiss]
      rw [htok]
      constructor
      · rw [List.length_cons, List.range_succ_eq_map, List.map_cons, List.map_map]
        congr 1
        · simp
        · conv_lhs => rw [ih1]
          apply List.map_congr_left
          intro j _
          simp only [Function.comp, hcnt]
          rw [add_assoc (wrapInt32 (st.i + 1)), wrapInt32_add_wrap]
          congr 2
          push_cast
          ring
      · rw [ih2, hcnt, wrapInt32_add_wrap, List.length_cons]
        congr 1
        push_cast
        ring

/-- A redemption that names no window, or meets no live token, or presents a
value other than the live one, returns at once. -/
theorem activateSurface_rejected (ws : Workspace) (st : XdgActivationV1Integration)
    (surface : SurfaceInterface) (token : String)
    (h : ws.findClient surface = none ∨
      ∀ cur, st.m_currentActivationToken = some cur → cur.token ≠ token) :
    activateSurface ws st surface token = some (st, []) := by
  unfold activateSurface
  cases hc : ws.findClient surface with
  | none => rfl
  | some client =>
    cases hlive : st.m_currentActivationToken with
    | none => rfl
    | some cur =>
      rcases h with h | h
      · rw [hc] at h; cases h
      · simp [h cur hlive]

/-- A matched redemption whose decision is defined makes exactly one request on
the target window and then clears the token. -/
theorem activateSurface_matched (ws : Workspace) (st : XdgActivationV1Integration)
    (surface : SurfaceInterface) (client : AbstractClient) (cur : ActivationToken)
    (hclient : ws.findClient surface = some client)
    (hlive : st.m_currentActivationToken = some cur) :
    activateSurface ws st surface cur.token =
      (if ws.activeClient = ws.findClient cur.surface then some (Effect.activateClient client)
       else if cur.applicationId = "" then some (Effect.activateClient client)
       else
         match ws.findClient cur.surface with
         | none => none
         | some owner =>
           if ws.desktopFileName owner = "" then some (Effect.activateClient client)
           else some (Effect.demandAttention client)).bind
        (fun e => some ({ st with m_currentActivationToken := none },
          [e, Effect.startupRemoved cur.token])) := by
  unfold activateSurface
  simp only [hclient, hlive, ne_eq, not_true_eq_false, if_false, clear]
  split <;> simp_all

/-- With the requesting surface being the active window's surface the creator
always issues, returning the token built from the advanced counter. -/
theorem creator_succeeds (ws : Workspace) (st : XdgActivationV1Integration)
    (surface : SurfaceInterface) (serial : Nat) (seat : SeatInterface) (appId : String)
    (active : AbstractClient)
    (hactive : ws.activeClient = some active) (hsurface : ws.surface active = surface) :
    ∃ st1 es, activationTokenCreator ws st surface serial seat appId =
      some (tokenString (wrapInt32 (st.i + 1)), st1, es) := by
  unfold activationTokenCreator
  cases hlive : st.m_currentActivationToken with
  | none => simp [hactive, hsurface, hlive]
  | some old => simp [hactive, hsurface, hlive, clear]

/-- Repeating a request that the active window's surface makes issues a token
every time. -/
theorem run_replicate_create (ws : Workspace) (surface : SurfaceInterface) (serial : Nat)
    (seat : SeatInterface) (appId : String) (active : AbstractClient)
    (hactive : ws.activeClient = some active) (hsurface : ws.surface active = surface)
    (n : Nat) : ∀ st : XdgActivationV1Integration,
      ∃ st1 rs, run st (List.replicate n (ws, Request.createToken surface serial seat appId)) =
        some (st1, rs) ∧ (issuedTokens rs).length = n := by
  induction n with
  | zero => intro st; exact ⟨st, [], rfl, rfl⟩
  | succ n ih =>
    intro st
    obtain ⟨st1, es, hc⟩ := creator_succeeds ws st surface serial seat appId active hactive hsurface
    obtain ⟨st2, rs, hr, hlen⟩ := ih st1
    refine ⟨st2, (⟨st1, es, some (tokenString (wrapInt32 (st.i + 1)))⟩ : Reply) :: rs, ?_, ?_⟩
    · simp only [List.replicate_succ, run, handle, hc, Option.map_some', hr]
    · simp [issuedTokens, List.filterMap_cons, Reply.issued, tokenString_ne_empty] at hlen ⊢
      exact hlen

theorem getElem?_map_range {α : Type} (f : Nat → α) (n k : Nat) (hk : k < n) :
    ((List.range n).map f)[k]? = some (f k) := by
  rw [List.getElem?_map, List.getElem?_range hk]
  rfl

/-! ## Properties of the activation broker -/

/-- The part of C1 that the code meets: a redemption with the live token's
value on a surface that resolves to a window, the issuing surface resolving to
a window too, activates the target
exactly when the issuing window is active, or the token's application id is
empty, or the issuing window's desktop file name is empty; otherwise the target
gets a demand-attention request; exactly one of the two requests is made, and
only on the target. -/
theorem activateSurface_activates_iff (ws : Workspace) (st : XdgActivationV1Integration)
    (surface : SurfaceInterface) (token : String) (client owner : AbstractClient)
    (cur : ActivationToken)
    (hclient : ws.findClient surface = some client)
    (hlive : st.m_currentActivationToken = some cur)
    (htoken : cur.token = token)
    (howner : ws.findClient cur.surface = some owner) :
    ∃ st1 es, activateSurface ws st surface token = some (st1, es) ∧
      (Effect.activateClient client ∈ es ↔
        (ws.activeClient = some owner ∨ cur.applicationId = "" ∨
          ws.desktopFileName owner = "")) ∧
      (Effect.demandAttention client ∈ es ↔
        ¬ (ws.activeClient = some owner ∨ cur.applicationId = "" ∨
          ws.desktopFileName owner = "")) ∧
      (∀ c, Effect.activateClient c ∈ es → c = client) ∧
      (∀ c, Effect.demandAttention c ∈ es → c = client) := by
  subst htoken
  rw [activateSurface_matched ws st surface client cur hclient hlive, howner]
  by_cases h1 : ws.activeClient = some owner
  · exact ⟨_, _, by simp only [h1, if_true, Option.bind]; rfl, by simp [h1]⟩
  · by_cases h2 : cur.applicationId = ""
    · exact ⟨_, _, by simp only [h1, h2, if_true, if_false, Option.bind]; rfl, by simp [h2]⟩
    · by_cases h3 : ws.desktopFileName owner = ""
      · exact ⟨_, _, by simp only [h1, h2, h3, if_true, if_false, Option.bind]; rfl,
          by simp [h3]⟩
      · exact ⟨_, _, by simp only [h1, h2, h3, if_false, Option.bind]; rfl,
          by simp [h1, h2, h3]⟩

/-- Example: the issuer (window 1) in the background with a non-empty
application id and desktop file name; the redemption for window 2 is defined
and demands attention. -/
theorem activateSurface_activates_iff_witness :
    (wsIssuerBackground.findClient 22 = some 2 ∧
      stFirstIssued.m_currentActivationToken = some firstToken ∧
      firstToken.token = "kwin-1" ∧
      wsIssuerBackground.findClient firstToken.surface = some 1) ∧
    activateSurface wsIssuerBackground stFirstIssued 22 "kwin-1" =
      some ({ m_currentActivationToken := none, i := 1 },
        [Effect.demandAttention 2, Effect.startupRemoved "kwin-1"]) ∧
    ∃ st1 es, activateSurface wsIssuerBackground stFirstIssued 22 "kwin-1" = some (st1, es) ∧
      (Effect.activateClient 2 ∈ es ↔
        (wsIssuerBackground.activeClient = some 1 ∨ firstToken.applicationId = "" ∨
          wsIssuerBackground.desktopFileName 1 = "")) ∧
      (Effect.demandAttention 2 ∈ es ↔
        ¬ (wsIssuerBackground.activeClient = some 1 ∨ firstToken.applicationId = "" ∨
          wsIssuerBackground.desktopFileName 1 = "")) ∧
      (∀ c, Effect.activateClient c ∈ es → c = 2) ∧
      (∀ c, Effect.demandAttention c ∈ es → c = 2) :=
  ⟨⟨rfl, rfl, rfl, rfl⟩, by decide,
    activateSurface_activates_iff wsIssuerBackground stFirstIssued 22 "kwin-1" 2 1 firstToken
      rfl rfl rfl rfl⟩

/-- The part of C2 that the code meets: while some window is active, a
token-creation request for a surface other than the active window's surface
returns the empty string, leaves the broker state (live token and
counter) as it was and emits nothing; every later request sequence therefore
runs exactly as it would have run without the rejected request. -/
theorem creator_rejects_inactive_surface (ws : Workspace) (st : XdgActivationV1Integration)
    (surface : SurfaceInterface) (serial : Nat) (seat : SeatInterface) (appId : String)
    (active : AbstractClient)
    (hactive : ws.activeClient = some active) (hsurface : ws.surface active ≠ surface) :
    activationTokenCreator ws st surface serial seat appId = some ("", st, []) ∧
    ∀ rest : List (Workspace × Request),
      run st ((ws, Request.createToken surface serial seat appId) :: rest) =
        (run st rest).map
          (fun p => (p.1, { state := st, effects := [], returned := some "" } :: p.2)) := by
  have h : activationTokenCreator ws st surface serial seat appId = some ("", st, []) := by
    unfold activationTokenCreator
    simp [hactive, hsurface]
  refine ⟨h, ?_⟩
  intro rest
  simp only [run, handle, h, Option.map_some']
  cases run st rest with
  | none => rfl
  | some p => rfl

/-- Example: window 1 is active and the request comes from surface 22
while the first token is live. -/
theorem creator_rejects_inactive_surface_witness :
    (wsIssuerActive.activeClient = some 1 ∧ wsIssuerActive.surface 1 ≠ 22) ∧
    activationTokenCreator wsIssuerActive stFirstIssued 22 9 0 "org.kde.dolphin" =
      some ("", stFirstIssued, []) ∧
    ∀ rest : List (Workspace × Request),
      run stFirstIssued
          ((wsIssuerActive, Request.createToken 22 9 0 "org.kde.dolphin") :: rest) =
        (run stFirstIssued rest).map
          (fun p => (p.1, { state := stFirstIssued, effects := [], returned := some "" } :: p.2)) :=
  ⟨⟨rfl, by decide⟩,
    creator_rejects_inactive_surface wsIssuerActive stFirstIssued 22 9 0 "org.kde.dolphin" 1
      rfl (by decide)⟩

/-- C3: after a token t1 has been issued and, with no other successful
issuance in between, a token t2 has been issued, t2 is the live token, t1
differs from t2, and a redemption presenting t1 (for any surface, in any
workspace situation) does nothing: no effect is produced and the state, with
t2 live, is unchanged. The same rejection holds after any further requests
that contain no successful issuance. -/
theorem superseded_token_rejected (ws1 ws2 : Workspace)
    (st0 st1 stMid st2 : XdgActivationV1Integration)
    (surface1 surface2 : SurfaceInterface) (serial1 serial2 : Nat)
    (seat1 seat2 : SeatInterface) (appId1 appId2 : String)
    (t1 t2 : String) (es1 es2 : List Effect)
    (mid : List (Workspace × Request)) (rsMid : List Reply)
    (h1 : activationTokenCreator ws1 st0 surface1 serial1 seat1 appId1 = some (t1, st1, es1))
    (hne1 : t1 ≠ "")
    (hmid : run st1 mid = some (stMid, rsMid)) (hquiet : issuedTokens rsMid = [])
    (h2 : activationTokenCreator ws2 stMid surface2 serial2 seat2 appId2 = some (t2, st2, es2))
    (hne2 : t2 ≠ "") :
    st2.m_currentActivationToken.map ActivationToken.token = some t2 ∧
    t1 ≠ t2 ∧
    (∀ (ws : Workspace) (surface : SurfaceInterface),
      activateSurface ws st2 surface t1 = some (st2, [])) ∧
    (∀ (post : List (Workspace × Request)) (st3 : XdgActivationV1Integration)
      (rsPost : List Reply),
      run st2 post = some (st3, rsPost) → issuedTokens rsPost = [] →
      ∀ (ws : Workspace) (surface : SurfaceInterface),
        activateSurface ws st3 surface t1 = some (st3, [])) := by
  rcases creator_cases ws1 st0 surface1 serial1 seat1 appId1 t1 st1 es1 h1 with
    ⟨he, _, _⟩ | ⟨ht1, hi1, _⟩
  · exact absurd he hne1
  rcases creator_cases ws2 stMid surface2 serial2 seat2 appId2 t2 st2 es2 h2 with
    ⟨he, _, _⟩ | ⟨ht2, _, hlive2⟩
  · exact absurd he hne2
  obtain ⟨himid, _⟩ := run_no_issue mid st1 stMid rsMid hmid hquiet
  have hdiff : t1 ≠ t2 := by
    rw [ht1, ht2, himid, hi1]
    intro hc
    have := tokenString_injective hc
    simp only [wrapInt32] at this
    norm_num at this
    omega
  have hrej : ∀ st : XdgActivationV1Integration,
      (st.m_currentActivationToken = none ∨
        st.m_currentActivationToken = st2.m_currentActivationToken) →
      ∀ (ws : Workspace) (surface : SurfaceInterface),
        activateSurface ws st surface t1 = some (st, []) := by
    intro st hst ws surface
    apply activateSurface_rejected
    right
    intro cur hcur
    rcases hst with hst | hst
    · rw [hst] at hcur; cases hcur
    · rw [hst, hlive2] at hcur
      simp only [Option.some.injEq] at hcur
      rw [← hcur]
      exact fun hc => hdiff hc.symm
  refine ⟨by rw [hlive2]; rfl, hdiff, hrej st2 (Or.inr rfl), ?_⟩
  intro post st3 rsPost hpost hq ws surface
  exact hrej st3 (run_no_issue post st2 st3 rsPost hpost hq).2 ws surface

/-- Witness for C3: "kwin-1" is issued, a request from an inactive surface is
rejected, "kwin-2" is issued; redeeming "kwin-1" afterwards changes nothing. -/
theorem superseded_token_rejected_witness :
    (activationTokenCreator wsIssuerActive XdgActivationV1Integration.init 11 5 0
        "org.kde.konsole" =
      some ("kwin-1", stFirstIssued,
        [Effect.startupAdded "kwin-1" "org.kde.konsole" "system-run"]) ∧
      "kwin-1" ≠ "" ∧
      run stFirstIssued [(wsIssuerActive, Request.createToken 22 9 0 "org.kde.dolphin")] =
        some (stFirstIssued,
          [{ state := stFirstIssued, effects := [], returned := some "" }]) ∧
      issuedTokens [{ state := stFirstIssued, effects := [], returned := some "" }] = [] ∧
      activationTokenCreator wsIssuerActive stFirstIssued 11 6 0 "org.kde.konsole" =
        some ("kwin-2", stSecondIssued,
          [Effect.startupRemoved "kwin-1",
           Effect.startupAdded "kwin-2" "org.kde.konsole" "system-run"]) ∧
      "kwin-2" ≠ "") ∧
    activateSurface wsIssuerBackground stSecondIssued 22 "kwin-1" = some (stSecondIssued, []) :=
  ⟨⟨by decide, by decide, by decide, by decide, by decide, by decide⟩,
    (superseded_token_rejected wsIssuerActive wsIssuerActive XdgActivationV1Integration.init
      stFirstIssued stFirstIssued stSecondIssued 11 11 5 6 0 0 "org.kde.konsole"
      "org.kde.konsole" "kwin-1" "kwin-2"
      [Effect.startupAdded "kwin-1" "org.kde.konsole" "system-run"]
      [Effect.startupRemoved "kwin-1",
       Effect.startupAdded "kwin-2" "org.kde.konsole" "system-run"]
      [(wsIssuerActive, Request.createToken 22 9 0 "org.kde.dolphin")]
      [{ state := stFirstIssued, effects := [], returned := some "" }]
      (by decide) (by decide) (by decide) (by decide) (by decide) (by decide)).2.2.1
      wsIssuerBackground 22⟩

/-- The part of C4 that the code meets: a redemption with the live token's
value on a surface that resolves to a window, whose decision is defined (the issuing surface resolves to a window,
or equals the active window as a pointer, or the application id is empty),
makes one request on the target (activation or demand-attention), withdraws
the indicator and leaves no token live; repeating the redemption with the same
value, for any surface in any workspace situation, is rejected: no effect, no
state change. -/
theorem redemption_single_use (ws : Workspace) (st : XdgActivationV1Integration)
    (surface : SurfaceInterface) (token : String) (client : AbstractClient)
    (cur : ActivationToken)
    (hclient : ws.findClient surface = some client)
    (hlive : st.m_currentActivationToken = some cur)
    (htoken : cur.token = token)
    (hdefined : ws.activeClient = ws.findClient cur.surface ∨ cur.applicationId = "" ∨
      (ws.findClient cur.surface).isSome = true) :
    ∃ e, (e = Effect.activateClient client ∨ e = Effect.demandAttention client) ∧
      activateSurface ws st surface token =
        some ({ st with m_currentActivationToken := none },
          [e, Effect.startupRemoved cur.token]) ∧
      ({ st with m_currentActivationToken := none } :
        XdgActivationV1Integration).m_currentActivationToken = none ∧
      ∀ (ws1 : Workspace) (surface1 : SurfaceInterface),
        activateSurface ws1 { st with m_currentActivationToken := none } surface1 token =
          some ({ st with m_currentActivationToken := none }, []) := by
  subst htoken
  have hrepeat : ∀ (ws1 : Workspace) (surface1 : SurfaceInterface),
      activateSurface ws1 { st with m_currentActivationToken := none } surface1 cur.token =
        some ({ st with m_currentActivationToken := none }, []) := by
    intro ws1 surface1
    apply activateSurface_rejected
    right
    intro c hc
    cases hc
  rw [activateSurface_matched ws st surface client cur hclient hlive]
  by_cases h1 : ws.activeClient = ws.findClient cur.surface
  · exact ⟨Effect.activateClient client, Or.inl rfl, by simp [h1], rfl, hrepeat⟩
  · by_cases h2 : cur.applicationId = ""
    · exact ⟨Effect.activateClient client, Or.inl rfl, by simp [h1, h2], rfl, hrepeat⟩
    · cases howner : ws.findClient cur.surface with
      | none =>
        rcases hdefined with h | h | h
        · exact absurd h h1
        · exact absurd h h2
        · rw [howner] at h; cases h
      | some owner =>
        by_cases h3 : ws.desktopFileName owner = ""
        · refine ⟨Effect.activateClient client, Or.inl rfl, ?_, rfl, hrepeat⟩
          rw [howner] at h1
          simp [h1, h2, h3]
        · refine ⟨Effect.demandAttention client, Or.inr rfl, ?_, rfl, hrepeat⟩
          rw [howner] at h1
          simp [h1, h2, h3]

/-- Example: the background issuer case (demand-attention outcome). -/
theorem redemption_single_use_witness :
    (wsIssuerBackground.findClient 22 = some 2 ∧
      stFirstIssued.m_currentActivationToken = some firstToken ∧
      firstToken.token = "kwin-1" ∧
      (wsIssuerBackground.activeClient = wsIssuerBackground.findClient firstToken.surface ∨
        firstToken.applicationId = "" ∨
        (wsIssuerBackground.findClient firstToken.surface).isSome = true)) ∧
    ∃ e, (e = Effect.activateClient 2 ∨ e = Effect.demandAttention 2) ∧
      activateSurface wsIssuerBackground stFirstIssued 22 "kwin-1" =
        some ({ stFirstIssued with m_currentActivationToken := none },
          [e, Effect.startupRemoved firstToken.token]) ∧
      ({ stFirstIssued with m_currentActivationToken := none } :
        XdgActivationV1Integration).m_currentActivationToken = none ∧
      ∀ (ws1 : Workspace) (surface1 : SurfaceInterface),
        activateSurface ws1 { stFirstIssued with m_currentActivationToken := none } surface1
            "kwin-1" =
          some ({ stFirstIssued with m_currentActivationToken := none }, []) :=
  ⟨⟨rfl, rfl, rfl, Or.inr (Or.inr rfl)⟩,
    redemption_single_use wsIssuerBackground stFirstIssued 22 "kwin-1" 2 firstToken
      rfl rfl rfl (Or.inr (Or.inr rfl))⟩

/-- C5: when no token is live, or the presented value differs from the live
token's value, or the redeeming surface resolves to no window, activateSurface
produces no effect at all (no activation, no demand-attention, no
startupRemoved) and returns the broker state unchanged. -/
theorem rejected_redemption_no_effect (ws : Workspace) (st : XdgActivationV1Integration)
    (surface : SurfaceInterface) (token : String)
    (h : st.m_currentActivationToken = none ∨
      (∃ cur, st.m_currentActivationToken = some cur ∧ cur.token ≠ token) ∨
      ws.findClient surface = none) :
    activateSurface ws st surface token = some (st, []) := by
  apply activateSurface_rejected
  rcases h with h | ⟨cur, hcur, hne⟩ | h
  · right
    intro c hc
    rw [h] at hc
    cases hc
  · right
    intro c hc
    rw [hcur] at hc
    simp only [Option.some.injEq] at hc
    rw [← hc]
    exact hne
  · exact Or.inl h

/-- Witness for C5: "kwin-1" is presented while "kwin-2" is live. -/
theorem rejected_redemption_no_effect_witness :
    (stSecondIssued.m_currentActivationToken = none ∨
      (∃ cur, stSecondIssued.m_currentActivationToken = some cur ∧ cur.token ≠ "kwin-1") ∨
      wsIssuerBackground.findClient 22 = none) ∧
    activateSurface wsIssuerBackground stSecondIssued 22 "kwin-1" = some (stSecondIssued, []) :=
  ⟨Or.inr (Or.inl ⟨secondToken, rfl, by decide⟩),
    rejected_redemption_no_effect wsIssuerBackground stSecondIssued 22 "kwin-1"
      (Or.inr (Or.inl ⟨secondToken, rfl, by decide⟩))⟩

/-- C6: on activation of a window whose token property differs from the live
token's value the live token is cleared and startupRemoved is emitted for it
(counter untouched); when the property equals the live token's value, or when
no token is live, the handler changes nothing and emits nothing. -/
theorem clientActivated_supersedes (ws : Workspace) (st : XdgActivationV1Integration)
    (client : AbstractClient) :
    (∀ cur, st.m_currentActivationToken = some cur → ws.tokenProperty client ≠ cur.token →
      clientActivated ws st (some client) =
        some ({ st with m_currentActivationToken := none },
          [Effect.startupRemoved cur.token])) ∧
    (∀ cur, st.m_currentActivationToken = some cur → ws.tokenProperty client = cur.token →
      clientActivated ws st (some client) = some (st, [])) ∧
    (st.m_currentActivationToken = none →
      clientActivated ws st (some client) = some (st, [])) := by
  refine ⟨?_, ?_, ?_⟩
  · intro cur hlive hne
    simp [clientActivated, hlive, hne, clear]
  · intro cur hlive heq
    simp [clientActivated, hlive, heq]
  · intro hnone
    simp [clientActivated, hnone]

/-- Witness for C6: with "kwin-1" live, activating window 2 (empty property)
clears the token, activating window 3 (property "kwin-1") keeps it, and with no
live token nothing happens. -/
theorem clientActivated_supersedes_witness :
    clientActivated wsIssuerGone stFirstIssued (some 2) =
      some ({ stFirstIssued with m_currentActivationToken := none },
        [Effect.startupRemoved "kwin-1"]) ∧
    clientActivated wsIssuerGone stFirstIssued (some 3) = some (stFirstIssued, []) ∧
    clientActivated wsIssuerGone XdgActivationV1Integration.init (some 2) =
      some (XdgActivationV1Integration.init, []) :=
  ⟨(clientActivated_supersedes wsIssuerGone stFirstIssued 2).1 firstToken rfl (by decide),
    (clientActivated_supersedes wsIssuerGone stFirstIssued 3).2.1 firstToken rfl (by decide),
    (clientActivated_supersedes wsIssuerGone XdgActivationV1Integration.init 2).2.2 rfl⟩

/-- C7 (amended): along any request sequence from the initial state every
issued token is non-empty, the counter equals the number of successful
issuances (as a 32-bit int), the n-th successful issuance returns "kwin-n" as
long as n is below 2^31, and two issuances fewer than 2^32 issuances apart
return different tokens. -/
theorem issued_tokens_distinct_in_range (reqs : List (Workspace × Request))
    (st : XdgActivationV1Integration) (rs : List Reply)
    (h : run XdgActivationV1Integration.init reqs = some (st, rs)) :
    st.i = wrapInt32 (((issuedTokens rs).length : Nat) : Int) ∧
    (∀ t ∈ issuedTokens rs, t ≠ "") ∧
    (∀ n : Nat, 1 ≤ n → n ≤ (issuedTokens rs).length → n < 2147483648 →
      (issuedTokens rs)[n - 1]? = some ("kwin-" ++ toString n)) ∧
    (∀ (m n : Nat) (s t : String), m < n → n - m < 4294967296 →
      (issuedTokens rs)[m]? = some s → (issuedTokens rs)[n]? = some t → s ≠ t) := by
  obtain ⟨htok, hcnt⟩ := run_issued reqs XdgActivationV1Integration.init st rs (by decide) h
  simp only [XdgActivationV1Integration.init, zero_add] at htok hcnt
  refine ⟨hcnt, ?_, ?_, ?_⟩
  · intro t ht
    rw [htok] at ht
    obtain ⟨j, _, hj⟩ := List.mem_map.1 ht
    rw [← hj]
    exact tokenString_ne_empty _
  · intro n h1 h2 h3
    rw [htok, getElem?_map_range _ _ _ (by omega)]
    have hw : wrapInt32 (((n - 1 : Nat) : Int) + 1) = ((n : Nat) : Int) := by
      have : (((n - 1 : Nat) : Int) + 1) = ((n : Nat) : Int) := by omega
      rw [this]
      exact wrapInt32_of_range _ (by omega) (by omega)
    rw [hw]
    rfl
  · intro m n s t hmn hclose hs ht
    have hn : n < (issuedTokens rs).length := by
      by_contra hc
      rw [List.getElem?_eq_none (by omega)] at ht
      cases ht
    rw [htok, getElem?_map_range _ _ _ (by omega)] at hs ht
    simp only [Option.some.injEq] at hs ht
    rw [← hs, ← ht]
    intro hc
    have := (wrapInt32_eq_iff _ _).1 (tokenString_injective hc)
    omega

/-- Witness for C7 (amended): two issuances from the initial state. -/
theorem issued_tokens_distinct_in_range_witness :
    run XdgActivationV1Integration.init twoIssuances = some (stSecondIssued, twoReplies) ∧
    issuedTokens twoReplies = ["kwin-1", "kwin-2"] ∧
    stSecondIssued.i = wrapInt32 (((issuedTokens twoReplies).length : Nat) : Int) :=
  ⟨rfl, rfl,
    (issued_tokens_distinct_in_range twoIssuances stSecondIssued twoReplies rfl).1⟩

/-- C7 as stated fails once the 32-bit counter wraps: in a run of 2^31
successful issuances the last one returns "kwin--2147483648", not
"kwin-2147483648"; and in a run of 2^32 + 1 successful issuances the first and
the last both return "kwin-1". -/
theorem issuance_counter_wraps :
    (∃ st rs,
      run XdgActivationV1Integration.init
        (List.replicate 2147483648
          (wsIssuerActive, Request.createToken 11 5 0 "org.kde.konsole")) = some (st, rs) ∧
      (issuedTokens rs).length = 2147483648 ∧
      (issuedTokens rs)[2147483647]? = some "kwin--2147483648" ∧
      "kwin--2147483648" ≠ "kwin-" ++ toString (2147483648 : Nat)) ∧
    (∃ st rs,
      run XdgActivationV1Integration.init
        (List.replicate 4294967297
          (wsIssuerActive, Request.createToken 11 5 0 "org.kde.konsole")) = some (st, rs) ∧
      (issuedTokens rs).length = 4294967297 ∧
      (issuedTokens rs)[0]? = some "kwin-1" ∧
      (issuedTokens rs)[4294967296]? = some "kwin-1") := by
  constructor
  · obtain ⟨st, rs, hr, hlen⟩ := run_replicate_create wsIssuerActive 11 5 0 "org.kde.konsole" 1
      rfl rfl 2147483648 XdgActivationV1Integration.init
    obtain ⟨htok, _⟩ := run_issued _ XdgActivationV1Integration.init st rs (by decide) hr
    refine ⟨st, rs, hr, hlen, ?_, by decide⟩
    rw [htok, hlen, getElem?_map_range _ _ _ (by omega)]
    decide
  · obtain ⟨st, rs, hr, hlen⟩ := run_replicate_create wsIssuerActive 11 5 0 "org.kde.konsole" 1
      rfl rfl 4294967297 XdgActivationV1Integration.init
    obtain ⟨htok, _⟩ := run_issued _ XdgActivationV1Integration.init st rs (by decide) hr
    refine ⟨st, rs, hr, hlen, ?_, ?_⟩
    · rw [htok, hlen, getElem?_map_range _ _ _ (by omega)]
      decide
    · rw [htok, hlen, getElem?_map_range _ _ _ (by omega)]
      decide

/-! ## Rounding to double -/

theorem roundHalfEven_cases (t : ℚ) :
    roundHalfEven t = ⌊t⌋ ∧ t - (⌊t⌋ : ℚ) ≤ 1 / 2 ∨
    roundHalfEven t = ⌊t⌋ + 1 ∧ 1 / 2 ≤ t - (⌊t⌋ : ℚ) := by
  unfold roundHalfEven
  split_ifs with h1 h2 h3
  · exact Or.inl ⟨rfl, h1.le⟩
  · exact Or.inr ⟨rfl, h2.le⟩
  · exact Or.inl ⟨rfl, not_lt.1 h2⟩
  · exact Or.inr ⟨rfl, not_lt.1 h1⟩

theorem abs_roundHalfEven_sub_le (t : ℚ) : |(roundHalfEven t : ℚ) - t| ≤ 1 / 2 := by
  have h1 := Int.floor_le t
  have h2 := Int.lt_floor_add_one t
  rw [abs_le]
  rcases roundHalfEven_cases t with ⟨h, h3⟩ | ⟨h, h3⟩
  · rw [h]; constructor <;> linarith
  · rw [h]; push_cast; constructor <;> linarith

theorem roundHalfEven_intCast (n : Int) : roundHalfEven (n : ℚ) = n := by
  unfold roundHalfEven
  simp

theorem roundHalfEven_mono (a b : ℚ) (h : a ≤ b) : roundHalfEven a ≤ roundHalfEven b := by
  have hf : ⌊a⌋ ≤ ⌊b⌋ := Int.floor_mono h
  rcases eq_or_lt_of_le hf with heq | hlt
  · unfold roundHalfEven
    rw [heq]
    split_ifs <;> first | omega | (exfalso; linarith)
  · rcases roundHalfEven_cases a with ⟨h1, _⟩ | ⟨h1, _⟩ <;>
    rcases roundHalfEven_cases b with ⟨h2, h4⟩ | ⟨h2, h4⟩ <;> rw [h1, h2] <;> omega

theorem log2Fuel_spec (fuel : Nat) : ∀ n : Nat, 0 < n → n ≤ fuel →
    2 ^ log2Fuel fuel n ≤ n ∧ n < 2 ^ (log2Fuel fuel n + 1) := by
  induction fuel with
  | zero => intro n h1 h2; omega
  | succ f ih =>
    intro n h1 h2
    unfold log2Fuel
    split_ifs with h
    · simp only [pow_zero, zero_add, pow_one]; omega
    · obtain ⟨h3, h4⟩ := ih (n / 2) (by omega) (by omega)
      rw [pow_succ, pow_succ]
      constructor <;> omega

/-- The exponent found by `binade` brackets the magnitude of its argument. -/
theorem binade_spec (q : ℚ) (hq : q ≠ 0) :
    (2 : ℚ) ^ binade q ≤ |q| ∧ |q| < (2 : ℚ) ^ (binade q + 1) := by
  have hn : 0 < q.num.natAbs := Nat.pos_of_ne_zero (by simpa using hq)
  obtain ⟨hn1, hn2⟩ := log2Fuel_spec q.num.natAbs q.num.natAbs hn le_rfl
  obtain ⟨hd1, hd2⟩ := log2Fuel_spec q.den q.den q.den_pos le_rfl
  have habs : |q| = (q.num.natAbs : ℚ) / (q.den : ℚ) := by
    conv_lhs => rw [← Rat.num_div_den q]
    rw [abs_div, Nat.cast_natAbs, Int.cast_abs]
    congr 1
    exact abs_of_pos (by exact_mod_cast q.den_pos)
  have hdq : (0 : ℚ) < (q.den : ℚ) := by exact_mod_cast q.den_pos
  have hn1q : (2 : ℚ) ^ (log2Fuel q.num.natAbs q.num.natAbs) ≤ (q.num.natAbs : ℚ) := by
    exact_mod_cast hn1
  have hn2q : (q.num.natAbs : ℚ) < (2 : ℚ) ^ (log2Fuel q.num.natAbs q.num.natAbs + 1) := by
    exact_mod_cast hn2
  have hd1q : (2 : ℚ) ^ (log2Fuel q.den q.den) ≤ (q.den : ℚ) := by exact_mod_cast hd1
  have hd2q : (q.den : ℚ) < (2 : ℚ) ^ (log2Fuel q.den q.den + 1) := by exact_mod_cast hd2
  have hc : (2 : ℚ) ^ ((log2Fuel q.num.natAbs q.num.natAbs : Int) - (log2Fuel q.den q.den : Int))
      = (2 : ℚ) ^ (log2Fuel q.num.natAbs q.num.natAbs) / (2 : ℚ) ^ (log2Fuel q.den q.den) := by
    rw [zpow_sub₀ (by norm_num), zpow_natCast, zpow_natCast]
  have hA : (0 : ℚ) < (2 : ℚ) ^ (log2Fuel q.num.natAbs q.num.natAbs) := by positivity
  have hB : (0 : ℚ) < (2 : ℚ) ^ (log2Fuel q.den q.den) := by positivity
  rw [pow_succ] at hn2q hd2q
  unfold binade
  split_ifs with h
  · refine ⟨h, ?_⟩
    rw [zpow_add_one₀ (by norm_num), hc, habs, div_lt_iff₀ hdq]
    calc (q.num.natAbs : ℚ) < 2 ^ (log2Fuel q.num.natAbs q.num.natAbs) * 2 := hn2q
      _ = 2 ^ (log2Fuel q.num.natAbs q.num.natAbs) / 2 ^ (log2Fuel q.den q.den) * 2 *
            2 ^ (log2Fuel q.den q.den) := by field_simp
      _ ≤ 2 ^ (log2Fuel q.num.natAbs q.num.natAbs) / 2 ^ (log2Fuel q.den q.den) * 2 *
            (q.den : ℚ) := by
          apply mul_le_mul_of_nonneg_left hd1q
          positivity
  · rw [sub_add_cancel]
    refine ⟨?_, not_le.1 h⟩
    rw [zpow_sub_one₀ (by norm_num), hc, habs, le_div_iff₀ hdq]
    calc 2 ^ (log2Fuel q.num.natAbs q.num.natAbs) / 2 ^ (log2Fuel q.den q.den) * 2⁻¹ *
            (q.den : ℚ)
        ≤ 2 ^ (log2Fuel q.num.natAbs q.num.natAbs) / 2 ^ (log2Fuel q.den q.den) * 2⁻¹ *
            (2 ^ (log2Fuel q.den q.den) * 2) := by
          apply mul_le_mul_of_nonneg_left hd2q.le
          positivity
      _ = 2 ^ (log2Fuel q.num.natAbs q.num.natAbs) := by field_simp
      _ ≤ (q.num.natAbs : ℚ) := hn1q

/-- The exponent found by `binade` is the floor of the binary logarithm. -/
theorem binade_eq_log (q : ℚ) (hq : q ≠ 0) : binade q = Int.log 2 |q| := by
  obtain ⟨h1, h2⟩ := binade_spec q hq
  have hpos : 0 < |q| := abs_pos.2 hq
  have h3 : binade q ≤ Int.log 2 |q| :=
    (Int.zpow_le_iff_le_log (by norm_num) hpos).1 (by simpa using h1)
  have h4 : Int.log 2 |q| < binade q + 1 :=
    (Int.lt_zpow_iff_log_lt (by norm_num) hpos).1 (by simpa using h2)
  omega

theorem toDouble_def (q : ℚ) (hq : q ≠ 0) :
    toDouble q =
      (roundHalfEven (q / 2 ^ (Int.log 2 |q| - 52)) : ℚ) * 2 ^ (Int.log 2 |q| - 52) := by
  simp only [toDouble, hq, if_false, binade_eq_log q hq]

theorem binade_bounds (q : ℚ) (hq : q ≠ 0) :
    (2 : ℚ) ^ Int.log 2 |q| ≤ |q| ∧ |q| < 2 * (2 : ℚ) ^ Int.log 2 |q| := by
  have hpos : 0 < |q| := abs_pos.2 hq
  have h1 := Int.zpow_log_le_self (b := 2) (by norm_num) hpos
  have h2 := Int.lt_zpow_succ_log_self (b := 2) (by norm_num) |q|
  rw [zpow_add_one₀ (by norm_num)] at h2
  simp only [Nat.cast_ofNat] at h1 h2
  exact ⟨h1, by linarith⟩

theorem zpow_binade (L : Int) : (2 : ℚ) ^ (L - 52) = (2 : ℚ) ^ L / 4503599627370496 := by
  rw [zpow_sub₀ (by norm_num)]
  norm_num

theorem toDouble_zero : toDouble 0 = 0 := by simp [toDouble]

/-- Known values: the double written 0.1, and two ties between neighbouring
doubles, each resolved to the even significand. -/
theorem toDouble_known_values :
    toDouble (1 / 10) = 3602879701896397 / 36028797018963968 ∧
    toDouble 9007199254740993 = 9007199254740992 ∧
    toDouble 9007199254740995 = 9007199254740996 := by
  refine ⟨by decide!, by decide!, by decide!⟩

/-- Relative error of rounding to double. -/
theorem abs_toDouble_sub_le (q : ℚ) : |toDouble q - q| ≤ |q| / 9007199254740992 := by
  by_cases hq : q = 0
  · simp [hq, toDouble]
  · obtain ⟨h1, _⟩ := binade_bounds q hq
    have hP : (0 : ℚ) < (2 : ℚ) ^ Int.log 2 |q| := by positivity
    simp only [toDouble_def q hq, zpow_binade]
    set P : ℚ := (2 : ℚ) ^ Int.log 2 |q| with hPdef
    set u : ℚ := P / 4503599627370496 with hu
    have hupos : 0 < u := by positivity
    have hr := abs_roundHalfEven_sub_le (q / u)
    have e : (roundHalfEven (q / u) : ℚ) * u - q = ((roundHalfEven (q / u) : ℚ) - q / u) * u := by
      field_simp
    rw [e, abs_mul, abs_of_pos hupos]
    calc |(roundHalfEven (q / u) : ℚ) - q / u| * u ≤ 1 / 2 * u :=
          mul_le_mul_of_nonneg_right hr hupos.le
      _ = P / 9007199254740992 := by rw [hu]; ring
      _ ≤ |q| / 9007199254740992 := by
          apply div_le_div_of_nonneg_right h1 (by norm_num)

/-- A value `m * 2^k` with a significand of at most 53 bits is a double. -/
theorem toDouble_of_significand (m k : Int) (hm : |m| < 9007199254740992) :
    toDouble ((m : ℚ) * 2 ^ k) = (m : ℚ) * 2 ^ k := by
  by_cases hm0 : m = 0
  · simp [hm0, toDouble]
  · have h2k : (0 : ℚ) < (2 : ℚ) ^ k := by positivity
    have hq : (m : ℚ) * 2 ^ k ≠ 0 := by
      have : (m : ℚ) ≠ 0 := by exact_mod_cast hm0
      positivity
    have hlt : |(m : ℚ) * 2 ^ k| < ((2 : ℕ) : ℚ) ^ (53 + k) := by
      rw [abs_mul, abs_of_pos h2k, zpow_add₀ (by norm_num)]
      have : |(m : ℚ)| < 9007199254740992 := by exact_mod_cast hm
      have e : (((2 : ℕ) : ℚ)) ^ (53 : Int) = 9007199254740992 := by norm_num
      rw [e]
      simp only [Nat.cast_ofNat]
      exact mul_lt_mul_of_pos_right this h2k
    have hlog : Int.log 2 |(m : ℚ) * 2 ^ k| < 53 + k :=
      (Int.lt_zpow_iff_log_lt (by norm_num) (abs_pos.2 hq)).1 hlt
    have key : ∀ e : Int, e ≤ k →
        (roundHalfEven ((m : ℚ) * 2 ^ k / 2 ^ e) : ℚ) * 2 ^ e = (m : ℚ) * 2 ^ k := by
      intro e hek
      obtain ⟨n, hn⟩ : ∃ n : ℕ, k = e + (n : Int) := ⟨(k - e).toNat, by omega⟩
      have he : (0 : ℚ) < (2 : ℚ) ^ e := by positivity
      have hval : (m : ℚ) * 2 ^ k / 2 ^ e = ((m * 2 ^ n : Int) : ℚ) := by
        rw [hn, zpow_add₀ (by norm_num), zpow_natCast]
        field_simp
        ring
      rw [hval, roundHalfEven_intCast, hn, zpow_add₀ (by norm_num), zpow_natCast]
      push_cast
      ring
    rw [toDouble_def _ hq]
    exact key _ (by omega)

theorem toDouble_intCast (n : Int) (h : |n| < 9007199254740992) :
    toDouble (n : ℚ) = n := by
  simpa using toDouble_of_significand n 0 h


/-- The double nearest to a positive value lies in the closed binade of the value. -/
theorem toDouble_pos_bounds (q : ℚ) (hq : 0 < q) :
    (2 : ℚ) ^ Int.log 2 |q| ≤ toDouble q ∧ toDouble q ≤ 2 * (2 : ℚ) ^ Int.log 2 |q| := by
  obtain ⟨h1, h2⟩ := binade_bounds q hq.ne'
  rw [abs_of_pos hq] at h1 h2
  simp only [toDouble_def q hq.ne', zpow_binade]
  rw [abs_of_pos hq]
  set P : ℚ := (2 : ℚ) ^ Int.log 2 q with hPdef
  have hP : 0 < P := by positivity
  set u : ℚ := P / 4503599627370496 with hu
  have hupos : 0 < u := by positivity
  have ht1 : ((4503599627370496 : Int) : ℚ) ≤ q / u := by
    rw [le_div_iff₀ hupos, hu]; push_cast; linarith
  have ht2 : q / u ≤ ((9007199254740992 : Int) : ℚ) := by
    rw [div_le_iff₀ hupos, hu]; push_cast; linarith
  have hr1 := roundHalfEven_mono _ _ ht1
  have hr2 := roundHalfEven_mono _ _ ht2
  rw [roundHalfEven_intCast] at hr1 hr2
  have hr1q : (4503599627370496 : ℚ) ≤ (roundHalfEven (q / u) : ℚ) := by exact_mod_cast hr1
  have hr2q : (roundHalfEven (q / u) : ℚ) ≤ 9007199254740992 := by exact_mod_cast hr2
  constructor
  · calc P = 4503599627370496 * u := by rw [hu]; ring
      _ ≤ (roundHalfEven (q / u) : ℚ) * u := mul_le_mul_of_nonneg_right hr1q hupos.le
  · calc (roundHalfEven (q / u) : ℚ) * u ≤ 9007199254740992 * u :=
          mul_le_mul_of_nonneg_right hr2q hupos.le
      _ = 2 * P := by rw [hu]; ring

/-- The double nearest to a negative value lies in the closed binade of the value. -/
theorem toDouble_neg_bounds (q : ℚ) (hq : q < 0) :
    -(2 * (2 : ℚ) ^ Int.log 2 |q|) ≤ toDouble q ∧ toDouble q ≤ -(2 : ℚ) ^ Int.log 2 |q| := by
  obtain ⟨h1, h2⟩ := binade_bounds q hq.ne
  rw [abs_of_neg hq] at h1 h2
  simp only [toDouble_def q hq.ne, zpow_binade]
  rw [abs_of_neg hq]
  set P : ℚ := (2 : ℚ) ^ Int.log 2 (-q) with hPdef
  have hP : 0 < P := by positivity
  set u : ℚ := P / 4503599627370496 with hu
  have hupos : 0 < u := by positivity
  have ht1 : q / u ≤ ((-4503599627370496 : Int) : ℚ) := by
    rw [div_le_iff₀ hupos, hu]; push_cast; linarith
  have ht2 : ((-9007199254740992 : Int) : ℚ) ≤ q / u := by
    rw [le_div_iff₀ hupos, hu]; push_cast; linarith
  have hr1 := roundHalfEven_mono _ _ ht1
  have hr2 := roundHalfEven_mono _ _ ht2
  rw [roundHalfEven_intCast] at hr1 hr2
  have hr1q : (roundHalfEven (q / u) : ℚ) ≤ -4503599627370496 := by exact_mod_cast hr1
  have hr2q : (-9007199254740992 : ℚ) ≤ (roundHalfEven (q / u) : ℚ) := by exact_mod_cast hr2
  constructor
  · calc -(2 * P) = -9007199254740992 * u := by rw [hu]; ring
      _ ≤ (roundHalfEven (q / u) : ℚ) * u := mul_le_mul_of_nonneg_right hr2q hupos.le
  · calc (roundHalfEven (q / u) : ℚ) * u ≤ -4503599627370496 * u :=
          mul_le_mul_of_nonneg_right hr1q hupos.le
      _ = -P := by rw [hu]; ring

theorem toDouble_pos (q : ℚ) (hq : 0 < q) : 0 < toDouble q :=
  lt_of_lt_of_le (by positivity) (toDouble_pos_bounds q hq).1

theorem toDouble_neg (q : ℚ) (hq : q < 0) : toDouble q < 0 :=
  lt_of_le_of_lt (toDouble_neg_bounds q hq).2 (by
    have : (0 : ℚ) < (2 : ℚ) ^ Int.log 2 |q| := by positivity
    linarith)

theorem toDouble_nonneg (q : ℚ) (hq : 0 ≤ q) : 0 ≤ toDouble q := by
  rcases eq_or_lt_of_le hq with h | h
  · rw [← h, toDouble_zero]
  · exact (toDouble_pos q h).le

theorem two_zpow_succ_le (a b : Int) (h : a < b) :
    2 * (2 : ℚ) ^ a ≤ (2 : ℚ) ^ b := by
  have : (2 : ℚ) ^ (a + 1) ≤ (2 : ℚ) ^ b := zpow_le_zpow_right₀ (by norm_num) (by omega)
  rwa [zpow_add_one₀ (by norm_num), mul_comm] at this

/-- Rounding to double is monotone. -/
theorem toDouble_mono (x y : ℚ) (h : x ≤ y) : toDouble x ≤ toDouble y := by
  rcases lt_trichotomy x 0 with hx | hx | hx
  · rcases lt_trichotomy y 0 with hy | hy | hy
    · -- both negative
      have hlog : Int.log 2 |y| ≤ Int.log 2 |x| :=
        Int.log_mono_right (abs_pos.2 hy.ne) (by rw [abs_of_neg hx, abs_of_neg hy]; linarith)
      rcases eq_or_lt_of_le hlog with heq | hlt
      · simp only [toDouble_def x hx.ne, toDouble_def y hy.ne, heq]
        have hu : (0 : ℚ) < (2 : ℚ) ^ (Int.log 2 |x| - 52) := by positivity
        have := roundHalfEven_mono _ _ (div_le_div_of_nonneg_right h hu.le)
        exact mul_le_mul_of_nonneg_right (by exact_mod_cast this) hu.le
      · have h1 := (toDouble_neg_bounds x hx).2
        have h2 := (toDouble_neg_bounds y hy).1
        have := two_zpow_succ_le _ _ hlt
        linarith
    · rw [hy, toDouble_zero]; exact (toDouble_neg x hx).le
    · exact le_trans (toDouble_neg x hx).le (toDouble_pos y hy).le
  · rw [hx, toDouble_zero]
    exact toDouble_nonneg y (by rw [← hx]; exact h)
  · have hy : 0 < y := lt_of_lt_of_le hx h
    have hlog : Int.log 2 |x| ≤ Int.log 2 |y| :=
      Int.log_mono_right (abs_pos.2 hx.ne') (by rw [abs_of_pos hx, abs_of_pos hy]; exact h)
    rcases eq_or_lt_of_le hlog with heq | hlt
    · simp only [toDouble_def x hx.ne', toDouble_def y hy.ne', heq]
      have hu : (0 : ℚ) < (2 : ℚ) ^ (Int.log 2 |y| - 52) := by positivity
      have := roundHalfEven_mono _ _ (div_le_div_of_nonneg_right h hu.le)
      exact mul_le_mul_of_nonneg_right (by exact_mod_cast this) hu.le
    · have h1 := (toDouble_pos_bounds x hx).2
      have h2 := (toDouble_pos_bounds y hy).1
      have := two_zpow_succ_le _ _ hlt
      linarith

/-- Rounding a double again leaves it unchanged. -/
theorem toDouble_idem (q : ℚ) : toDouble (toDouble q) = toDouble q := by
  by_cases hq : q = 0
  · simp [hq, toDouble_zero]
  · obtain ⟨h1, h2⟩ := binade_bounds q hq
    have hdef : toDouble q =
        (roundHalfEven (q / 2 ^ (Int.log 2 |q| - 52)) : ℚ) * 2 ^ (Int.log 2 |q| - 52) :=
      toDouble_def q hq
    set e : Int := Int.log 2 |q| - 52 with he
    have hu : (0 : ℚ) < (2 : ℚ) ^ e := by positivity
    have hue : (2 : ℚ) ^ e = (2 : ℚ) ^ Int.log 2 |q| / 4503599627370496 := zpow_binade _
    have habs : |q / 2 ^ e| < 9007199254740992 := by
      rw [abs_div, abs_of_pos hu, div_lt_iff₀ hu, hue]
      linarith
    obtain ⟨ha1, ha2⟩ := abs_lt.1 habs
    have hr1 := roundHalfEven_mono _ _ ha1.le
    have hr2 := roundHalfEven_mono _ _ ha2.le
    have e1 : (-9007199254740992 : ℚ) = ((-9007199254740992 : Int) : ℚ) := by norm_num
    have e2 : (9007199254740992 : ℚ) = ((9007199254740992 : Int) : ℚ) := by norm_num
    rw [e1, roundHalfEven_intCast] at hr1
    rw [e2, roundHalfEven_intCast] at hr2
    set R : Int := roundHalfEven (q / 2 ^ e) with hR
    rw [hdef]
    by_cases hb : |R| < 9007199254740992
    · exact toDouble_of_significand R e hb
    · have hcase : R = 9007199254740992 ∨ R = -9007199254740992 := by
        rcases abs_cases R with ⟨h, _⟩ | ⟨h, _⟩ <;> omega
      rcases hcase with h | h
      · have e3 : ((R : Int) : ℚ) * 2 ^ e = ((1 : Int) : ℚ) * 2 ^ (e + 53) := by
          rw [h, zpow_add₀ (by norm_num)]; norm_num; ring
        rw [e3]
        exact toDouble_of_significand 1 (e + 53) (by norm_num)
      · have e3 : ((R : Int) : ℚ) * 2 ^ e = ((-1 : Int) : ℚ) * 2 ^ (e + 53) := by
          rw [h, zpow_add₀ (by norm_num)]; norm_num; ring
        rw [e3]
        exact toDouble_of_significand (-1) (e + 53) (by norm_num)


/-- Absolute error of rounding to double for a value of bounded magnitude. -/
theorem toDouble_near (y M : ℚ) (h : |y| ≤ M) :
    |toDouble y - y| ≤ M / 9007199254740992 :=
  le_trans (abs_toDouble_sub_le y) (div_le_div_of_nonneg_right h (by norm_num))

theorem truncToInt_of_nonneg (f : ℚ) (h0 : 0 ≤ f) (h1 : f < 2147483648) :
    truncToInt f = ⌊f⌋ := by
  simp only [truncToInt, h0, if_true]
  apply wrapInt32_of_range
  · have : (0 : Int) ≤ ⌊f⌋ := Int.floor_nonneg.2 h0
    omega
  · exact Int.floor_lt.2 (by exact_mod_cast h1)

theorem truncToInt_of_neg (f : ℚ) (h0 : f < 0) (h1 : -2147483649 < f) :
    truncToInt f = ⌈f⌉ := by
  simp only [truncToInt, not_le.2 h0, if_false]
  apply wrapInt32_of_range
  · have : (-2147483649 : Int) < ⌈f⌉ := Int.lt_ceil.2 (by exact_mod_cast h1)
    omega
  · have : ⌈f⌉ ≤ (0 : Int) := Int.ceil_le.2 (by exact_mod_cast h0.le)
    omega

/-- The value of `qRound` on a non-negative double inside the int range. -/
theorem qRound_of_nonneg (d : ℚ) (h0 : 0 ≤ d) (h1 : d ≤ 2147483648 - 3 / 4) :
    qRound d = ⌊toDouble (d + 1 / 2)⌋ ∧ 0 ≤ toDouble (d + 1 / 2) ∧
      |toDouble (d + 1 / 2) - (d + 1 / 2)| ≤ 1 / 2097152 := by
  have hy : |d + 1 / 2| ≤ 4294967296 := by rw [abs_le]; constructor <;> linarith
  have hn := toDouble_near _ _ hy
  have hn1 : |toDouble (d + 1 / 2) - (d + 1 / 2)| ≤ 1 / 2097152 := by
    refine le_trans hn ?_; norm_num
  obtain ⟨ha, hb⟩ := abs_le.1 hn1
  have hf0 : 0 ≤ toDouble (d + 1 / 2) := toDouble_nonneg _ (by linarith)
  refine ⟨?_, hf0, hn1⟩
  simp only [qRound, h0, if_true]
  exact truncToInt_of_nonneg _ hf0 (by linarith)

/-- The value of `qRound` on a negative double inside the int range. -/
theorem qRound_of_neg (d : ℚ) (h0 : d < 0) (h1 : -(2147483648 - 3 / 4) ≤ d) :
    qRound d = ⌊toDouble (toDouble (d - ((⌈toDouble (d - 1)⌉ : Int) : ℚ)) + 1 / 2)⌋ +
        ⌈toDouble (d - 1)⌉ ∧
      -2147483648 ≤ ⌈toDouble (d - 1)⌉ ∧
      (⌈toDouble (d - 1)⌉ : ℚ) < d + 1 / 2097152 ∧
      d - 1 - 1 / 2097152 ≤ (⌈toDouble (d - 1)⌉ : ℚ) ∧
      0 ≤ toDouble (toDouble (d - ((⌈toDouble (d - 1)⌉ : Int) : ℚ)) + 1 / 2) ∧
      toDouble (toDouble (d - ((⌈toDouble (d - 1)⌉ : Int) : ℚ)) + 1 / 2) ≤
        d - ((⌈toDouble (d - 1)⌉ : Int) : ℚ) + 1 / 2 + 1 / 1048576 ∧
      d - ((⌈toDouble (d - 1)⌉ : Int) : ℚ) + 1 / 2 - 1 / 1048576 ≤
        toDouble (toDouble (d - ((⌈toDouble (d - 1)⌉ : Int) : ℚ)) + 1 / 2) := by
  have hy1 : |d - 1| ≤ 4294967296 := by rw [abs_le]; constructor <;> linarith
  have hn1 : |toDouble (d - 1) - (d - 1)| ≤ 1 / 2097152 := by
    refine le_trans (toDouble_near _ _ hy1) ?_; norm_num
  obtain ⟨ha1, hb1⟩ := abs_le.1 hn1
  have hf1neg : toDouble (d - 1) < 0 := toDouble_neg _ (by linarith)
  have hk : truncToInt (toDouble (d - 1)) = ⌈toDouble (d - 1)⌉ :=
    truncToInt_of_neg _ hf1neg (by linarith)
  set k : Int := ⌈toDouble (d - 1)⌉ with hkdef
  have hk1 : toDouble (d - 1) ≤ (k : ℚ) := Int.le_ceil _
  have hk2 : (k : ℚ) < toDouble (d - 1) + 1 := Int.ceil_lt_add_one _
  have hklo : (-2147483648 : Int) ≤ k := by
    have : ((-2147483649 : Int) : ℚ) < (k : ℚ) := by push_cast; linarith
    have := Int.cast_lt.1 this
    omega
  have hkhi : k ≤ 0 := Int.ceil_le.2 (by exact_mod_cast hf1neg.le)
  have hy2 : |d - (k : ℚ)| ≤ 4294967296 := by rw [abs_le]; constructor <;> linarith
  have hn2 : |toDouble (d - (k : ℚ)) - (d - (k : ℚ))| ≤ 1 / 2097152 := by
    refine le_trans (toDouble_near _ _ hy2) ?_; norm_num
  obtain ⟨ha2, hb2⟩ := abs_le.1 hn2
  have hy3 : |toDouble (d - (k : ℚ)) + 1 / 2| ≤ 4294967296 := by
    rw [abs_le]; constructor <;> linarith
  have hn3 : |toDouble (toDouble (d - (k : ℚ)) + 1 / 2) - (toDouble (d - (k : ℚ)) + 1 / 2)|
      ≤ 1 / 2097152 := by
    refine le_trans (toDouble_near _ _ hy3) ?_; norm_num
  obtain ⟨ha3, hb3⟩ := abs_le.1 hn3
  have hf3 : 0 ≤ toDouble (toDouble (d - (k : ℚ)) + 1 / 2) :=
    toDouble_nonneg _ (by linarith)
  have hj : truncToInt (toDouble (toDouble (d - (k : ℚ)) + 1 / 2)) =
      ⌊toDouble (toDouble (d - (k : ℚ)) + 1 / 2)⌋ :=
    truncToInt_of_nonneg _ hf3 (by linarith)
  have hj0 : (0 : Int) ≤ ⌊toDouble (toDouble (d - (k : ℚ)) + 1 / 2)⌋ := Int.floor_nonneg.2 hf3
  have hj1 : ⌊toDouble (toDouble (d - (k : ℚ)) + 1 / 2)⌋ < (2 : Int) :=
    Int.floor_lt.2 (by push_cast; linarith)
  refine ⟨?_, hklo, by linarith, by linarith, hf3, by linarith, by linarith⟩
  simp only [qRound, not_le.2 h0, if_false, hk, hj]
  exact wrapInt32_of_range _ (by omega) (by omega)

/-- Inside the int range `qRound` returns an integer within a half (and a
rounding error) of its argument. -/
theorem qRound_near (d : ℚ) (h : |d| ≤ 2147483648 - 3 / 4) :
    |(qRound d : ℚ) - d| ≤ 1 / 2 + 1 / 1048576 := by
  obtain ⟨h1, h2⟩ := abs_le.1 h
  rw [abs_le]
  rcases le_or_lt 0 d with h0 | h0
  · obtain ⟨he, hf0, hn⟩ := qRound_of_nonneg d h0 h2
    obtain ⟨ha, hb⟩ := abs_le.1 hn
    have hfl := Int.floor_le (toDouble (d + 1 / 2))
    have hfl2 := Int.lt_floor_add_one (toDouble (d + 1 / 2))
    rw [he]
    constructor <;> linarith
  · obtain ⟨he, _, _, _, hf3, hup, hlo⟩ := qRound_of_neg d h0 h1
    have hfl := Int.floor_le (toDouble (toDouble (d - ((⌈toDouble (d - 1)⌉ : Int) : ℚ)) + 1 / 2))
    have hfl2 := Int.lt_floor_add_one
      (toDouble (toDouble (d - ((⌈toDouble (d - 1)⌉ : Int) : ℚ)) + 1 / 2))
    rw [he]
    push_cast
    constructor <;> linarith


/-- Inside the int range `qRound` is monotone. -/
theorem qRound_mono (d d1 : ℚ) (hle : d ≤ d1) (h : |d| ≤ 2147483648 - 3 / 4)
    (h1 : |d1| ≤ 2147483648 - 3 / 4) : qRound d ≤ qRound d1 := by
  obtain ⟨hd1, hd2⟩ := abs_le.1 h
  obtain ⟨hd3, hd4⟩ := abs_le.1 h1
  rcases le_or_lt 0 d with h0 | h0
  · obtain ⟨he, _, _⟩ := qRound_of_nonneg d h0 hd2
    obtain ⟨he1, _, _⟩ := qRound_of_nonneg d1 (le_trans h0 hle) hd4
    rw [he, he1]
    exact Int.floor_mono (toDouble_mono _ _ (by linarith))
  · rcases le_or_lt 0 d1 with h01 | h01
    · obtain ⟨he1, hf, _⟩ := qRound_of_nonneg d1 h01 hd4
      have hn := (abs_le.1 (qRound_near d h)).2
      have hlt : ((qRound d : Int) : ℚ) < ((1 : Int) : ℚ) := by push_cast; linarith
      have hlt1 := Int.cast_lt.1 hlt
      have : (0 : Int) ≤ qRound d1 := by rw [he1]; exact Int.floor_nonneg.2 hf
      omega
    · obtain ⟨he, _, _, hklo, hf3, hup, _⟩ := qRound_of_neg d h0 hd1
      obtain ⟨he1, _, _, _, hf31, _, _⟩ := qRound_of_neg d1 h01 hd3
      have hk : ⌈toDouble (d - 1)⌉ ≤ ⌈toDouble (d1 - 1)⌉ :=
        Int.ceil_mono (toDouble_mono _ _ (by linarith))
      rw [he, he1]
      rcases eq_or_lt_of_le hk with heq | hlt
      · rw [heq]
        have : ⌊toDouble (toDouble (d - ((⌈toDouble (d1 - 1)⌉ : Int) : ℚ)) + 1 / 2)⌋ ≤
            ⌊toDouble (toDouble (d1 - ((⌈toDouble (d1 - 1)⌉ : Int) : ℚ)) + 1 / 2)⌋ := by
          apply Int.floor_mono
          apply toDouble_mono
          have := toDouble_mono (d - ((⌈toDouble (d1 - 1)⌉ : Int) : ℚ))
            (d1 - ((⌈toDouble (d1 - 1)⌉ : Int) : ℚ)) (by linarith)
          linarith
        omega
      · have hj0 : (0 : Int) ≤
            ⌊toDouble (toDouble (d1 - ((⌈toDouble (d1 - 1)⌉ : Int) : ℚ)) + 1 / 2)⌋ :=
          Int.floor_nonneg.2 hf31
        have hj1 : ⌊toDouble (toDouble (d - ((⌈toDouble (d - 1)⌉ : Int) : ℚ)) + 1 / 2)⌋ <
            (2 : Int) := Int.floor_lt.2 (by push_cast; linarith)
        omega


/-- Error of a product with a rounded factor, rounded again. -/
theorem scaled_near (c q : ℚ) (hq : 0 ≤ q) (hb : |c * q| ≤ 4294967296) :
    |toDouble (c * toDouble q) - c * q| ≤ 3 / 2097152 := by
  have h1 := abs_toDouble_sub_le q
  rw [abs_of_nonneg hq] at h1
  have h2 : |c * toDouble q - c * q| ≤ 1 / 2097152 := by
    have e : c * toDouble q - c * q = c * (toDouble q - q) := by ring
    rw [e, abs_mul]
    calc |c| * |toDouble q - q| ≤ |c| * (q / 9007199254740992) :=
          mul_le_mul_of_nonneg_left h1 (abs_nonneg c)
      _ = |c * q| / 9007199254740992 := by rw [abs_mul, abs_of_nonneg hq]; ring
      _ ≤ 4294967296 / 9007199254740992 := div_le_div_of_nonneg_right hb (by norm_num)
      _ = 1 / 2097152 := by norm_num
  obtain ⟨hb1, hb2⟩ := abs_le.1 hb
  obtain ⟨h3, h4⟩ := abs_le.1 h2
  have h5 : |c * toDouble q| ≤ 8589934592 := by rw [abs_le]; constructor <;> linarith
  have h6 := toDouble_near _ _ h5
  have h7 : (8589934592 : ℚ) / 9007199254740992 = 1 / 1048576 := by norm_num
  rw [h7] at h6
  obtain ⟨h8, h9⟩ := abs_le.1 h6
  rw [abs_le]
  constructor <;> linarith

theorem scaled_nonneg (c q : ℚ) (hc : 0 ≤ c) (hq : 0 ≤ q) : 0 ≤ toDouble (c * toDouble q) :=
  toDouble_nonneg _ (mul_nonneg hc (toDouble_nonneg q hq))

/-- The two edges computed along one axis: each is within a half and a small
rounding error of the exactly scaled edge, and the second is not before the
first when the extent is not negative. -/
theorem axis_edges (s0 sw t0 tw r0 rw : Int) (hsw : 0 < sw) (htw : 0 < tw)
    (h : axisInRange s0 sw t0 tw r0 rw) :
    |((qRound (scaledStart s0 sw t0 tw r0) : Int) : ℚ) -
        ((t0 : ℚ) + ((r0 - s0 : Int) : ℚ) * ((tw : ℚ) / (sw : ℚ)))| ≤ 1 / 2 + 1 / 131072 ∧
    |((wrapInt32 (qRound (toDouble (scaledStart s0 sw t0 tw r0 + scaledExtent sw tw rw)) - 1)
          + 1 : Int) : ℚ) -
        ((t0 : ℚ) + ((r0 - s0 : Int) : ℚ) * ((tw : ℚ) / (sw : ℚ)) +
          (rw : ℚ) * ((tw : ℚ) / (sw : ℚ)))| ≤ 1 / 2 + 1 / 131072 ∧
    (0 ≤ rw → qRound (scaledStart s0 sw t0 tw r0) ≤
      wrapInt32 (qRound (toDouble (scaledStart s0 sw t0 tw r0 + scaledExtent sw tw rw)) - 1)
        + 1) := by
  obtain ⟨ht0, ha, hsw1, htw1, hrw, hx, he⟩ := h
  have ew1 : wrapInt32 (r0 - s0) = r0 - s0 := wrapInt32_of_range _ ha.1 ha.2
  have ew2 : wrapInt32 sw = sw := wrapInt32_of_range _ hsw1.1 hsw1.2
  have ew3 : wrapInt32 tw = tw := wrapInt32_of_range _ htw1.1 htw1.2
  have ew4 : wrapInt32 rw = rw := wrapInt32_of_range _ hrw.1 hrw.2
  simp only [scaledStart, scaledExtent, ew1, ew2, ew3, ew4]
  have hswq : (0 : ℚ) < (sw : ℚ) := by exact_mod_cast hsw
  have htwq : (0 : ℚ) < (tw : ℚ) := by exact_mod_cast htw
  have hs : (0 : ℚ) ≤ (tw : ℚ) / (sw : ℚ) := (div_pos htwq hswq).le
  set q : ℚ := (tw : ℚ) / (sw : ℚ) with hqdef
  set a : ℚ := ((r0 - s0 : Int) : ℚ) with hadef
  have ht0q : |(t0 : ℚ)| ≤ 2147483648 := by
    rw [abs_le]
    constructor
    · have : ((-2147483648 : Int) : ℚ) ≤ (t0 : ℚ) := Int.cast_le.2 ht0.1
      simpa using this
    · have : (t0 : ℚ) ≤ ((2147483648 : Int) : ℚ) := Int.cast_le.2 ht0.2.le
      simpa using this
  obtain ⟨ht1, ht2⟩ := abs_le.1 ht0q
  obtain ⟨hx1, hx2⟩ := abs_le.1 hx
  obtain ⟨he1, he2⟩ := abs_le.1 he
  have hp : |a * q| ≤ 4294967296 := by rw [abs_le]; constructor <;> linarith
  have hw : |(rw : ℚ) * q| ≤ 4294967296 := by rw [abs_le]; constructor <;> linarith
  obtain ⟨hp1, hp2⟩ := abs_le.1 (scaled_near a q hs hp)
  obtain ⟨hw1, hw2⟩ := abs_le.1 (scaled_near (rw : ℚ) q hs hw)
  set p : ℚ := toDouble (a * toDouble q) with hpdef
  set W : ℚ := toDouble ((rw : ℚ) * toDouble q) with hWdef
  have hu : |(t0 : ℚ) + p| ≤ 4294967296 := by rw [abs_le]; constructor <;> linarith
  have hX := toDouble_near _ _ hu
  have e21 : (4294967296 : ℚ) / 9007199254740992 = 1 / 2097152 := by norm_num
  rw [e21] at hX
  obtain ⟨hX1, hX2⟩ := abs_le.1 hX
  set X : ℚ := toDouble ((t0 : ℚ) + p) with hXdef
  have hv : |X + W| ≤ 4294967296 := by rw [abs_le]; constructor <;> linarith
  have hE := toDouble_near _ _ hv
  rw [e21] at hE
  obtain ⟨hE1, hE2⟩ := abs_le.1 hE
  set E : ℚ := toDouble (X + W) with hEdef
  have hXr : |X| ≤ 2147483648 - 3 / 4 := by rw [abs_le]; constructor <;> linarith
  have hEr : |E| ≤ 2147483648 - 3 / 4 := by rw [abs_le]; constructor <;> linarith
  obtain ⟨hq1, hq2⟩ := abs_le.1 (qRound_near X hXr)
  obtain ⟨hq3, hq4⟩ := abs_le.1 (qRound_near E hEr)
  have hElo : (-2147483648 : Int) < qRound E := by
    have : ((-2147483648 : Int) : ℚ) < ((qRound E : Int) : ℚ) := by push_cast; linarith
    exact Int.cast_lt.1 this
  have hEhi : qRound E < (2147483648 : Int) := by
    have : ((qRound E : Int) : ℚ) < ((2147483648 : Int) : ℚ) := by push_cast; linarith
    exact Int.cast_lt.1 this
  have ew5 : wrapInt32 (qRound E - 1) = qRound E - 1 :=
    wrapInt32_of_range _ (by omega) (by omega)
  rw [ew5]
  refine ⟨?_, ?_, ?_⟩
  · rw [abs_le]; constructor <;> linarith
  · rw [abs_le]; push_cast; constructor <;> linarith
  · intro hrw0
    have hW0 : 0 ≤ W := scaled_nonneg _ _ (by exact_mod_cast hrw0) hs
    have hXE : X ≤ E := by
      have := toDouble_mono X (X + W) (by linarith)
      rwa [hXdef, toDouble_idem, ← hXdef] at this
    have := qRound_mono X E hXE hXr hEr
    omega

/-! ## The rectangle mapping -/

theorem QRect.width_pos_of_isValid (r : QRect) (h : r.isValid = true) :
    0 < r.width ∧ 0 < r.height := by
  simp only [QRect.isValid, Bool.and_eq_true, decide_eq_true_eq] at h
  simp only [QRect.width, QRect.height]
  omega

/-- The result of `moveBetweenRects` on valid areas, edge by edge. -/
theorem moveBetweenRects_eq (S T R : QRect) (hS : S.isValid = true) (hT : T.isValid = true) :
    moveBetweenRects S T R =
      some
        { x1 := qRound (scaledStart S.x S.width T.x T.width R.x)
          y1 := qRound (scaledStart S.y S.height T.y T.height R.y)
          x2 := wrapInt32 (qRound (toDouble (scaledStart S.x S.width T.x T.width R.x +
                  scaledExtent S.width T.width R.width)) - 1)
          y2 := wrapInt32 (qRound (toDouble (scaledStart S.y S.height T.y T.height R.y +
                  scaledExtent S.height T.height R.height)) - 1) } := by
  simp only [moveBetweenRects, hS, hT, Bool.and_self, if_true, QRectF.toRect, QRect.ofPoints,
    scaledStart, scaledExtent]

/-- Within the int range each edge of the mapped rectangle is within a half
and a small rounding error of the exactly scaled edge, and the width (height)
of the result is not negative when that of the rectangle is not. -/
theorem moveBetweenRects_edges (S T R : QRect) (hS : S.isValid = true) (hT : T.isValid = true)
    (hr : moveInRange S T R) :
    ∃ g, moveBetweenRects S T R = some g ∧
      |((g.x : Int) : ℚ) -
          ((T.x : ℚ) + ((R.x - S.x : Int) : ℚ) * ((T.width : ℚ) / (S.width : ℚ)))|
        ≤ 1 / 2 + 1 / 131072 ∧
      |((g.y : Int) : ℚ) -
          ((T.y : ℚ) + ((R.y - S.y : Int) : ℚ) * ((T.height : ℚ) / (S.height : ℚ)))|
        ≤ 1 / 2 + 1 / 131072 ∧
      |((g.x + g.width : Int) : ℚ) -
          ((T.x : ℚ) + ((R.x - S.x : Int) : ℚ) * ((T.width : ℚ) / (S.width : ℚ)) +
            (R.width : ℚ) * ((T.width : ℚ) / (S.width : ℚ)))|
        ≤ 1 / 2 + 1 / 131072 ∧
      |((g.y + g.height : Int) : ℚ) -
          ((T.y : ℚ) + ((R.y - S.y : Int) : ℚ) * ((T.height : ℚ) / (S.height : ℚ)) +
            (R.height : ℚ) * ((T.height : ℚ) / (S.height : ℚ)))|
        ≤ 1 / 2 + 1 / 131072 ∧
      (0 ≤ R.width → 0 ≤ g.width) ∧ (0 ≤ R.height → 0 ≤ g.height) := by
  obtain ⟨hsw, hsh⟩ := QRect.width_pos_of_isValid S hS
  obtain ⟨htw, hth⟩ := QRect.width_pos_of_isValid T hT
  obtain ⟨hx1, hx2, hx3⟩ := axis_edges S.x S.width T.x T.width R.x R.width hsw htw hr.1
  obtain ⟨hy1, hy2, hy3⟩ := axis_edges S.y S.height T.y T.height R.y R.height hsh hth hr.2
  refine ⟨_, moveBetweenRects_eq S T R hS hT, hx1, hy1, ?_, ?_, ?_, ?_⟩
  · have e : ∀ a b : Int, a + (b - a + 1) = b + 1 := fun a b => by ring
    simp only [QRect.x, QRect.width, e]
    exact hx2
  · have e : ∀ a b : Int, a + (b - a + 1) = b + 1 := fun a b => by ring
    simp only [QRect.y, QRect.height, e]
    exact hy2
  · intro h
    have := hx3 h
    simp only [QRect.width, QRect.x] at this ⊢
    omega
  · intro h
    have := hy3 h
    simp only [QRect.height, QRect.y] at this ⊢
    omega

/-! ## The loop of `shuffle` -/

/-- When every iteration meets the assertion of `moveBetweenRects`, the loop
runs to its end and the entry at each position is the result of the loop body
on the entry that was there. -/
theorem shuffleEntries_at (outputs : List AbstractOutput) (pre : List TrackedWindow) :
    ∀ (tw : TrackedWindow) (post : List TrackedWindow),
      (∀ e ∈ pre ++ tw :: post, (shuffleWindow outputs e).isSome = true) →
      ∃ entries calls tw1 c,
        shuffleEntries outputs (pre ++ tw :: post) = some (entries, calls) ∧
        entries[pre.length]? = some tw1 ∧
        shuffleWindow outputs tw = some (tw1, c) ∧
        ∀ r ∈ c, r ∈ calls := by
  induction pre with
  | nil =>
    intro tw post hdef
    cases post with
    | nil =>
      have h1 := hdef tw (by simp)
      obtain ⟨⟨tw1, c⟩, hw⟩ := Option.isSome_iff_exists.1 h1
      refine ⟨[tw1], c ++ [], tw1, c, ?_, by simp, hw, ?_⟩
      · simp [shuffleEntries, hw]
      · intro r hr; simpa using hr
    | cons e post =>
      have h1 := hdef tw (by simp)
      obtain ⟨⟨tw1, c⟩, hw⟩ := Option.isSome_iff_exists.1 h1
      have hrest : ∀ e1 ∈ [] ++ e :: post, (shuffleWindow outputs e1).isSome = true := by
        intro e1 he1
        exact hdef e1 (by simp at he1 ⊢; right; exact he1)
      have hsub : ∃ entries calls, shuffleEntries outputs (e :: post) = some (entries, calls) := by
        clear hw h1 hdef
        induction post generalizing e with
        | nil =>
          obtain ⟨⟨e1, c1⟩, he⟩ := Option.isSome_iff_exists.1 (hrest e (by simp))
          exact ⟨[e1], c1 ++ [], by simp [shuffleEntries, he]⟩
        | cons e2 post ih =>
          obtain ⟨⟨e1, c1⟩, he⟩ := Option.isSome_iff_exists.1 (hrest e (by simp))
          obtain ⟨entries, calls, hr⟩ := ih e2 (by
            intro e3 he3
            exact hrest e3 (by simp at he3 ⊢; right; exact he3))
          exact ⟨e1 :: entries, c1 ++ calls, by
            rw [shuffleEntries, he]; simp only [hr]⟩
      obtain ⟨entries, calls, hr⟩ := hsub
      refine ⟨tw1 :: entries, c ++ calls, tw1, c, ?_, by simp, hw, ?_⟩
      · simp only [List.nil_append]
        rw [shuffleEntries, hw]
        simp only [hr]
      · intro r hr1; exact List.mem_append_left _ hr1
  | cons p pre ih =>
    intro tw post hdef
    obtain ⟨⟨p1, c0⟩, hp⟩ := Option.isSome_iff_exists.1 (hdef p (by simp))
    obtain ⟨entries, calls, tw1, c, hr, hat, hw, hc⟩ := ih tw post (by
      intro e he
      exact hdef e (by simp at he ⊢; right; exact he))
    refine ⟨p1 :: entries, c0 ++ calls, tw1, c, ?_, ?_, hw, ?_⟩
    · simp only [List.cons_append]
      rw [shuffleEntries, hp]
      simp only [hr]
    · simpa using hat
    · intro r hr1; exact List.mem_append_right _ (hc r hr1)

/-- The loop body on an entry whose source area differs from the target and
whose source geometry is valid: the window takes the mapped rectangle, and
that rectangle is the one passed to `setFrameGeometry`. -/
theorem shuffleWindow_moves (outputs : List AbstractOutput) (tw tw1 : TrackedWindow)
    (c : List GeometryRequest) (originalArea originalRect targetArea : QRect)
    (hsrc : shuffleSource outputs tw.data = some (originalArea, originalRect, targetArea))
    (hne : originalArea ≠ targetArea) (hvalid : originalRect.isValid = true)
    (hw : shuffleWindow outputs tw = some (tw1, c)) :
    moveBetweenRects originalArea targetArea originalRect = some tw1.frameGeometry ∧
    tw1.window = tw.window ∧
    c = [{ window := tw.window, rect := tw1.frameGeometry }] := by
  simp only [shuffleWindow, hsrc, hne, hvalid, if_false, Bool.not_true] at hw
  cases hm : moveBetweenRects originalArea targetArea originalRect with
  | none => simp [hm] at hw
  | some rect =>
    simp only [hm, Option.some.injEq, Prod.mk.injEq] at hw
    obtain ⟨h1, h2⟩ := hw
    have hg : (setFrameGeometry outputs tw rect).frameGeometry = rect := by
      unfold setFrameGeometry
      split
      · rename_i heq; exact heq.symm
      · rfl
    have hwin : (setFrameGeometry outputs tw rect).window = tw.window := by
      unfold setFrameGeometry
      split <;> rfl
    rw [hg, hwin]
    exact ⟨rfl, rfl, rfl⟩

theorem shuffleWindow_window (outputs : List AbstractOutput) (tw tw1 : TrackedWindow)
    (c : List GeometryRequest) (hw : shuffleWindow outputs tw = some (tw1, c)) :
    tw1.window = tw.window := by
  unfold shuffleWindow at hw
  split at hw
  · simp at hw; rw [← hw.1]
  · split at hw
    · simp at hw; rw [← hw.1]
    · split at hw
      · simp at hw; rw [← hw.1]
      · split at hw
        · simp at hw
        · simp only [Option.some.injEq, Prod.mk.injEq] at hw
          rw [← hw.1]
          unfold setFrameGeometry
          split <;> rfl

theorem moveBetweenRects_example :
    moveBetweenRects (QRect.ofXYWH 0 0 1000 500) (QRect.ofXYWH 0 0 2000 1000)
      (QRect.ofXYWH 10 10 100 50) = some (QRect.ofXYWH 20 20 200 100) := by
  decide!

theorem shuffleWindow_restoredLarge :
    shuffleWindow [outputDP1Large, outputHDMI1] windowMovedAway =
      some (windowRestoredLarge, [{ window := 1, rect := QRect.ofXYWH 20 20 200 100 }]) := by
  have hs : shuffleSource [outputDP1Large, outputHDMI1] windowMovedAway.data =
      some (QRect.ofXYWH 0 0 1000 500, QRect.ofXYWH 10 10 100 50, QRect.ofXYWH 0 0 2000 1000) := by
    decide
  have hne : QRect.ofXYWH 0 0 1000 500 ≠ QRect.ofXYWH 0 0 2000 1000 := by decide
  have hv : (QRect.ofXYWH 10 10 100 50).isValid = true := by decide
  simp only [shuffleWindow, hs, hne, hv, if_false, Bool.not_true, moveBetweenRects_example]
  have hset : setFrameGeometry [outputDP1Large, outputHDMI1] windowMovedAway
      (QRect.ofXYWH 20 20 200 100) = windowRestoredLarge := by decide
  rw [hset]
  rfl

/-! ## Properties of the output shuffler -/

/-- C8 as stated fails, on the hotplug round trip: window 1 is first tracked on
"DP-1" at (10,10) 100x50; "DP-1" goes away and the window is moved to
(1010,10) on "HDMI-1"; shuffle() leaves it there; "DP-1" comes back with
exactly the rectangle saved for it, and shuffle() makes no setFrameGeometry
call at all, so the window keeps (1010,10) 100x50 instead of returning to its
saved geometry (10,10) 100x50. -/
theorem shuffle_keeps_window_when_output_returns_unchanged :
    Shuffler.handleClientAdded { outputs := [outputDP1, outputHDMI1], m_shuffleData := [] } 1
        (QRect.ofXYWH 10 10 100 50) false false true =
      some { outputs := [outputDP1, outputHDMI1], m_shuffleData := [windowHome] } ∧
    Shuffler.windowMoved { outputs := [outputHDMI1], m_shuffleData := [windowHome] } 1
        (QRect.ofXYWH 1010 10 100 50) =
      some { outputs := [outputHDMI1], m_shuffleData := [windowMovedAway] } ∧
    Shuffler.shuffle { outputs := [outputHDMI1], m_shuffleData := [windowMovedAway] } =
      some ({ outputs := [outputHDMI1], m_shuffleData := [windowMovedAway] }, []) ∧
    findOutput [outputDP1, outputHDMI1] windowMovedAway.data.savedOutputName = some outputDP1 ∧
    outputDP1.geometry = windowMovedAway.data.savedOutputRect ∧
    windowMovedAway.data.savedGeometry.isValid = true ∧
    Shuffler.shuffle { outputs := [outputDP1, outputHDMI1], m_shuffleData := [windowMovedAway] } =
      some ({ outputs := [outputDP1, outputHDMI1], m_shuffleData := [windowMovedAway] }, []) ∧
    windowMovedAway.frameGeometry = QRect.ofXYWH 1010 10 100 50 ∧
    windowMovedAway.data.savedGeometry = QRect.ofXYWH 10 10 100 50 ∧
    windowMovedAway.frameGeometry ≠ windowMovedAway.data.savedGeometry := by
  refine ⟨by decide, by decide, by decide, by decide, by decide, by decide, by decide,
    by decide, by decide, by decide⟩

/-- C9: when no iteration trips the assertion of moveBetweenRects, shuffle()
runs to its end, and for each tracked window: if an output named
savedOutputName is present, the source is (savedOutputRect, savedGeometry) and
the target that output's rectangle, whatever the last output is; if none is
and an output named lastOutputName is present, the source is (lastOutputRect,
lastGeometry) and the target that output's rectangle; and when the source
rectangle differs from the target and the source geometry is valid, the
window's frame geometry afterwards is moveBetweenRects(source rectangle,
target, source geometry), which is also the rectangle passed to
setFrameGeometry. -/
theorem shuffle_source_selection (s : Shuffler) (pre post : List TrackedWindow)
    (tw : TrackedWindow)
    (hentries : s.m_shuffleData = pre ++ tw :: post)
    (hdefined : ∀ e ∈ s.m_shuffleData, (shuffleWindow s.outputs e).isSome = true) :
    ∃ s1 calls tw1,
      s.shuffle = some (s1, calls) ∧
      s1.m_shuffleData[pre.length]? = some tw1 ∧
      tw1.window = tw.window ∧
      (∀ output, findOutput s.outputs tw.data.savedOutputName = some output →
        shuffleSource s.outputs tw.data =
          some (tw.data.savedOutputRect, tw.data.savedGeometry, output.geometry)) ∧
      (findOutput s.outputs tw.data.savedOutputName = none →
        ∀ output, findOutput s.outputs tw.data.lastOutputName = some output →
          shuffleSource s.outputs tw.data =
            some (tw.data.lastOutputRect, tw.data.lastGeometry, output.geometry)) ∧
      (∀ originalArea originalRect targetArea,
        shuffleSource s.outputs tw.data = some (originalArea, originalRect, targetArea) →
        originalArea ≠ targetArea → originalRect.isValid = true →
        moveBetweenRects originalArea targetArea originalRect = some tw1.frameGeometry ∧
        { window := tw.window, rect := tw1.frameGeometry } ∈ calls) := by
  rw [hentries] at hdefined
  obtain ⟨entries, calls, tw1, c, hrun, hat, hw, hc⟩ :=
    shuffleEntries_at s.outputs pre tw post hdefined
  refine ⟨{ s with m_shuffleData := entries }, calls, tw1, ?_, hat,
    shuffleWindow_window s.outputs tw tw1 c hw, ?_, ?_, ?_⟩
  · simp only [Shuffler.shuffle, hentries, hrun]
  · intro output hout
    simp only [shuffleSource, hout]
  · intro hnone output hout
    simp only [shuffleSource, hnone, hout]
  · intro originalArea originalRect targetArea hsrc hne hvalid
    obtain ⟨h1, _, h3⟩ :=
      shuffleWindow_moves s.outputs tw tw1 c originalArea originalRect targetArea hsrc hne
        hvalid hw
    refine ⟨h1, hc _ ?_⟩
    rw [h3]
    exact List.mem_singleton.2 rfl

/-- Witness for C9: "DP-1" is back with a larger rectangle while the window
sits on "HDMI-1", which is present too; the saved state is used and the window
lands at (20,20) 200x100. -/
theorem shuffle_source_selection_witness :
    (([windowMovedAway] : List TrackedWindow) = [] ++ windowMovedAway :: [] ∧
      ∀ e ∈ [windowMovedAway],
        (shuffleWindow [outputDP1Large, outputHDMI1] e).isSome = true) ∧
    ∃ s1 calls tw1,
      Shuffler.shuffle
        { outputs := [outputDP1Large, outputHDMI1], m_shuffleData := [windowMovedAway] } =
          some (s1, calls) ∧
      s1.m_shuffleData[0]? = some tw1 ∧
      moveBetweenRects (QRect.ofXYWH 0 0 1000 500) (QRect.ofXYWH 0 0 2000 1000)
        (QRect.ofXYWH 10 10 100 50) = some tw1.frameGeometry := by
  have hdef : ∀ e ∈ [windowMovedAway],
      (shuffleWindow [outputDP1Large, outputHDMI1] e).isSome = true := by
    intro e he
    rw [List.mem_singleton.1 he, shuffleWindow_restoredLarge]
    rfl
  obtain ⟨s1, calls, tw1, h1, h2, _, _, _, h6⟩ :=
    shuffle_source_selection
      { outputs := [outputDP1Large, outputHDMI1], m_shuffleData := [windowMovedAway] }
      [] [] windowMovedAway rfl hdef
  exact ⟨⟨rfl, hdef⟩, s1, calls, tw1, h1, h2,
    (h6 (QRect.ofXYWH 0 0 1000 500) (QRect.ofXYWH 10 10 100 50) (QRect.ofXYWH 0 0 2000 1000)
      (by decide) (by decide) (by decide)).1⟩

/-- Two integers less than one apart are equal. -/
theorem int_eq_of_near (a b : Int) (q : ℚ) (hq : q = (b : ℚ))
    (h : |(a : ℚ) - q| ≤ 1 / 2 + 1 / 131072) : a = b := by
  rw [hq] at h
  have h1 : |((a - b : Int) : ℚ)| < ((1 : Int) : ℚ) := by
    push_cast
    refine lt_of_le_of_lt h ?_
    norm_num
  rw [← Int.cast_abs, Int.cast_lt] at h1
  have := abs_lt.1 h1
  omega

/-- C10 (amended): for valid areas S and T and a rectangle R with no int
overflow in the computation (`moveInRange`), (a) when T is k times as wide
and m times as high as S, for positive integers k and m, moveBetweenRects(S,
T, R) is exactly the rectangle at (T.x + k*(R.x - S.x), T.y + m*(R.y - S.y))
of size k*R.width by m*R.height; (b) in general the result is computed in
double arithmetic, and its left, top, left + width and top + height are
integers within 1/2 + 2^-17 of the exact rationals T.x + (R.x - S.x) * T.w /
S.w, T.y + (R.y - S.y) * T.h / S.h and these plus R.w * T.w / S.w, R.h * T.h /
S.h: the nearest integer, except within 2^-17 of a tie. -/
theorem moveBetweenRects_linear (S T R : QRect)
    (hS : S.isValid = true) (hT : T.isValid = true) (hr : moveInRange S T R) :
    (∀ k m : Int, 0 < k → 0 < m → T.width = k * S.width → T.height = m * S.height →
      moveBetweenRects S T R =
        some (QRect.ofXYWH (T.x + k * (R.x - S.x)) (T.y + m * (R.y - S.y))
          (k * R.width) (m * R.height))) ∧
    (∃ g, moveBetweenRects S T R = some g ∧
      |((g.x : Int) : ℚ) -
          ((T.x : ℚ) + ((R.x - S.x : Int) : ℚ) * ((T.width : ℚ) / (S.width : ℚ)))|
        ≤ 1 / 2 + 1 / 131072 ∧
      |((g.y : Int) : ℚ) -
          ((T.y : ℚ) + ((R.y - S.y : Int) : ℚ) * ((T.height : ℚ) / (S.height : ℚ)))|
        ≤ 1 / 2 + 1 / 131072 ∧
      |((g.x + g.width : Int) : ℚ) -
          ((T.x : ℚ) + ((R.x - S.x : Int) : ℚ) * ((T.width : ℚ) / (S.width : ℚ)) +
            (R.width : ℚ) * ((T.width : ℚ) / (S.width : ℚ)))|
        ≤ 1 / 2 + 1 / 131072 ∧
      |((g.y + g.height : Int) : ℚ) -
          ((T.y : ℚ) + ((R.y - S.y : Int) : ℚ) * ((T.height : ℚ) / (S.height : ℚ)) +
            (R.height : ℚ) * ((T.height : ℚ) / (S.height : ℚ)))|
        ≤ 1 / 2 + 1 / 131072) := by
  obtain ⟨g, hg, h1, h2, h3, h4, _, _⟩ := moveBetweenRects_edges S T R hS hT hr
  refine ⟨?_, g, hg, h1, h2, h3, h4⟩
  intro k m _ _ hw hh
  obtain ⟨hsw, hsh⟩ := QRect.width_pos_of_isValid S hS
  have hsw0 : (S.width : ℚ) ≠ 0 := by exact_mod_cast hsw.ne'
  have hsh0 : (S.height : ℚ) ≠ 0 := by exact_mod_cast hsh.ne'
  have hx : (T.width : ℚ) / (S.width : ℚ) = (k : ℚ) := by
    rw [hw]; push_cast; field_simp
  have hy : (T.height : ℚ) / (S.height : ℚ) = (m : ℚ) := by
    rw [hh]; push_cast; field_simp
  have e1 := int_eq_of_near g.x (T.x + k * (R.x - S.x)) _ (by rw [hx]; push_cast; ring) h1
  have e2 := int_eq_of_near g.y (T.y + m * (R.y - S.y)) _ (by rw [hy]; push_cast; ring) h2
  have e3 := int_eq_of_near (g.x + g.width) (T.x + k * (R.x - S.x) + k * R.width) _
    (by rw [hx]; push_cast; ring) h3
  have e4 := int_eq_of_near (g.y + g.height) (T.y + m * (R.y - S.y) + m * R.height) _
    (by rw [hy]; push_cast; ring) h4
  rw [hg]
  congr 1
  obtain ⟨gx1, gy1, gx2, gy2⟩ := g
  simp only [QRect.x, QRect.y, QRect.width, QRect.height] at e1 e2 e3 e4
  simp only [QRect.ofXYWH, QRect.x, QRect.y, QRect.width, QRect.height, QRect.mk.injEq]
  refine ⟨e1, e2, ?_, ?_⟩ <;> omega

/-- Witness for C10 (amended): the saved geometry (10,10) 100x50 on the area
(0,0) 1000x500 mapped into (0,0) 2000x1000 is (20,20) 200x100. -/
theorem moveBetweenRects_linear_witness :
    ((QRect.ofXYWH 0 0 1000 500).isValid = true ∧
      (QRect.ofXYWH 0 0 2000 1000).isValid = true ∧
      moveInRange (QRect.ofXYWH 0 0 1000 500) (QRect.ofXYWH 0 0 2000 1000)
        (QRect.ofXYWH 10 10 100 50) ∧
      (0 : Int) < 2 ∧
      (QRect.ofXYWH 0 0 2000 1000).width = 2 * (QRect.ofXYWH 0 0 1000 500).width ∧
      (QRect.ofXYWH 0 0 2000 1000).height = 2 * (QRect.ofXYWH 0 0 1000 500).height) ∧
    moveBetweenRects (QRect.ofXYWH 0 0 1000 500) (QRect.ofXYWH 0 0 2000 1000)
      (QRect.ofXYWH 10 10 100 50) = some (QRect.ofXYWH 20 20 200 100) :=
  ⟨⟨by decide, by decide, by decide!, by decide, by decide, by decide⟩,
    (moveBetweenRects_linear (QRect.ofXYWH 0 0 1000 500) (QRect.ofXYWH 0 0 2000 1000)
      (QRect.ofXYWH 10 10 100 50) (by decide) (by decide) (by decide!)).1 2 2 (by decide)
      (by decide) (by decide) (by decide)⟩

/-- C10 as stated fails for non-integer ratios. (1) Source area (0,0)
22819773x1, target area (0,0) 792775435x1, rectangle (9936289,0) 1x1: the
exactly scaled left edge is 7877245834260715/22819773, which lies below
345193873 + 1/2, so its nearest integer is 345193873; the code returns the
left edge 345193874. (2) At ordinary sizes, source area (0,0) 1920x1080,
target area (0,0) 1366x768, rectangle (380,100) 100x100: the exactly scaled
right edge is 341 + 1/2; the code returns left 270 and width 71, that is the
right edge 341, where rounding the exact value half up gives 342. -/
theorem moveBetweenRects_not_exactly_rounded :
    (moveBetweenRects (QRect.ofXYWH 0 0 22819773 1) (QRect.ofXYWH 0 0 792775435 1)
        (QRect.ofXYWH 9936289 0 1 1) = some (QRect.ofXYWH 345193874 0 34 1) ∧
      ((QRect.ofXYWH 0 0 792775435 1).x : ℚ) +
          (((QRect.ofXYWH 9936289 0 1 1).x - (QRect.ofXYWH 0 0 22819773 1).x : Int) : ℚ) *
            (((QRect.ofXYWH 0 0 792775435 1).width : ℚ) /
              ((QRect.ofXYWH 0 0 22819773 1).width : ℚ)) < 345193873 + 1 / 2) ∧
    (moveBetweenRects (QRect.ofXYWH 0 0 1920 1080) (QRect.ofXYWH 0 0 1366 768)
        (QRect.ofXYWH 380 100 100 100) = some (QRect.ofXYWH 270 71 71 71) ∧
      ((QRect.ofXYWH 0 0 1366 768).x : ℚ) +
          (((QRect.ofXYWH 380 100 100 100).x - (QRect.ofXYWH 0 0 1920 1080).x : Int) : ℚ) *
            (((QRect.ofXYWH 0 0 1366 768).width : ℚ) / ((QRect.ofXYWH 0 0 1920 1080).width : ℚ)) +
          ((QRect.ofXYWH 380 100 100 100).width : ℚ) *
            (((QRect.ofXYWH 0 0 1366 768).width : ℚ) / ((QRect.ofXYWH 0 0 1920 1080).width : ℚ))
        = 341 + 1 / 2) := by
  refine ⟨⟨by decide!, by decide!⟩, by decide!, by decide!⟩

/-! ## More on the loop of `shuffle` -/

theorem shuffleEntries_append (outputs : List AbstractOutput) (a b : List TrackedWindow) :
    shuffleEntries outputs (a ++ b) =
      (shuffleEntries outputs a).bind (fun p =>
        (shuffleEntries outputs b).bind (fun q => some (p.1 ++ q.1, p.2 ++ q.2))) := by
  induction a with
  | nil =>
    simp only [List.nil_append, shuffleEntries, Option.some_bind]
    cases shuffleEntries outputs b with
    | none => rfl
    | some q => simp
  | cons e a ih =>
    rw [List.cons_append, shuffleEntries, ih, shuffleEntries]
    cases hw : shuffleWindow outputs e with
    | none => rfl
    | some r =>
      obtain ⟨e1, c⟩ := r
      cases hp : shuffleEntries outputs a with
      | none => rfl
      | some p =>
        cases hq : shuffleEntries outputs b with
        | none => rfl
        | some q => simp

theorem shuffleEntries_length (outputs : List AbstractOutput) (l : List TrackedWindow) :
    ∀ (l1 : List TrackedWindow) (calls : List GeometryRequest),
      shuffleEntries outputs l = some (l1, calls) → l1.length = l.length := by
  induction l with
  | nil =>
    intro l1 calls h
    simp only [shuffleEntries, Option.some.injEq, Prod.mk.injEq] at h
    rw [← h.1]
  | cons e l ih =>
    intro l1 calls h
    simp only [shuffleEntries] at h
    cases hw : shuffleWindow outputs e with
    | none => simp [hw] at h
    | some r =>
      obtain ⟨e1, c⟩ := r
      cases hr : shuffleEntries outputs l with
      | none => simp [hw, hr] at h
      | some p =>
        obtain ⟨l2, c2⟩ := p
        simp only [hw, hr, Option.some.injEq, Prod.mk.injEq] at h
        rw [← h.1, List.length_cons, List.length_cons, ih l2 c2 hr]

/-- The loop body leaves an entry alone, and calls nothing, when no source is
found, when the source area equals the target, or when the source geometry is
invalid. -/
theorem shuffleWindow_skip (outputs : List AbstractOutput) (tw : TrackedWindow)
    (h : shuffleSource outputs tw.data = none ∨
      ∃ originalArea originalRect targetArea,
        shuffleSource outputs tw.data = some (originalArea, originalRect, targetArea) ∧
        (originalArea = targetArea ∨ originalRect.isValid = false)) :
    shuffleWindow outputs tw = some (tw, []) := by
  unfold shuffleWindow
  rcases h with h | ⟨oa, g, ta, h, hc⟩
  · simp only [h]
  · simp only [h]
    rcases hc with hc | hc
    · simp [hc]
    · by_cases he : oa = ta
      · simp [he]
      · simp [he, hc]

theorem shuffleEntries_all_skip (outputs : List AbstractOutput) (l : List TrackedWindow)
    (h : ∀ e ∈ l, shuffleWindow outputs e = some (e, [])) :
    shuffleEntries outputs l = some (l, []) := by
  induction l with
  | nil => rfl
  | cons e l ih =>
    have h1 := h e (List.mem_cons_self _ _)
    have h2 := ih (fun e1 he1 => h e1 (List.mem_cons_of_mem _ he1))
    simp only [shuffleEntries, h1, h2, List.nil_append]

/-! ## Restoring a window onto its saved output -/

/-- C8 (amended): for a tracked window with valid saved geometry whose saved
output is connected, wherever the window has been moved meanwhile: if the
output's current rectangle differs from the rectangle saved for it, shuffle()
gives the window the saved geometry mapped into the current rectangle,
moveBetweenRects(savedOutputRect, current rectangle, savedGeometry), by a
setFrameGeometry call; if the output has exactly the rectangle saved for it,
shuffle() leaves the window's entry, its geometry included, as it is. -/
theorem shuffle_restores_onto_changed_rect (s : Shuffler) (pre post : List TrackedWindow)
    (tw : TrackedWindow) (output : AbstractOutput)
    (hentries : s.m_shuffleData = pre ++ tw :: post)
    (hdefined : ∀ e ∈ s.m_shuffleData, (shuffleWindow s.outputs e).isSome = true)
    (hback : findOutput s.outputs tw.data.savedOutputName = some output)
    (hvalid : tw.data.savedGeometry.isValid = true) :
    ∃ s1 calls tw1,
      s.shuffle = some (s1, calls) ∧
      s1.m_shuffleData[pre.length]? = some tw1 ∧
      tw1.window = tw.window ∧
      (tw.data.savedOutputRect ≠ output.geometry →
        moveBetweenRects tw.data.savedOutputRect output.geometry tw.data.savedGeometry =
          some tw1.frameGeometry ∧
        { window := tw.window, rect := tw1.frameGeometry } ∈ calls) ∧
      (tw.data.savedOutputRect = output.geometry → tw1 = tw) := by
  rw [hentries] at hdefined
  obtain ⟨entries, calls, tw1, c, hrun, hat, hw, hc⟩ :=
    shuffleEntries_at s.outputs pre tw post hdefined
  have hsrc : shuffleSource s.outputs tw.data =
      some (tw.data.savedOutputRect, tw.data.savedGeometry, output.geometry) := by
    simp only [shuffleSource, hback]
  refine ⟨{ s with m_shuffleData := entries }, calls, tw1, ?_, hat,
    shuffleWindow_window s.outputs tw tw1 c hw, ?_, ?_⟩
  · simp only [Shuffler.shuffle, hentries, hrun]
  · intro hne
    obtain ⟨h1, _, h3⟩ :=
      shuffleWindow_moves s.outputs tw tw1 c _ _ _ hsrc hne hvalid hw
    refine ⟨h1, hc _ ?_⟩
    rw [h3]
    exact List.mem_singleton.2 rfl
  · intro heq
    have hskip := shuffleWindow_skip s.outputs tw (Or.inr ⟨_, _, _, hsrc, Or.inl heq⟩)
    rw [hskip] at hw
    simp only [Option.some.injEq, Prod.mk.injEq] at hw
    exact hw.1.symm

/-- Witness for C8 (amended): "DP-1" is back at (0,0) 2000x1000 while window
1, saved on "DP-1" at (10,10) 100x50 with output rectangle (0,0) 1000x500, has
been moved to "HDMI-1"; shuffle() puts it at (20,20) 200x100. -/
theorem shuffle_restores_onto_changed_rect_witness :
    (([windowMovedAway] : List TrackedWindow) = [] ++ windowMovedAway :: [] ∧
      (∀ e ∈ [windowMovedAway],
        (shuffleWindow [outputDP1Large, outputHDMI1] e).isSome = true) ∧
      findOutput [outputDP1Large, outputHDMI1] windowMovedAway.data.savedOutputName =
        some outputDP1Large ∧
      windowMovedAway.data.savedGeometry.isValid = true ∧
      windowMovedAway.data.savedOutputRect ≠ outputDP1Large.geometry) ∧
    ∃ s1 calls tw1,
      Shuffler.shuffle
        { outputs := [outputDP1Large, outputHDMI1], m_shuffleData := [windowMovedAway] } =
          some (s1, calls) ∧
      s1.m_shuffleData[0]? = some tw1 ∧
      moveBetweenRects (QRect.ofXYWH 0 0 1000 500) (QRect.ofXYWH 0 0 2000 1000)
        (QRect.ofXYWH 10 10 100 50) = some tw1.frameGeometry ∧
      ({ window := 1, rect := tw1.frameGeometry } : GeometryRequest) ∈ calls := by
  have hdef : ∀ e ∈ [windowMovedAway],
      (shuffleWindow [outputDP1Large, outputHDMI1] e).isSome = true := by
    intro e he
    rw [List.mem_singleton.1 he, shuffleWindow_restoredLarge]
    rfl
  have hne : windowMovedAway.data.savedOutputRect ≠ outputDP1Large.geometry := by decide
  obtain ⟨s1, calls, tw1, h1, h2, _, h4, _⟩ :=
    shuffle_restores_onto_changed_rect
      { outputs := [outputDP1Large, outputHDMI1], m_shuffleData := [windowMovedAway] }
      [] [] windowMovedAway outputDP1Large rfl hdef (by decide) (by decide)
  exact ⟨⟨rfl, hdef, by decide, by decide, hne⟩, s1, calls, tw1, h1, h2, (h4 hne).1, (h4 hne).2⟩

/-! ## Properties of the output shuffler (continued) -/

/-- C11 (amended): shuffle() makes no setFrameGeometry call and leaves every
entry as it is whenever, for every tracked window, the rectangle of the source
that shuffle() selects equals the current rectangle of the output found: the
saved output rectangle when an output named savedOutputName is present, and
the last output rectangle when none is but an output named lastOutputName is
present. -/
theorem shuffle_noop_when_selected_rect_current (s : Shuffler)
    (h : ∀ e ∈ s.m_shuffleData,
      (∀ o, findOutput s.outputs e.data.savedOutputName = some o →
        e.data.savedOutputRect = o.geometry) ∧
      (findOutput s.outputs e.data.savedOutputName = none →
        ∀ o, findOutput s.outputs e.data.lastOutputName = some o →
          e.data.lastOutputRect = o.geometry)) :
    s.shuffle = some (s, []) := by
  have hall : ∀ e ∈ s.m_shuffleData, shuffleWindow s.outputs e = some (e, []) := by
    intro e he
    obtain ⟨h1, h2⟩ := h e he
    apply shuffleWindow_skip
    cases hs : findOutput s.outputs e.data.savedOutputName with
    | some o =>
      right
      exact ⟨e.data.savedOutputRect, e.data.savedGeometry, o.geometry,
        by simp only [shuffleSource, hs], Or.inl (h1 o hs)⟩
    | none =>
      cases hl : findOutput s.outputs e.data.lastOutputName with
      | some o =>
        right
        exact ⟨e.data.lastOutputRect, e.data.lastGeometry, o.geometry,
          by simp only [shuffleSource, hs, hl], Or.inl (h2 hs o hl)⟩
      | none =>
        left
        simp only [shuffleSource, hs, hl]
  simp only [Shuffler.shuffle, shuffleEntries_all_skip s.outputs s.m_shuffleData hall]

/-- Witness for C11 (amended): "DP-1" is back with the saved rectangle. -/
theorem shuffle_noop_when_selected_rect_current_witness :
    (∀ e ∈ [windowMovedAway],
      (∀ o, findOutput [outputDP1, outputHDMI1] e.data.savedOutputName = some o →
        e.data.savedOutputRect = o.geometry) ∧
      (findOutput [outputDP1, outputHDMI1] e.data.savedOutputName = none →
        ∀ o, findOutput [outputDP1, outputHDMI1] e.data.lastOutputName = some o →
          e.data.lastOutputRect = o.geometry)) ∧
    Shuffler.shuffle { outputs := [outputDP1, outputHDMI1], m_shuffleData := [windowMovedAway] } =
      some ({ outputs := [outputDP1, outputHDMI1], m_shuffleData := [windowMovedAway] }, []) := by
  have hyp : ∀ e ∈ [windowMovedAway],
      (∀ o, findOutput [outputDP1, outputHDMI1] e.data.savedOutputName = some o →
        e.data.savedOutputRect = o.geometry) ∧
      (findOutput [outputDP1, outputHDMI1] e.data.savedOutputName = none →
        ∀ o, findOutput [outputDP1, outputHDMI1] e.data.lastOutputName = some o →
          e.data.lastOutputRect = o.geometry) := by
    intro e he
    rw [List.mem_singleton.1 he]
    constructor
    · intro o ho
      have h1 : findOutput [outputDP1, outputHDMI1] windowMovedAway.data.savedOutputName =
          some outputDP1 := by decide
      rw [h1] at ho
      cases ho
      decide
    · intro hn
      have h1 : findOutput [outputDP1, outputHDMI1] windowMovedAway.data.savedOutputName =
          some outputDP1 := by decide
      rw [h1] at hn
      cases hn
  exact ⟨hyp,
    shuffle_noop_when_selected_rect_current
      { outputs := [outputDP1, outputHDMI1], m_shuffleData := [windowMovedAway] } hyp⟩

/-- C11 as stated fails: with "DP-1" back at (0,0) 2000x1000 and "HDMI-1"
unchanged, the window's last output rectangle equals the current rectangle of
"HDMI-1", its last output, and still shuffle() moves the window from
(1010,10) 100x50 to (20,20) 200x100, because the saved output is present and
its rectangle differs from the saved one. -/
theorem shuffle_moves_although_last_rect_current :
    findOutput [outputDP1Large, outputHDMI1] windowMovedAway.data.lastOutputName =
      some outputHDMI1 ∧
    windowMovedAway.data.lastOutputRect = outputHDMI1.geometry ∧
    Shuffler.shuffle
        { outputs := [outputDP1Large, outputHDMI1], m_shuffleData := [windowMovedAway] } =
      some ({ outputs := [outputDP1Large, outputHDMI1], m_shuffleData := [windowRestoredLarge] },
        [{ window := 1, rect := QRect.ofXYWH 20 20 200 100 }]) ∧
    windowMovedAway.frameGeometry = QRect.ofXYWH 1010 10 100 50 ∧
    windowRestoredLarge.frameGeometry = QRect.ofXYWH 20 20 200 100 ∧
    windowRestoredLarge.frameGeometry ≠ windowMovedAway.frameGeometry := by
  refine ⟨by decide, by decide, ?_, by decide, by decide, by decide⟩
  simp only [Shuffler.shuffle, shuffleEntries, shuffleWindow_restoredLarge, List.append_nil]

/-- C12: a tracked window for which neither the saved nor the last output is
present, or whose selected source geometry is invalid, is left as it is
(geometry and ShuffleData) at its place in the map, and shuffle() on the map
with this window gives exactly what shuffle() gives on the map without it:
the same outcome for every other window, the same setFrameGeometry calls, and
a failed assertion in the one case exactly when in the other. -/
theorem shuffle_skips_unplaceable_window (outputs : List AbstractOutput)
    (pre post : List TrackedWindow) (tw : TrackedWindow)
    (hskip : (findOutput outputs tw.data.savedOutputName = none ∧
        findOutput outputs tw.data.lastOutputName = none) ∨
      (∃ originalArea originalRect targetArea,
        shuffleSource outputs tw.data = some (originalArea, originalRect, targetArea) ∧
        originalRect.isValid = false)) :
    shuffleWindow outputs tw = some (tw, []) ∧
    Shuffler.shuffle { outputs := outputs, m_shuffleData := pre ++ tw :: post } =
      (Shuffler.shuffle { outputs := outputs, m_shuffleData := pre ++ post }).map
        (fun p =>
          ({ outputs := p.1.outputs
             m_shuffleData :=
               p.1.m_shuffleData.take pre.length ++ tw :: p.1.m_shuffleData.drop pre.length },
            p.2)) := by
  have hw : shuffleWindow outputs tw = some (tw, []) := by
    apply shuffleWindow_skip
    rcases hskip with ⟨h1, h2⟩ | ⟨oa, g, ta, h, hv⟩
    · left
      simp only [shuffleSource, h1, h2]
    · right
      exact ⟨oa, g, ta, h, Or.inr hv⟩
  refine ⟨hw, ?_⟩
  simp only [Shuffler.shuffle, shuffleEntries_append]
  cases hp : shuffleEntries outputs pre with
  | none => simp
  | some p =>
    obtain ⟨pre1, c1⟩ := p
    have hlen := shuffleEntries_length outputs pre pre1 c1 hp
    cases hq : shuffleEntries outputs post with
    | none => simp [shuffleEntries, hw, hq]
    | some q =>
      obtain ⟨post1, c2⟩ := q
      simp [shuffleEntries, hw, hq, ← hlen]

/-- Witness for C12: window 3 carries default shuffle data and no output has
the empty name; it is skipped between the entries around it. -/
theorem shuffle_skips_unplaceable_window_witness :
    ((findOutput [outputDP1, outputHDMI1] windowUnplaced.data.savedOutputName = none ∧
        findOutput [outputDP1, outputHDMI1] windowUnplaced.data.lastOutputName = none) ∨
      (∃ originalArea originalRect targetArea,
        shuffleSource [outputDP1, outputHDMI1] windowUnplaced.data =
          some (originalArea, originalRect, targetArea) ∧
        originalRect.isValid = false)) ∧
    shuffleWindow [outputDP1, outputHDMI1] windowUnplaced = some (windowUnplaced, []) :=
  ⟨Or.inl ⟨by decide, by decide⟩,
    (shuffle_skips_unplaceable_window [outputDP1, outputHDMI1] [windowMovedAway] []
      windowUnplaced (Or.inl ⟨by decide, by decide⟩)).1⟩

/-! ## The rectangles that `shuffle` requests -/

/-- With distinct output names, looking an output up by its own name finds it. -/
theorem findOutput_of_mem (outputs : List AbstractOutput) (o : AbstractOutput)
    (hnames : (outputs.map AbstractOutput.name).Nodup) (hmem : o ∈ outputs) :
    findOutput outputs o.name = some o := by
  induction outputs with
  | nil => cases hmem
  | cons x xs ih =>
    simp only [List.map_cons, List.nodup_cons] at hnames
    obtain ⟨hx, hxs⟩ := hnames
    unfold findOutput
    by_cases hname : x.name = o.name
    · have hxo : o = x := by
        rcases List.mem_cons.1 hmem with h | h
        · exact h
        · exfalso
          apply hx
          rw [hname]
          exact List.mem_map_of_mem _ h
      simp [List.find?_cons, hxo]
    · have hmem1 : o ∈ xs := by
        rcases List.mem_cons.1 hmem with h | h
        · exact absurd (by rw [h]) hname
        · exact h
      have := ih hxs hmem1
      unfold findOutput at this
      simp [List.find?_cons, hname, this]

theorem outputAt_mem (outputs : List AbstractOutput) (p : QPoint) (o : AbstractOutput)
    (h : outputAt outputs p = some o) : o ∈ outputs ∧ o.geometry.contains p = true := by
  unfold outputAt at h
  exact ⟨List.mem_of_find?_eq_some h, by simpa using List.find?_some h⟩

theorem updateLast_cases (outputs : List AbstractOutput) (d : ShuffleData) (g : QRect) :
    (outputAt outputs g.center = none ∧ updateLastShuffleState_helper outputs d g = d) ∨
    (∃ o, outputAt outputs g.center = some o ∧
      updateLastShuffleState_helper outputs d g =
        { d with lastOutputName := o.name, lastGeometry := g, lastOutputRect := o.geometry }) := by
  unfold updateLastShuffleState_helper
  cases h : outputAt outputs g.center with
  | none => exact Or.inl ⟨rfl, rfl⟩
  | some o => exact Or.inr ⟨o, rfl, rfl⟩

theorem updateLast_saved (outputs : List AbstractOutput) (d : ShuffleData) (g : QRect) :
    (updateLastShuffleState_helper outputs d g).savedOutputName = d.savedOutputName ∧
    (updateLastShuffleState_helper outputs d g).savedGeometry = d.savedGeometry ∧
    (updateLastShuffleState_helper outputs d g).savedOutputRect = d.savedOutputRect := by
  rcases updateLast_cases outputs d g with ⟨_, h⟩ | ⟨o, _, h⟩ <;> rw [h] <;> exact ⟨rfl, rfl, rfl⟩

theorem setFrameGeometry_same (outputs : List AbstractOutput) (tw : TrackedWindow) :
    setFrameGeometry outputs tw tw.frameGeometry = tw := by
  simp [setFrameGeometry]

/-- With distinct output names, an entry produced by the loop body is left as
it is by the loop body. -/
theorem shuffleWindow_idem (outputs : List AbstractOutput) (tw tw1 : TrackedWindow)
    (c : List GeometryRequest) (hnames : (outputs.map AbstractOutput.name).Nodup)
    (hw : shuffleWindow outputs tw = some (tw1, c)) :
    ∃ c1, shuffleWindow outputs tw1 = some (tw1, c1) := by
  have hw0 := hw
  unfold shuffleWindow at hw
  cases hs : shuffleSource outputs tw.data with
  | none =>
    simp only [hs, Option.some.injEq, Prod.mk.injEq] at hw
    rw [← hw.1]
    exact ⟨c, by rw [hw0, hw.1]⟩
  | some src =>
    obtain ⟨oa, g, ta⟩ := src
    simp only [hs] at hw
    by_cases he : oa = ta
    · simp only [he, if_true, Option.some.injEq, Prod.mk.injEq] at hw
      rw [← hw.1]
      exact ⟨c, by rw [hw0, hw.1]⟩
    · by_cases hv : g.isValid = true
      · simp only [he, hv, if_false, Bool.not_true, Bool.false_eq_true] at hw
        cases hm : moveBetweenRects oa ta g with
        | none => simp [hm] at hw
        | some rect =>
          simp only [hm, Option.some.injEq, Prod.mk.injEq] at hw
          obtain ⟨htw1, _⟩ := hw
          by_cases hsame : rect = tw.frameGeometry
          · have : tw1 = tw := by
              rw [← htw1, hsame, setFrameGeometry_same]
            rw [this]
            exact ⟨c, by rw [hw0, this]⟩
          · have hgeo : tw1.frameGeometry = rect := by
              rw [← htw1]
              simp [setFrameGeometry, hsame]
            have hdata : tw1.data = updateLastShuffleState_helper outputs tw.data rect := by
              rw [← htw1]
              simp [setFrameGeometry, hsame]
            obtain ⟨hs1, hs2, hs3⟩ := updateLast_saved outputs tw.data rect
            -- the loop body on `tw1` with an unchanged source gives `rect` again
            have hagain : shuffleSource outputs tw1.data = some (oa, g, ta) →
                ∃ c1, shuffleWindow outputs tw1 = some (tw1, c1) := by
              intro hsrc
              refine ⟨[{ window := tw1.window, rect := rect }], ?_⟩
              unfold shuffleWindow
              simp only [hsrc, he, hv, hm, if_false, Bool.not_true, Bool.false_eq_true]
              rw [← hgeo, setFrameGeometry_same]
            cases hfs : findOutput outputs tw.data.savedOutputName with
            | some o =>
              apply hagain
              simp only [shuffleSource, hfs] at hs
              simp only [shuffleSource, hdata, hs1, hs2, hs3, hfs]
              exact hs
            | none =>
              cases hfl : findOutput outputs tw.data.lastOutputName with
              | none => simp [shuffleSource, hfs, hfl] at hs
              | some o =>
                rcases updateLast_cases outputs tw.data rect with ⟨_, hu⟩ | ⟨o1, hat, hu⟩
                · apply hagain
                  rw [hdata, hu]
                  exact hs
                · refine ⟨[], ?_⟩
                  apply shuffleWindow_skip
                  right
                  have hfind : findOutput outputs o1.name = some o1 :=
                    findOutput_of_mem outputs o1 hnames (outputAt_mem outputs _ o1 hat).1
                  refine ⟨o1.geometry, rect, o1.geometry, ?_, Or.inl rfl⟩
                  rw [hdata, hu]
                  simp only [shuffleSource, hfs, hfind]
      · have hv1 : g.isValid = false := by simpa using hv
        simp only [he, hv1, if_false, Bool.not_false, if_true, Option.some.injEq,
          Prod.mk.injEq] at hw
        rw [← hw.1]
        exact ⟨c, by rw [hw0, hw.1]⟩

theorem shuffleEntries_idem (outputs : List AbstractOutput)
    (hnames : (outputs.map AbstractOutput.name).Nodup) (l : List TrackedWindow) :
    ∀ (l1 : List TrackedWindow) (calls : List GeometryRequest),
      shuffleEntries outputs l = some (l1, calls) →
      ∃ calls1, shuffleEntries outputs l1 = some (l1, calls1) := by
  induction l with
  | nil =>
    intro l1 calls h
    simp only [shuffleEntries, Option.some.injEq, Prod.mk.injEq] at h
    rw [← h.1]
    exact ⟨[], rfl⟩
  | cons e l ih =>
    intro l1 calls h
    simp only [shuffleEntries] at h
    cases hw : shuffleWindow outputs e with
    | none => simp [hw] at h
    | some p =>
      obtain ⟨e1, c⟩ := p
      cases hrest : shuffleEntries outputs l with
      | none => simp [hw, hrest] at h
      | some q =>
        obtain ⟨l2, c2⟩ := q
        simp only [hw, hrest, Option.some.injEq, Prod.mk.injEq] at h
        obtain ⟨c1, hc1⟩ := shuffleWindow_idem outputs e e1 c hnames hw
        obtain ⟨c3, hc3⟩ := ih l2 c2 hrest
        rw [← h.1]
        exact ⟨c1 ++ c3, by simp only [shuffleEntries, hc1, hc3]⟩

/-- C14: with distinct output names, a second shuffle() right after a first
one returns the state the first one produced: every tracked window keeps the
frame geometry (and shuffle data) it had after the first invocation. -/
theorem shuffle_idempotent (s s1 : Shuffler) (calls : List GeometryRequest)
    (hnames : (s.outputs.map AbstractOutput.name).Nodup)
    (h : s.shuffle = some (s1, calls)) :
    ∃ calls1, s1.shuffle = some (s1, calls1) ∧
      ∀ s2 calls2, s1.shuffle = some (s2, calls2) →
        s2.m_shuffleData.map TrackedWindow.frameGeometry =
          s1.m_shuffleData.map TrackedWindow.frameGeometry := by
  unfold Shuffler.shuffle at h
  cases he : shuffleEntries s.outputs s.m_shuffleData with
  | none => simp [he] at h
  | some p =>
    obtain ⟨entries, calls0⟩ := p
    simp only [he, Option.some.injEq, Prod.mk.injEq] at h
    obtain ⟨c1, hc1⟩ := shuffleEntries_idem s.outputs hnames s.m_shuffleData entries calls0 he
    have hrun : s1.shuffle = some (s1, c1) := by
      rw [← h.1]
      simp only [Shuffler.shuffle, hc1]
    refine ⟨c1, hrun, ?_⟩
    intro s2 calls2 h2
    rw [hrun] at h2
    simp only [Option.some.injEq, Prod.mk.injEq] at h2
    rw [← h2.1]

theorem shuffle_restoredLarge :
    Shuffler.shuffle
        { outputs := [outputDP1Large, outputHDMI1], m_shuffleData := [windowMovedAway] } =
      some ({ outputs := [outputDP1Large, outputHDMI1], m_shuffleData := [windowRestoredLarge] },
        [{ window := 1, rect := QRect.ofXYWH 20 20 200 100 }]) := by
  simp only [Shuffler.shuffle, shuffleEntries, shuffleWindow_restoredLarge, List.append_nil]

/-- Witness for C14: after the restore onto the enlarged "DP-1" a second
shuffle() returns the same state. -/
theorem shuffle_idempotent_witness :
    (([outputDP1Large, outputHDMI1].map AbstractOutput.name).Nodup ∧
      Shuffler.shuffle
          { outputs := [outputDP1Large, outputHDMI1], m_shuffleData := [windowMovedAway] } =
        some ({ outputs := [outputDP1Large, outputHDMI1],
                m_shuffleData := [windowRestoredLarge] },
          [{ window := 1, rect := QRect.ofXYWH 20 20 200 100 }])) ∧
    ∃ calls1,
      Shuffler.shuffle
          { outputs := [outputDP1Large, outputHDMI1], m_shuffleData := [windowRestoredLarge] } =
        some ({ outputs := [outputDP1Large, outputHDMI1],
                m_shuffleData := [windowRestoredLarge] }, calls1) := by
  obtain ⟨calls1, h1, _⟩ :=
    shuffle_idempotent
      { outputs := [outputDP1Large, outputHDMI1], m_shuffleData := [windowMovedAway] }
      { outputs := [outputDP1Large, outputHDMI1], m_shuffleData := [windowRestoredLarge] }
      [{ window := 1, rect := QRect.ofXYWH 20 20 200 100 }] (by decide) shuffle_restoredLarge
  exact ⟨⟨by decide, shuffle_restoredLarge⟩, calls1, h1⟩

/-! ## Properties of the layer-shell focus queues -/

/-- C15: when the activate queue holds an exclusive entry, the activate pass
of a drain cycle gives focus to the first exclusive entry of the queue, which
is not an on-demand entry, wherever on-demand entries stand in the queue; when
it holds no exclusive entry, focus goes to the first on-demand entry. -/
theorem exclusive_preempts_on_demand (l : LayerShellV1Integration)
    (mode : LayerShellV1Client → Option KeyboardInteractivity) :
    (∀ pre c post, l.m_activateQueue = pre ++ c :: post →
      mode c = some KeyboardInteractivity.exclusive →
      (∀ x ∈ pre, mode x ≠ some KeyboardInteractivity.exclusive) →
      l.handleActivateExclusive mode = some c ∧ l.activatePass mode = some c ∧
        (l.drain mode).1 = some c ∧ mode c ≠ some KeyboardInteractivity.onDemand) ∧
    ((∀ x ∈ l.m_activateQueue, mode x ≠ some KeyboardInteractivity.exclusive) →
      l.handleActivateExclusive mode = none ∧
      ∀ pre c post, l.m_activateQueue = pre ++ c :: post →
        mode c = some KeyboardInteractivity.onDemand →
        (∀ x ∈ pre, mode x ≠ some KeyboardInteractivity.onDemand) →
        l.activatePass mode = some c ∧ (l.drain mode).1 = some c) := by
  constructor
  · intro pre c post hq hc hpre
    have hex : l.handleActivateExclusive mode = some c := by
      unfold LayerShellV1Integration.handleActivateExclusive
      rw [hq, List.find?_eq_some]
      refine ⟨by simp [hc], pre, post, rfl, ?_⟩
      intro a ha
      simpa using hpre a ha
    have hpass : l.activatePass mode = some c := by
      simp only [LayerShellV1Integration.activatePass, hex]
    refine ⟨hex, hpass, ?_, ?_⟩
    · simp only [LayerShellV1Integration.drain, hpass]
    · rw [hc]
      decide
  · intro hnone
    have hex : l.handleActivateExclusive mode = none := by
      unfold LayerShellV1Integration.handleActivateExclusive
      rw [List.find?_eq_none]
      intro x hx
      simpa using hnone x hx
    refine ⟨hex, ?_⟩
    intro pre c post hq hc hpre
    have hod : l.handleActivateOnDemand mode = some c := by
      unfold LayerShellV1Integration.handleActivateOnDemand
      rw [hq, List.find?_eq_some]
      refine ⟨by simp [hc], pre, post, rfl, ?_⟩
      intro a ha
      simpa using hpre a ha
    have hpass : l.activatePass mode = some c := by
      simp only [LayerShellV1Integration.activatePass, hex, hod]
    exact ⟨hpass, by simp only [LayerShellV1Integration.drain, hpass]⟩

/-- Witness for C15: the queue [onDemand 1, exclusive 2] built by two
scheduleActivate calls gives focus to 2; the queue [1, 3] of on-demand
entries gives focus to 1. -/
theorem exclusive_preempts_on_demand_witness :
    (LayerShellV1Integration.scheduleActivate
        (LayerShellV1Integration.scheduleActivate
          { m_activateQueue := [], m_deactivateQueue := [] } 1) 2).m_activateQueue = [1, 2] ∧
    LayerShellV1Integration.activatePass { m_activateQueue := [1, 2], m_deactivateQueue := [] }
      exampleModes = some 2 ∧
    LayerShellV1Integration.activatePass { m_activateQueue := [1, 3], m_deactivateQueue := [] }
      exampleModes = some 1 :=
  ⟨by decide,
    ((exclusive_preempts_on_demand { m_activateQueue := [1, 2], m_deactivateQueue := [] }
      exampleModes).1 [1] 2 [] rfl (by decide) (by decide)).2.1,
    (((exclusive_preempts_on_demand { m_activateQueue := [1, 3], m_deactivateQueue := [] }
      exampleModes).2 (by decide)).2 [] 1 [3] rfl (by decide) (by decide)).1⟩

/-! ## State maintenance of the shuffler -/

theorem updateEntry_some (s : Shuffler) (client : AbstractClient)
    (f : TrackedWindow → TrackedWindow)
    (htracked : ∃ e ∈ s.m_shuffleData, e.window = client) :
    s.updateEntry client f =
      some { outputs := s.outputs
             m_shuffleData := s.m_shuffleData.map (fun e => if e.window = client then f e else e) } := by
  unfold Shuffler.updateEntry
  have : s.m_shuffleData.any (fun e => decide (e.window = client)) = true := by
    rw [List.any_eq_true]
    obtain ⟨e, he, hw⟩ := htracked
    exact ⟨e, he, by simpa using hw⟩
  simp only [this, if_true]

/-- C17: the slot run on `frameGeometryChanged` of a tracked window keeps
every entry's window, frame geometry and saved state (output name, geometry,
output rectangle); entries of other windows are unchanged altogether; the
entry of the window itself gets as last state the name and rectangle of the
output found under the centre of its frame geometry, and that frame geometry;
when no output is found under the centre the entry is unchanged. -/
theorem geometry_change_updates_last_only (s : Shuffler) (client : AbstractClient)
    (htracked : ∃ e ∈ s.m_shuffleData, e.window = client) :
    ∃ s1, s.handleSignal client WindowSignal.frameGeometryChanged = some s1 ∧
      s1.outputs = s.outputs ∧
      s1.m_shuffleData.length = s.m_shuffleData.length ∧
      ∀ (i : Nat) (e : TrackedWindow), s.m_shuffleData[i]? = some e →
        ∃ e1 : TrackedWindow, s1.m_shuffleData[i]? = some e1 ∧
          e1.window = e.window ∧ e1.frameGeometry = e.frameGeometry ∧
          e1.data.savedOutputName = e.data.savedOutputName ∧
          e1.data.savedGeometry = e.data.savedGeometry ∧
          e1.data.savedOutputRect = e.data.savedOutputRect ∧
          (e.window ≠ client → e1 = e) ∧
          (e.window = client →
            ∀ O, outputAt s.outputs e.frameGeometry.center = some O →
              e1.data.lastOutputName = O.name ∧ e1.data.lastGeometry = e.frameGeometry ∧
              e1.data.lastOutputRect = O.geometry) ∧
          (e.window = client → outputAt s.outputs e.frameGeometry.center = none →
            e1 = e) := by
  simp only [Shuffler.handleSignal, Shuffler.updateLastShuffleState]
  rw [updateEntry_some s client _ htracked]
  refine ⟨_, rfl, rfl, by simp, ?_⟩
  intro i e hi
  by_cases hw : e.window = client
  · obtain ⟨h1, h2, h3⟩ := updateLast_saved s.outputs e.data e.frameGeometry
    subst hw
    refine ⟨{ e with data := updateLastShuffleState_helper s.outputs e.data e.frameGeometry },
      by simp [List.getElem?_map, hi], rfl, rfl, h1, h2, h3, fun hne => absurd rfl hne, ?_, ?_⟩
    · intro _ O hO
      simp [updateLastShuffleState_helper, hO]
    · intro _ hnone
      simp only [updateLastShuffleState_helper, hnone]
  · refine ⟨e, by simp [List.getElem?_map, hi, hw], rfl, rfl, rfl, rfl, rfl, fun _ => rfl,
      fun h => absurd h hw, fun h => absurd h hw⟩

/-- Witness for C17: window 1, tracked on "DP-1", has been moved to
(1010,10) on "HDMI-1" when `frameGeometryChanged` arrives; its entry becomes
`windowMovedAway`: last state on "HDMI-1", saved state still on "DP-1". -/
theorem geometry_change_updates_last_only_witness :
    (∃ e ∈ [windowJustMoved], e.window = 1) ∧
    Shuffler.handleSignal { outputs := [outputHDMI1], m_shuffleData := [windowJustMoved] } 1
        WindowSignal.frameGeometryChanged =
      some { outputs := [outputHDMI1], m_shuffleData := [windowMovedAway] } ∧
    ∃ s1, Shuffler.handleSignal { outputs := [outputHDMI1], m_shuffleData := [windowJustMoved] }
        1 WindowSignal.frameGeometryChanged = some s1 ∧
      s1.outputs = [outputHDMI1] :=
  ⟨⟨windowJustMoved, List.mem_singleton.2 rfl, rfl⟩, by decide,
    (geometry_change_updates_last_only
      { outputs := [outputHDMI1], m_shuffleData := [windowJustMoved] } 1
      ⟨windowJustMoved, List.mem_singleton.2 rfl, rfl⟩).imp (fun _ h => ⟨h.1, h.2.1⟩)⟩

/-! ## What the loop of `shuffle` leaves alone -/

theorem setFrameGeometry_saved (outputs : List AbstractOutput) (tw : TrackedWindow)
    (rect : QRect) :
    (setFrameGeometry outputs tw rect).window = tw.window ∧
    (setFrameGeometry outputs tw rect).data.savedOutputName = tw.data.savedOutputName ∧
    (setFrameGeometry outputs tw rect).data.savedGeometry = tw.data.savedGeometry ∧
    (setFrameGeometry outputs tw rect).data.savedOutputRect = tw.data.savedOutputRect := by
  unfold setFrameGeometry
  split
  · exact ⟨rfl, rfl, rfl, rfl⟩
  · obtain ⟨h1, h2, h3⟩ := updateLast_saved outputs tw.data rect
    exact ⟨rfl, h1, h2, h3⟩

theorem shuffleWindow_saved (outputs : List AbstractOutput) (tw tw1 : TrackedWindow)
    (c : List GeometryRequest) (hw : shuffleWindow outputs tw = some (tw1, c)) :
    tw1.window = tw.window ∧
    tw1.data.savedOutputName = tw.data.savedOutputName ∧
    tw1.data.savedGeometry = tw.data.savedGeometry ∧
    tw1.data.savedOutputRect = tw.data.savedOutputRect := by
  unfold shuffleWindow at hw
  split at hw
  · simp only [Option.some.injEq, Prod.mk.injEq] at hw
    rw [← hw.1]
    exact ⟨rfl, rfl, rfl, rfl⟩
  · split at hw
    · simp only [Option.some.injEq, Prod.mk.injEq] at hw
      rw [← hw.1]
      exact ⟨rfl, rfl, rfl, rfl⟩
    · split at hw
      · simp only [Option.some.injEq, Prod.mk.injEq] at hw
        rw [← hw.1]
        exact ⟨rfl, rfl, rfl, rfl⟩
      · split at hw
        · simp at hw
        · simp only [Option.some.injEq, Prod.mk.injEq] at hw
          rw [← hw.1]
          exact setFrameGeometry_saved outputs tw _

/-- The entry at each position after the loop is the result of the loop body
on the entry that was at that position. -/
theorem shuffleEntries_getElem (outputs : List AbstractOutput) (l : List TrackedWindow) :
    ∀ (l1 : List TrackedWindow) (calls : List GeometryRequest),
      shuffleEntries outputs l = some (l1, calls) →
      ∀ (i : Nat) (e : TrackedWindow), l[i]? = some e →
        ∃ e1 c, l1[i]? = some e1 ∧ shuffleWindow outputs e = some (e1, c) := by
  induction l with
  | nil =>
    intro l1 calls _ i e hi
    simp at hi
  | cons x l ih =>
    intro l1 calls h i e hi
    simp only [shuffleEntries] at h
    cases hw : shuffleWindow outputs x with
    | none => simp [hw] at h
    | some p =>
      obtain ⟨x1, c⟩ := p
      cases hrest : shuffleEntries outputs l with
      | none => simp [hw, hrest] at h
      | some q =>
        obtain ⟨l2, c2⟩ := q
        simp only [hw, hrest, Option.some.injEq, Prod.mk.injEq] at h
        rw [← h.1]
        cases i with
        | zero =>
          simp only [List.getElem?_cons_zero, Option.some.injEq] at hi
          rw [← hi]
          exact ⟨x1, c, by simp, hw⟩
        | succ j =>
          simp only [List.getElem?_cons_succ] at hi
          obtain ⟨e1, c1, h1, h2⟩ := ih l2 c2 hrest j e hi
          exact ⟨e1, c1, by simpa using h1, h2⟩

/-- C18: shuffle(), the geometry-change notifications of its moves included,
keeps the outputs, the number and order of the entries, and for every tracked
window its saved output name, saved geometry and saved output rectangle. -/
theorem shuffle_keeps_saved_state (s s1 : Shuffler) (calls : List GeometryRequest)
    (h : s.shuffle = some (s1, calls)) :
    s1.outputs = s.outputs ∧
    s1.m_shuffleData.length = s.m_shuffleData.length ∧
    ∀ (i : Nat) (e : TrackedWindow), s.m_shuffleData[i]? = some e →
      ∃ e1 : TrackedWindow, s1.m_shuffleData[i]? = some e1 ∧
        e1.window = e.window ∧
        e1.data.savedOutputName = e.data.savedOutputName ∧
        e1.data.savedGeometry = e.data.savedGeometry ∧
        e1.data.savedOutputRect = e.data.savedOutputRect := by
  unfold Shuffler.shuffle at h
  cases he : shuffleEntries s.outputs s.m_shuffleData with
  | none => simp [he] at h
  | some p =>
    obtain ⟨entries, calls0⟩ := p
    simp only [he, Option.some.injEq, Prod.mk.injEq] at h
    rw [← h.1]
    refine ⟨rfl, shuffleEntries_length s.outputs s.m_shuffleData entries calls0 he, ?_⟩
    intro i e hi
    obtain ⟨e1, c, h1, h2⟩ :=
      shuffleEntries_getElem s.outputs s.m_shuffleData entries calls0 he i e hi
    exact ⟨e1, h1, shuffleWindow_saved s.outputs e e1 c h2⟩

/-- Witness for C18: the restore onto the enlarged "DP-1" changes the frame
geometry and the last state of window 1 and keeps its saved state. -/
theorem shuffle_keeps_saved_state_witness :
    Shuffler.shuffle
        { outputs := [outputDP1Large, outputHDMI1], m_shuffleData := [windowMovedAway] } =
      some ({ outputs := [outputDP1Large, outputHDMI1], m_shuffleData := [windowRestoredLarge] },
        [{ window := 1, rect := QRect.ofXYWH 20 20 200 100 }]) ∧
    windowRestoredLarge.data.lastOutputName ≠ windowMovedAway.data.lastOutputName ∧
    ∃ e1 : TrackedWindow, [windowRestoredLarge][0]? = some e1 ∧
      e1.window = windowMovedAway.window ∧
      e1.data.savedOutputName = windowMovedAway.data.savedOutputName ∧
      e1.data.savedGeometry = windowMovedAway.data.savedGeometry ∧
      e1.data.savedOutputRect = windowMovedAway.data.savedOutputRect :=
  ⟨shuffle_restoredLarge, by decide,
    (shuffle_keeps_saved_state
      { outputs := [outputDP1Large, outputHDMI1], m_shuffleData := [windowMovedAway] }
      { outputs := [outputDP1Large, outputHDMI1], m_shuffleData := [windowRestoredLarge] }
      [{ window := 1, rect := QRect.ofXYWH 20 20 200 100 }] shuffle_restoredLarge).2.2 0
      windowMovedAway rfl⟩

/-! ## Containment under the rectangle mapping -/

theorem scaled_span_le (a w sw tw : Int) (ha : 0 ≤ a) (hfit : a + w ≤ sw)
    (hsw : 0 < sw) (htw : 0 < tw) :
    (0 : ℚ) ≤ (a : ℚ) * ((tw : ℚ) / (sw : ℚ)) ∧
    (a : ℚ) * ((tw : ℚ) / (sw : ℚ)) + (w : ℚ) * ((tw : ℚ) / (sw : ℚ)) ≤ (tw : ℚ) := by
  have hswq : (0 : ℚ) < (sw : ℚ) := by exact_mod_cast hsw
  have htwq : (0 : ℚ) < (tw : ℚ) := by exact_mod_cast htw
  have haq : (0 : ℚ) ≤ (a : ℚ) := by exact_mod_cast ha
  have hk : (0 : ℚ) < (tw : ℚ) / (sw : ℚ) := div_pos htwq hswq
  have hfitq : (a : ℚ) + (w : ℚ) ≤ (sw : ℚ) := by exact_mod_cast hfit
  refine ⟨mul_nonneg haq hk.le, ?_⟩
  have h1 : ((a : ℚ) + (w : ℚ)) * ((tw : ℚ) / (sw : ℚ)) ≤ (sw : ℚ) * ((tw : ℚ) / (sw : ℚ)) :=
    mul_le_mul_of_nonneg_right hfitq hk.le
  have h2 : (sw : ℚ) * ((tw : ℚ) / (sw : ℚ)) = (tw : ℚ) := by
    field_simp
  linarith

/-- Inside the source area nothing overflows along an axis, and the exactly
scaled edges lie within the target area. -/
theorem axisInRange_of_inside (s0 sw t0 tw r0 rw : Int) (hsw : 0 < sw) (htw : 0 < tw)
    (hrw : 0 < rw) (h0 : s0 ≤ r0) (h1 : r0 + rw ≤ s0 + sw) (hs : sw < 2147483648)
    (ht0 : -2147483648 < t0) (ht1 : t0 + tw < 2147483648) (htw1 : tw < 2147483648) :
    axisInRange s0 sw t0 tw r0 rw ∧
      (t0 : ℚ) ≤ (t0 : ℚ) + ((r0 - s0 : Int) : ℚ) * ((tw : ℚ) / (sw : ℚ)) ∧
      (t0 : ℚ) + ((r0 - s0 : Int) : ℚ) * ((tw : ℚ) / (sw : ℚ)) + (rw : ℚ) * ((tw : ℚ) / (sw : ℚ))
        ≤ ((t0 + tw : Int) : ℚ) := by
  obtain ⟨hx0, hx1⟩ := scaled_span_le (r0 - s0) rw sw tw (by omega) (by omega) hsw htw
  have hswq : (0 : ℚ) < (sw : ℚ) := by exact_mod_cast hsw
  have htwq : (0 : ℚ) < (tw : ℚ) := by exact_mod_cast htw
  have hrwq : (0 : ℚ) < (rw : ℚ) := by exact_mod_cast hrw
  have hw0 : (0 : ℚ) ≤ (rw : ℚ) * ((tw : ℚ) / (sw : ℚ)) :=
    mul_nonneg hrwq.le (div_pos htwq hswq).le
  have hlo : ((-2147483647 : Int) : ℚ) ≤ (t0 : ℚ) := Int.cast_le.2 (by omega)
  have hhi : ((t0 + tw : Int) : ℚ) ≤ ((2147483647 : Int) : ℚ) := Int.cast_le.2 (by omega)
  push_cast at hlo hhi
  refine ⟨⟨⟨by omega, by omega⟩, ⟨by omega, by omega⟩, ⟨by omega, by omega⟩,
    ⟨by omega, by omega⟩, ⟨by omega, by omega⟩, ?_, ?_⟩, by linarith, ?_⟩
  · rw [abs_le]; constructor <;> linarith
  · rw [abs_le]; constructor <;> linarith
  · rw [Int.cast_add]; linarith

/-- An integer within a half and a bit of a value that is at least `z` is at least `z`. -/
theorem le_of_near (z g : Int) (q : ℚ) (hq : (z : ℚ) ≤ q)
    (h : |(g : ℚ) - q| ≤ 1 / 2 + 1 / 131072) : z ≤ g := by
  obtain ⟨h1, _⟩ := abs_le.1 h
  have : ((z - 1 : Int) : ℚ) < (g : ℚ) := by push_cast; linarith
  have := Int.cast_lt.1 this
  omega

/-- An integer within a half and a bit of a value that is at most `z` is at most `z`. -/
theorem near_le (z g : Int) (q : ℚ) (hq : q ≤ (z : ℚ))
    (h : |(g : ℚ) - q| ≤ 1 / 2 + 1 / 131072) : g ≤ z := by
  obtain ⟨_, h2⟩ := abs_le.1 h
  have : (g : ℚ) < ((z + 1 : Int) : ℚ) := by push_cast; linarith
  have := Int.cast_lt.1 this
  omega

/-- C19: for valid areas S and T whose extents are ints, with T's corners and
the coordinates just past its right and bottom edge inside the int range
(`QRect.inIntRange`), and every valid rectangle R lying inside S, the
rectangle moveBetweenRects(S, T, R), computed in double arithmetic, is defined
and lies inside T: its left edge is not left of T's, its top edge not above
T's, and left + width and top + height do not exceed T's. -/
theorem moveBetweenRects_contained (S T R : QRect)
    (hS : S.isValid = true) (hT : T.isValid = true) (hR : R.isValid = true)
    (hSr : S.width < 2147483648 ∧ S.height < 2147483648) (hTr : T.inIntRange)
    (hleft : S.x ≤ R.x) (htop : S.y ≤ R.y)
    (hright : R.x + R.width ≤ S.x + S.width)
    (hbottom : R.y + R.height ≤ S.y + S.height) :
    ∃ g, moveBetweenRects S T R = some g ∧
      T.x ≤ g.x ∧ T.y ≤ g.y ∧
      g.x + g.width ≤ T.x + T.width ∧ g.y + g.height ≤ T.y + T.height := by
  obtain ⟨hsw, hsh⟩ := QRect.width_pos_of_isValid S hS
  obtain ⟨htw, hth⟩ := QRect.width_pos_of_isValid T hT
  obtain ⟨hrw, hrh⟩ := QRect.width_pos_of_isValid R hR
  obtain ⟨hx0, hx1, hxw, hy0, hy1, hyh⟩ := hTr
  obtain ⟨hax, hxl, hxr⟩ := axisInRange_of_inside S.x S.width T.x T.width R.x R.width
    hsw htw hrw hleft hright hSr.1 hx0 hx1 hxw
  obtain ⟨hay, hyl, hyr⟩ := axisInRange_of_inside S.y S.height T.y T.height R.y R.height
    hsh hth hrh htop hbottom hSr.2 hy0 hy1 hyh
  obtain ⟨g, hg, h1, h2, h3, h4, _, _⟩ := moveBetweenRects_edges S T R hS hT ⟨hax, hay⟩
  exact ⟨g, hg, le_of_near _ _ _ hxl h1, le_of_near _ _ _ hyl h2, near_le _ _ _ hxr h3,
    near_le _ _ _ hyr h4⟩

/-- Witness for C19: the saved geometry (10,10) 100x50 inside (0,0) 1000x500
mapped into (0,0) 2000x1000. -/
theorem moveBetweenRects_contained_witness :
    ((QRect.ofXYWH 0 0 1000 500).isValid = true ∧ (QRect.ofXYWH 0 0 2000 1000).isValid = true ∧
      (QRect.ofXYWH 10 10 100 50).isValid = true ∧
      ((QRect.ofXYWH 0 0 1000 500).width < 2147483648 ∧
        (QRect.ofXYWH 0 0 1000 500).height < 2147483648) ∧
      (QRect.ofXYWH 0 0 2000 1000).inIntRange ∧
      (QRect.ofXYWH 0 0 1000 500).x ≤ (QRect.ofXYWH 10 10 100 50).x ∧
      (QRect.ofXYWH 0 0 1000 500).y ≤ (QRect.ofXYWH 10 10 100 50).y ∧
      (QRect.ofXYWH 10 10 100 50).x + (QRect.ofXYWH 10 10 100 50).width ≤
        (QRect.ofXYWH 0 0 1000 500).x + (QRect.ofXYWH 0 0 1000 500).width ∧
      (QRect.ofXYWH 10 10 100 50).y + (QRect.ofXYWH 10 10 100 50).height ≤
        (QRect.ofXYWH 0 0 1000 500).y + (QRect.ofXYWH 0 0 1000 500).height) ∧
    ∃ g, moveBetweenRects (QRect.ofXYWH 0 0 1000 500) (QRect.ofXYWH 0 0 2000 1000)
        (QRect.ofXYWH 10 10 100 50) = some g ∧
      (QRect.ofXYWH 0 0 2000 1000).x ≤ g.x ∧ (QRect.ofXYWH 0 0 2000 1000).y ≤ g.y ∧
      g.x + g.width ≤ (QRect.ofXYWH 0 0 2000 1000).x + (QRect.ofXYWH 0 0 2000 1000).width ∧
      g.y + g.height ≤ (QRect.ofXYWH 0 0 2000 1000).y + (QRect.ofXYWH 0 0 2000 1000).height :=
  ⟨⟨by decide, by decide, by decide, by decide, by decide, by decide, by decide, by decide,
      by decide⟩,
    moveBetweenRects_contained (QRect.ofXYWH 0 0 1000 500) (QRect.ofXYWH 0 0 2000 1000)
      (QRect.ofXYWH 10 10 100 50) (by decide) (by decide) (by decide) (by decide) (by decide)
      (by decide) (by decide) (by decide) (by decide)⟩

/-! ## Startup indicators of the activation broker -/

/-- The effects of one handled request, by kind of step: nothing happens; or
the live token is dropped with its `startupRemoved` (after the request made on
the target window, for a redemption); or a token is issued, with
`startupRemoved` for the token it replaces, if any, and `startupAdded` for the
new one. -/
theorem handle_effects (ws : Workspace) (st : XdgActivationV1Integration) (rq : Request)
    (r : Reply) (h : handle ws st rq = some r) :
    (r.state = st ∧ r.effects = [] ∧ r.issued = none) ∨
    (∃ old, st.m_currentActivationToken = some old ∧
      r.state = { st with m_currentActivationToken := none } ∧ r.issued = none ∧
      (r.effects = [Effect.startupRemoved old.token] ∨
        ∃ c, r.effects = [Effect.activateClient c, Effect.startupRemoved old.token] ∨
          r.effects = [Effect.demandAttention c, Effect.startupRemoved old.token])) ∨
    (∃ t icon fallback, r.issued = some t ∧ liveTokens r.state = [t] ∧
      r.effects = (liveTokens st).map Effect.startupRemoved ++
        [Effect.startupAdded t icon fallback]) := by
  cases rq with
  | createToken surface serial seat appId =>
    simp only [handle, Option.map_eq_some'] at h
    obtain ⟨⟨t, st1, es⟩, hc, hr⟩ := h
    subst hr
    unfold activationTokenCreator at hc
    cases hact : ws.activeClient with
    | none => simp [hact] at hc
    | some active =>
      simp only [hact] at hc
      by_cases hs : ws.surface active = surface
      · right; right
        have hne := tokenString_ne_empty (wrapInt32 (st.i + 1))
        cases hlive : st.m_currentActivationToken with
        | none =>
          simp [hs, hlive] at hc
          obtain ⟨h1, h2, h3⟩ := hc
          subst h1 h2 h3
          exact ⟨tokenString (wrapInt32 (st.i + 1)), ws.iconFromDesktopFile appId, "system-run",
            by simp [Reply.issued, hne], by simp [liveTokens], by simp [liveTokens, hlive]⟩
        | some old =>
          simp [hs, hlive, clear] at hc
          obtain ⟨h1, h2, h3⟩ := hc
          subst h1 h2 h3
          exact ⟨tokenString (wrapInt32 (st.i + 1)), ws.iconFromDesktopFile appId, "system-run",
            by simp [Reply.issued, hne], by simp [liveTokens], by simp [liveTokens, hlive]⟩
      · left
        simp [hs] at hc
        obtain ⟨h1, h2, h3⟩ := hc
        subst h1 h2 h3
        simp [Reply.issued]
  | activate surface token =>
    simp only [handle, Option.map_eq_some'] at h
    obtain ⟨⟨st1, es⟩, hc, hr⟩ := h
    subst hr
    cases hcl : ws.findClient surface with
    | none =>
      rw [activateSurface_rejected ws st surface token (Or.inl hcl)] at hc
      simp only [Option.some.injEq, Prod.mk.injEq] at hc
      exact Or.inl ⟨hc.1.symm, hc.2.symm, rfl⟩
    | some client =>
      cases hlive : st.m_currentActivationToken with
      | none =>
        rw [activateSurface_rejected ws st surface token
          (Or.inr (fun cur hcur => by rw [hlive] at hcur; cases hcur))] at hc
        simp only [Option.some.injEq, Prod.mk.injEq] at hc
        exact Or.inl ⟨hc.1.symm, hc.2.symm, rfl⟩
      | some cur =>
        by_cases ht : cur.token = token
        · right; left
          subst ht
          rw [activateSurface_matched ws st surface client cur hcl hlive] at hc
          refine ⟨cur, rfl, ?_⟩
          split at hc
          · simp only [Option.some_bind, Option.some.injEq, Prod.mk.injEq] at hc
            exact ⟨hc.1.symm, rfl, Or.inr ⟨client, Or.inl hc.2.symm⟩⟩
          · split at hc
            · simp only [Option.some_bind, Option.some.injEq, Prod.mk.injEq] at hc
              exact ⟨hc.1.symm, rfl, Or.inr ⟨client, Or.inl hc.2.symm⟩⟩
            · split at hc
              · simp at hc
              · split at hc
                · simp only [Option.some_bind, Option.some.injEq, Prod.mk.injEq] at hc
                  exact ⟨hc.1.symm, rfl, Or.inr ⟨client, Or.inl hc.2.symm⟩⟩
                · simp only [Option.some_bind, Option.some.injEq, Prod.mk.injEq] at hc
                  exact ⟨hc.1.symm, rfl, Or.inr ⟨client, Or.inr hc.2.symm⟩⟩
        · rw [activateSurface_rejected ws st surface token
            (Or.inr (fun c hcur => by
              rw [hlive] at hcur
              simp only [Option.some.injEq] at hcur
              rw [← hcur]
              exact ht))] at hc
          simp only [Option.some.injEq, Prod.mk.injEq] at hc
          exact Or.inl ⟨hc.1.symm, hc.2.symm, rfl⟩
  | clientActivated client =>
    simp only [handle, Option.map_eq_some'] at h
    obtain ⟨⟨st1, es⟩, hc, hr⟩ := h
    subst hr
    unfold clientActivated at hc
    split at hc
    · simp only [Option.some.injEq, Prod.mk.injEq] at hc
      exact Or.inl ⟨hc.1.symm, hc.2.symm, rfl⟩
    · simp only [Option.some.injEq, Prod.mk.injEq] at hc
      exact Or.inl ⟨hc.1.symm, hc.2.symm, rfl⟩
    · rename_i t c hlive
      split at hc
      · simp only [Option.some.injEq, Prod.mk.injEq] at hc
        exact Or.inl ⟨hc.1.symm, hc.2.symm, rfl⟩
      · simp only [clear, hlive, Option.some.injEq, Prod.mk.injEq] at hc
        exact Or.inr (Or.inl ⟨t, hlive, hc.1.symm, rfl, Or.inl hc.2.symm⟩)

/-- One handled request takes the indicators on display from the live token
before the request to the live token after it. -/
theorem handle_indicators (ws : Workspace) (st : XdgActivationV1Integration) (rq : Request)
    (r : Reply) (h : handle ws st rq = some r) :
    indicatorsAfter (liveTokens st) r.effects = liveTokens r.state := by
  rcases handle_effects ws st rq r h with ⟨h1, h2, _⟩ | ⟨old, hold, h1, _, h2⟩ |
    ⟨t, icon, fb, _, h1, h2⟩
  · rw [h1, h2]
    rfl
  · rw [h1]
    rcases h2 with h2 | ⟨c, h2 | h2⟩ <;> rw [h2] <;>
      simp [indicatorsAfter, applyIndicator, liveTokens, hold]
  · rw [h1, h2]
    cases hlive : st.m_currentActivationToken with
    | none => simp [indicatorsAfter, applyIndicator, liveTokens, hlive]
    | some old => simp [indicatorsAfter, applyIndicator, liveTokens, hlive]

theorem run_indicators (reqs : List (Workspace × Request)) :
    ∀ (st st1 : XdgActivationV1Integration) (rs : List Reply),
      run st reqs = some (st1, rs) →
      indicatorsAfter (liveTokens st) (allEffects rs) = liveTokens st1 := by
  induction reqs with
  | nil =>
    intro st st1 rs h
    simp only [run, Option.some.injEq, Prod.mk.injEq] at h
    rw [← h.1, ← h.2]
    rfl
  | cons x rest ih =>
    intro st st1 rs h
    obtain ⟨ws, rq⟩ := x
    obtain ⟨r, rs1, hh, hr, hrs⟩ := run_cons_some ws rq rest st st1 rs h
    subst hrs
    simp only [allEffects, indicatorsAfter, List.foldl_append]
    have h1 := handle_indicators ws st rq r hh
    have h2 := ih r.state st1 rs1 hr
    simp only [indicatorsAfter] at h1 h2
    rw [h1, h2]

/-- C20: (a) after any request sequence from the initial state, the tokens
announced with startupAdded and not withdrawn with startupRemoved are exactly
the live token, none when no token is live; (b) in every step, from any state,
startupAdded is emitted exactly for a newly issued token, which is then the
live one; startupRemoved is emitted exactly for the token that was live before
the step, and exactly in the steps that issue a token or end with no live
token; and a step that neither issues nor ends without a token leaves the
state as it was. -/
theorem indicators_match_live_token :
    (∀ (reqs : List (Workspace × Request)) (st : XdgActivationV1Integration)
      (rs : List Reply),
      run XdgActivationV1Integration.init reqs = some (st, rs) →
      indicatorsAfter [] (allEffects rs) = liveTokens st) ∧
    (∀ (ws : Workspace) (st : XdgActivationV1Integration) (rq : Request) (r : Reply),
      handle ws st rq = some r →
      addedTokens r.effects = r.issued.toList ∧
      (∀ t, r.issued = some t → liveTokens r.state = [t]) ∧
      removedTokens r.effects =
        (if r.issued.isSome = true ∨ r.state.m_currentActivationToken = none then liveTokens st
         else []) ∧
      (r.issued = none → r.state.m_currentActivationToken ≠ none → r.state = st)) := by
  constructor
  · intro reqs st rs h
    exact run_indicators reqs XdgActivationV1Integration.init st rs h
  · intro ws st rq r h
    rcases handle_effects ws st rq r h with ⟨h1, h2, h3⟩ | ⟨old, hold, h1, h3, h2⟩ |
      ⟨t, icon, fb, h3, h1, h2⟩
    · rw [h1, h2, h3]
      refine ⟨rfl, fun t ht => (by cases ht), ?_, fun _ _ => rfl⟩
      cases hlive : st.m_currentActivationToken with
      | none => simp [removedTokens, liveTokens, hlive]
      | some old => simp [removedTokens]
    · rw [h1, h3]
      refine ⟨?_, fun t ht => (by cases ht), ?_, fun _ hne => absurd rfl hne⟩
      · rcases h2 with h2 | ⟨c, h2 | h2⟩ <;> rw [h2] <;> simp [addedTokens]
      · rcases h2 with h2 | ⟨c, h2 | h2⟩ <;> rw [h2] <;>
          simp [removedTokens, liveTokens, hold]
    · rw [h2, h3]
      refine ⟨?_, ?_, ?_, fun hc => (by cases hc)⟩
      · cases hlive : st.m_currentActivationToken with
        | none => simp [addedTokens, liveTokens, hlive]
        | some old => simp [addedTokens, liveTokens, hlive]
      · intro t1 ht1
        simp only [Option.some.injEq] at ht1
        rw [← ht1]
        exact h1
      · cases hlive : st.m_currentActivationToken with
        | none => simp [removedTokens, liveTokens, hlive]
        | some old => simp [removedTokens, liveTokens, hlive]

/-- Witness for C20: after the two issuances "kwin-1" and "kwin-2" the
effects are added "kwin-1", removed "kwin-1", added "kwin-2", and the one
indicator on display is that of the live token "kwin-2". -/
theorem indicators_match_live_token_witness :
    run XdgActivationV1Integration.init twoIssuances = some (stSecondIssued, twoReplies) ∧
    allEffects twoReplies =
      [Effect.startupAdded "kwin-1" "org.kde.konsole" "system-run",
       Effect.startupRemoved "kwin-1",
       Effect.startupAdded "kwin-2" "org.kde.konsole" "system-run"] ∧
    liveTokens stSecondIssued = ["kwin-2"] ∧
    indicatorsAfter [] (allEffects twoReplies) = liveTokens stSecondIssued :=
  ⟨rfl, by decide, by decide,
    indicators_match_live_token.1 twoIssuances stSecondIssued twoReplies rfl⟩

/-! ## Where the broker has no defined outcome -/

theorem creator_none_iff (ws : Workspace) (st : XdgActivationV1Integration)
    (surface : SurfaceInterface) (serial : Nat) (seat : SeatInterface) (appId : String) :
    activationTokenCreator ws st surface serial seat appId = none ↔ ws.activeClient = none := by
  constructor
  · intro h
    cases hact : ws.activeClient with
    | none => rfl
    | some active =>
      exfalso
      by_cases hs : ws.surface active = surface
      · obtain ⟨st1, es, hc⟩ :=
          creator_succeeds ws st surface serial seat appId active hact hs
        rw [hc] at h
        cases h
      · unfold activationTokenCreator at h
        simp [hact, hs] at h
  · intro h
    simp [activationTokenCreator, h]

theorem activateSurface_none_iff (ws : Workspace) (st : XdgActivationV1Integration)
    (surface : SurfaceInterface) (token : String) :
    activateSurface ws st surface token = none ↔
      ∃ client cur, ws.findClient surface = some client ∧
        st.m_currentActivationToken = some cur ∧ cur.token = token ∧
        ws.findClient cur.surface = none ∧ ws.activeClient ≠ none ∧
        cur.applicationId ≠ "" := by
  constructor
  · intro h
    cases hcl : ws.findClient surface with
    | none =>
      rw [activateSurface_rejected ws st surface token (Or.inl hcl)] at h
      cases h
    | some client =>
      cases hlive : st.m_currentActivationToken with
      | none =>
        rw [activateSurface_rejected ws st surface token
          (Or.inr (fun cur hcur => by rw [hlive] at hcur; cases hcur))] at h
        cases h
      | some cur =>
        by_cases ht : cur.token = token
        · subst ht
          rw [activateSurface_matched ws st surface client cur hcl hlive] at h
          refine ⟨client, cur, rfl, rfl, rfl, ?_⟩
          by_cases h1 : ws.activeClient = ws.findClient cur.surface
          · simp [h1] at h
          · by_cases h2 : cur.applicationId = ""
            · simp [h1, h2] at h
            · cases howner : ws.findClient cur.surface with
              | none =>
                refine ⟨rfl, ?_, h2⟩
                intro hnone
                apply h1
                rw [hnone, howner]
              | some owner =>
                rw [howner] at h1
                simp only [howner, h1, h2, if_false] at h
                split at h <;> simp at h
        · rw [activateSurface_rejected ws st surface token
            (Or.inr (fun c hcur => by
              rw [hlive] at hcur
              simp only [Option.some.injEq] at hcur
              rw [← hcur]
              exact ht))] at h
          cases h
  · rintro ⟨client, cur, hcl, hlive, ht, howner, hact, happ⟩
    subst ht
    rw [activateSurface_matched ws st surface client cur hcl hlive, howner]
    simp [hact, happ]

theorem clientActivated_ne_none (ws : Workspace) (st : XdgActivationV1Integration)
    (client : Option AbstractClient) : clientActivated ws st client ≠ none := by
  unfold clientActivated
  split
  · simp
  · simp
  · rename_i t c hlive
    split
    · simp
    · simp [clear, hlive]

/-- C21, evaluated: (a) with no window active, a token-creation request has no
defined outcome (the creator reads the surface of a null active window); (b)
with "kwin-1" live, its issuing surface 11 belonging to no window any more,
a non-empty application id and window 2 active, the matched redemption for
surface 22 has no defined outcome (it reads the desktop file name of a null
window). (c) These are the only ways an operation fails: the creator fails
exactly when no window is active, activateSurface exactly in the situation
of (b), the clientActivated handler never; so the assertion in clear() is
never the cause. -/
theorem broker_consults_absent_window :
    (wsNoneActive.activeClient = none ∧
      activationTokenCreator wsNoneActive XdgActivationV1Integration.init 11 5 0
        "org.kde.konsole" = none) ∧
    (wsIssuerGone.findClient 22 = some 2 ∧
      stFirstIssued.m_currentActivationToken = some firstToken ∧
      firstToken.token = "kwin-1" ∧
      wsIssuerGone.findClient firstToken.surface = none ∧
      firstToken.applicationId = "org.kde.konsole" ∧
      wsIssuerGone.activeClient = some 2 ∧
      activateSurface wsIssuerGone stFirstIssued 22 "kwin-1" = none) ∧
    (∀ (ws : Workspace) (st : XdgActivationV1Integration) (surface : SurfaceInterface)
      (serial : Nat) (seat : SeatInterface) (appId : String),
      activationTokenCreator ws st surface serial seat appId = none ↔
        ws.activeClient = none) ∧
    (∀ (ws : Workspace) (st : XdgActivationV1Integration) (surface : SurfaceInterface)
      (token : String),
      activateSurface ws st surface token = none ↔
        ∃ client cur, ws.findClient surface = some client ∧
          st.m_currentActivationToken = some cur ∧ cur.token = token ∧
          ws.findClient cur.surface = none ∧ ws.activeClient ≠ none ∧
          cur.applicationId ≠ "") ∧
    (∀ (ws : Workspace) (st : XdgActivationV1Integration) (client : Option AbstractClient),
      clientActivated ws st client ≠ none) :=
  ⟨⟨rfl, by decide⟩, ⟨by decide, rfl, rfl, by decide, rfl, rfl, by decide⟩,
    creator_none_iff, activateSurface_none_iff, clientActivated_ne_none⟩

/-- C1, evaluated where the code diverges: "kwin-1" has been issued to surface
11 (application id "org.kde.konsole"), window 3, which carries "kwin-1" in its
token property, has become active, and the issuing window has been closed.
The redemption of "kwin-1" for surface 33 (window 3) meets the claim's
conditions, the token matches and the surface resolves, but it has no
outcome: the code reads the desktop file name of the missing issuing window,
and the target is neither activated nor asked for attention. -/
theorem redemption_after_issuer_closed_undecided :
    (run XdgActivationV1Integration.init
        [(wsIssuerActive, Request.createToken 11 5 0 "org.kde.konsole"),
         (wsIssuerGoneHolderActive, Request.clientActivated (some 3))]).map Prod.fst =
      some stFirstIssued ∧
    wsIssuerGoneHolderActive.findClient 33 = some 3 ∧
    stFirstIssued.m_currentActivationToken = some firstToken ∧
    firstToken.token = "kwin-1" ∧
    wsIssuerGoneHolderActive.findClient firstToken.surface = none ∧
    wsIssuerGoneHolderActive.activeClient = some 3 ∧
    firstToken.applicationId ≠ "" ∧
    activateSurface wsIssuerGoneHolderActive stFirstIssued 33 "kwin-1" = none ∧
    ¬ ∃ st1 es,
      activateSurface wsIssuerGoneHolderActive stFirstIssued 33 "kwin-1" = some (st1, es) ∧
        (Effect.activateClient 3 ∈ es ∨ Effect.demandAttention 3 ∈ es) := by
  have h : activateSurface wsIssuerGoneHolderActive stFirstIssued 33 "kwin-1" = none := by
    decide
  refine ⟨by decide, by decide, rfl, rfl, by decide, rfl, by decide, h, ?_⟩
  rintro ⟨st1, es, h1, _⟩
  rw [h] at h1
  cases h1

/-- C2, evaluated where the code diverges: "kwin-1" is live and no window is
active any more (the handler of clientActivated ignores the null window and
keeps the token). A token-creation request for surface 22, which is not the
surface of the active window since there is none, does not return the empty
string: the code reads the surface of the missing active window and the
request has no outcome. -/
theorem creator_without_active_window_undefined :
    (run XdgActivationV1Integration.init
        [(wsIssuerActive, Request.createToken 11 5 0 "org.kde.konsole"),
         (wsNoneActive, Request.clientActivated none)]).map Prod.fst = some stFirstIssued ∧
    wsNoneActive.activeClient = none ∧
    (¬ ∃ c, wsNoneActive.activeClient = some c ∧ wsNoneActive.surface c = 22) ∧
    activationTokenCreator wsNoneActive stFirstIssued 22 9 0 "org.kde.dolphin" = none ∧
    activationTokenCreator wsNoneActive stFirstIssued 22 9 0 "org.kde.dolphin" ≠
      some ("", stFirstIssued, []) := by
  refine ⟨by decide, rfl, ?_, by decide, by decide⟩
  rintro ⟨c, hc, _⟩
  cases hc

/-- C4, evaluated where the code diverges: in the situation of
`redemption_after_issuer_closed_undecided`, with "kwin-1" live and the issuing
window closed, the redemption of "kwin-1" for surface 22 (window 2) matches
the live token on a surface that resolves, but it stops before clear(): there
is no state after it in which the token is cleared, although clear() itself
would have cleared it. -/
theorem redemption_after_issuer_closed_keeps_token :
    wsIssuerGoneHolderActive.findClient 22 = some 2 ∧
    stFirstIssued.m_currentActivationToken = some firstToken ∧
    firstToken.token = "kwin-1" ∧
    wsIssuerGoneHolderActive.findClient firstToken.surface = none ∧
    activateSurface wsIssuerGoneHolderActive stFirstIssued 22 "kwin-1" = none ∧
    run stFirstIssued [(wsIssuerGoneHolderActive, Request.activate 22 "kwin-1")] = none ∧
    clear stFirstIssued =
      some ({ stFirstIssued with m_currentActivationToken := none },
        [Effect.startupRemoved "kwin-1"]) := by
  refine ⟨by decide, rfl, rfl, by decide, by decide, by decide, by decide⟩

/-! ## An invariant of the shuffler's states -/

theorem default_wellFormed : ({} : ShuffleData).wellFormed :=
  ⟨Or.inl rfl, Or.inl rfl⟩

theorem updateLast_wellFormed (outputs : List AbstractOutput) (d : ShuffleData) (g : QRect)
    (hout : outputsWellFormed outputs) (hd : d.wellFormed) :
    (updateLastShuffleState_helper outputs d g).wellFormed := by
  rcases updateLast_cases outputs d g with ⟨_, h⟩ | ⟨o, hat, h⟩
  · rw [h]; exact hd
  · rw [h]
    exact ⟨hd.1, Or.inr (hout o (outputAt_mem outputs _ o hat).1).1⟩

theorem updateSaved_wellFormed (d : ShuffleData) (hd : d.wellFormed) :
    (updateSavedShuffleState_helper d).wellFormed :=
  ⟨hd.2, hd.2⟩

theorem updateFull_wellFormed (outputs : List AbstractOutput) (d : ShuffleData) (g : QRect)
    (hout : outputsWellFormed outputs) (hd : d.wellFormed) :
    (updateFullShuffleState_helper outputs d g).wellFormed :=
  updateSaved_wellFormed _ (updateLast_wellFormed outputs d g hout hd)

theorem setFrameGeometry_wellFormed (outputs : List AbstractOutput) (tw : TrackedWindow)
    (rect : QRect) (hout : outputsWellFormed outputs) (hd : tw.data.wellFormed) :
    (setFrameGeometry outputs tw rect).data.wellFormed := by
  unfold setFrameGeometry
  split
  · exact hd
  · exact updateLast_wellFormed outputs tw.data rect hout hd

theorem updateEntry_wellFormed (s s1 : Shuffler) (client : AbstractClient)
    (f : TrackedWindow → TrackedWindow)
    (hf : ∀ e, e.data.wellFormed → (f e).data.wellFormed)
    (hs : s.wellFormed) (h : s.updateEntry client f = some s1) : s1.wellFormed := by
  unfold Shuffler.updateEntry at h
  split at h
  · simp only [Option.some.injEq] at h
    rw [← h]
    refine ⟨hs.1, ?_⟩
    intro e he
    obtain ⟨e0, he0, heq⟩ := List.mem_map.1 he
    rw [← heq]
    split
    · exact hf e0 (hs.2 e0 he0)
    · exact hs.2 e0 he0
  · cases h

theorem shuffleWindow_wellFormed (outputs : List AbstractOutput) (tw tw1 : TrackedWindow)
    (c : List GeometryRequest) (hout : outputsWellFormed outputs) (hd : tw.data.wellFormed)
    (hw : shuffleWindow outputs tw = some (tw1, c)) : tw1.data.wellFormed := by
  unfold shuffleWindow at hw
  split at hw
  · simp only [Option.some.injEq, Prod.mk.injEq] at hw
    rw [← hw.1]; exact hd
  · split at hw
    · simp only [Option.some.injEq, Prod.mk.injEq] at hw
      rw [← hw.1]; exact hd
    · split at hw
      · simp only [Option.some.injEq, Prod.mk.injEq] at hw
        rw [← hw.1]; exact hd
      · split at hw
        · simp at hw
        · simp only [Option.some.injEq, Prod.mk.injEq] at hw
          rw [← hw.1]
          exact setFrameGeometry_wellFormed outputs tw _ hout hd

theorem shuffleEntries_wellFormed (outputs : List AbstractOutput)
    (hout : outputsWellFormed outputs) (l : List TrackedWindow) :
    ∀ (l1 : List TrackedWindow) (calls : List GeometryRequest),
      (∀ e ∈ l, e.data.wellFormed) → shuffleEntries outputs l = some (l1, calls) →
      ∀ e1 ∈ l1, e1.data.wellFormed := by
  induction l with
  | nil =>
    intro l1 calls _ h e1 he1
    simp only [shuffleEntries, Option.some.injEq, Prod.mk.injEq] at h
    rw [← h.1] at he1
    cases he1
  | cons x l ih =>
    intro l1 calls hall h e1 he1
    simp only [shuffleEntries] at h
    cases hw : shuffleWindow outputs x with
    | none => simp [hw] at h
    | some p =>
      obtain ⟨x1, c⟩ := p
      cases hrest : shuffleEntries outputs l with
      | none => simp [hw, hrest] at h
      | some q =>
        obtain ⟨l2, c2⟩ := q
        simp only [hw, hrest, Option.some.injEq, Prod.mk.injEq] at h
        rw [← h.1] at he1
        rcases List.mem_cons.1 he1 with h1 | h1
        · rw [h1]
          exact shuffleWindow_wellFormed outputs x x1 c hout
            (hall x (List.mem_cons_self _ _)) hw
        · exact ih l2 c2 (fun e he => hall e (List.mem_cons_of_mem _ he)) hrest e1 h1

/-- In a well-formed state an output found under a stored name guarantees a
valid stored rectangle, so the source selected by the loop body consists of
two valid areas. -/
theorem shuffleSource_valid (outputs : List AbstractOutput) (d : ShuffleData)
    (hout : outputsWellFormed outputs) (hd : d.wellFormed)
    (originalArea originalRect targetArea : QRect)
    (hs : shuffleSource outputs d = some (originalArea, originalRect, targetArea)) :
    originalArea.isValid = true ∧ targetArea.isValid = true := by
  have hfound : ∀ (name : String) (o : AbstractOutput), findOutput outputs name = some o →
      o.geometry.isValid = true ∧ name ≠ "" := by
    intro name o ho
    unfold findOutput at ho
    have hmem := List.mem_of_find?_eq_some ho
    have hname : o.name = name := by simpa using List.find?_some ho
    rw [← hname]
    exact hout o hmem
  unfold shuffleSource at hs
  cases hsv : findOutput outputs d.savedOutputName with
  | some o =>
    simp only [hsv, Option.some.injEq, Prod.mk.injEq] at hs
    obtain ⟨hv, hne⟩ := hfound _ o hsv
    rw [← hs.1, ← hs.2.2]
    rcases hd.1 with h | h
    · exact absurd h hne
    · exact ⟨h, hv⟩
  | none =>
    cases hl : findOutput outputs d.lastOutputName with
    | some o =>
      simp only [hsv, hl, Option.some.injEq, Prod.mk.injEq] at hs
      obtain ⟨hv, hne⟩ := hfound _ o hl
      rw [← hs.1, ← hs.2.2]
      rcases hd.2 with h | h
      · exact absurd h hne
      · exact ⟨h, hv⟩
    | none => simp [hsv, hl] at hs

theorem shuffleWindow_defined (outputs : List AbstractOutput) (tw : TrackedWindow)
    (hout : outputsWellFormed outputs) (hd : tw.data.wellFormed) :
    (shuffleWindow outputs tw).isSome = true := by
  unfold shuffleWindow
  cases hs : shuffleSource outputs tw.data with
  | none => rfl
  | some src =>
    obtain ⟨oa, g, ta⟩ := src
    obtain ⟨h1, h2⟩ := shuffleSource_valid outputs tw.data hout hd oa g ta hs
    simp only []
    split
    · rfl
    · split
      · rfl
      · rw [moveBetweenRects_eq oa ta g h1 h2]
        rfl

theorem shuffleEntries_defined (outputs : List AbstractOutput) (l : List TrackedWindow)
    (h : ∀ e ∈ l, (shuffleWindow outputs e).isSome = true) :
    ∃ l1 calls, shuffleEntries outputs l = some (l1, calls) := by
  induction l with
  | nil => exact ⟨[], [], rfl⟩
  | cons x l ih =>
    obtain ⟨⟨x1, c⟩, hx⟩ := Option.isSome_iff_exists.1 (h x (List.mem_cons_self _ _))
    obtain ⟨l1, calls, hl⟩ := ih (fun e he => h e (List.mem_cons_of_mem _ he))
    exact ⟨x1 :: l1, c ++ calls, by simp only [shuffleEntries, hx, hl]⟩

theorem updateLastState_wellFormed (s s1 : Shuffler) (client : AbstractClient)
    (hs : s.wellFormed) (h : s.updateLastShuffleState client = some s1) : s1.wellFormed :=
  updateEntry_wellFormed s s1 client _
    (fun e he => updateLast_wellFormed s.outputs e.data e.frameGeometry hs.1 he) hs h

theorem updateFullState_wellFormed (s s1 : Shuffler) (client : AbstractClient)
    (hs : s.wellFormed) (h : s.updateFullShuffleState client = some s1) : s1.wellFormed :=
  updateEntry_wellFormed s s1 client _
    (fun e he => updateFull_wellFormed s.outputs e.data e.frameGeometry hs.1 he) hs h

theorem handleClientAdded_wellFormed (s s1 : Shuffler) (client : AbstractClient)
    (frameGeometry : QRect) (isSpecialWindow isPopupWindow isPlaceable : Bool)
    (hs : s.wellFormed)
    (h : s.handleClientAdded client frameGeometry isSpecialWindow isPopupWindow isPlaceable =
      some s1) : s1.wellFormed := by
  unfold Shuffler.handleClientAdded at h
  split at h
  · simp only [Option.some.injEq] at h
    rw [← h]; exact hs
  · dsimp only at h
    refine updateFullState_wellFormed _ s1 client (by
      refine ⟨hs.1, ?_⟩
      intro e he
      dsimp only at he
      split at he
      · obtain ⟨e0, he0, heq⟩ := List.mem_map.1 he
        rw [← heq]
        split
        · exact default_wellFormed
        · exact hs.2 e0 he0
      · rcases List.mem_append.1 he with h1 | h1
        · exact hs.2 e h1
        · rw [List.mem_singleton.1 h1]
          exact default_wellFormed) h

theorem shuffle_wellFormed (s s1 : Shuffler) (calls : List GeometryRequest)
    (hs : s.wellFormed) (h : s.shuffle = some (s1, calls)) : s1.wellFormed := by
  unfold Shuffler.shuffle at h
  cases he : shuffleEntries s.outputs s.m_shuffleData with
  | none => simp [he] at h
  | some p =>
    obtain ⟨entries, calls0⟩ := p
    simp only [he, Option.some.injEq, Prod.mk.injEq] at h
    rw [← h.1]
    exact ⟨hs.1, shuffleEntries_wellFormed s.outputs hs.1 s.m_shuffleData entries calls0 hs.2 he⟩

/-- Every event keeps the state well formed. -/
theorem step_wellFormed (s s1 : Shuffler) (ev : ShufflerEvent) (hs : s.wellFormed)
    (hev : ev.wellFormed) (h : s.step ev = some s1) : s1.wellFormed := by
  cases ev with
  | clientAdded client g a b p =>
    exact handleClientAdded_wellFormed s s1 client g a b p hs h
  | clientRemoved client =>
    simp only [Shuffler.step, Option.some.injEq] at h
    rw [← h]
    refine ⟨hs.1, ?_⟩
    intro e he
    exact hs.2 e (List.mem_of_mem_filter he)
  | signal client sig =>
    simp only [Shuffler.step] at h
    cases sig with
    | frameGeometryChanged => exact updateLastState_wellFormed s s1 client hs h
    | clientFinishUserMovedResized => exact updateFullState_wellFormed s s1 client hs h
    | fullScreenChanged => exact updateFullState_wellFormed s s1 client hs h
    | clientMaximizedStateChanged => exact updateFullState_wellFormed s s1 client hs h
    | quickTileModeChanged => exact updateFullState_wellFormed s s1 client hs h
    | sentToScreen => exact updateFullState_wellFormed s s1 client hs h
  | windowMoved client rect =>
    exact updateEntry_wellFormed s s1 client _
      (fun e he => setFrameGeometry_wellFormed s.outputs e rect hs.1 he) hs h
  | outputsChanged outputs =>
    simp only [Shuffler.step, Option.some.injEq] at h
    rw [← h]
    exact ⟨hev, hs.2⟩
  | shuffle =>
    simp only [Shuffler.step, Option.map_eq_some'] at h
    obtain ⟨⟨s2, calls⟩, h1, h2⟩ := h
    rw [← h2]
    exact shuffle_wellFormed s s2 calls hs h1

theorem runEvents_wellFormed (events : List ShufflerEvent) :
    ∀ (s s1 : Shuffler), s.wellFormed → (∀ ev ∈ events, ev.wellFormed) →
      s.runEvents events = some s1 → s1.wellFormed := by
  induction events with
  | nil =>
    intro s s1 hs _ h
    simp only [Shuffler.runEvents, Option.some.injEq] at h
    rw [← h]; exact hs
  | cons ev rest ih =>
    intro s s1 hs hev h
    simp only [Shuffler.runEvents] at h
    cases hst : s.step ev with
    | none => simp [hst] at h
    | some s2 =>
      simp only [hst] at h
      exact ih s2 s1 (step_wellFormed s s2 ev hs (hev ev (List.mem_cons_self _ _)) hst)
        (fun e he => hev e (List.mem_cons_of_mem _ he)) h

/-! ## The assertion of `moveBetweenRects` -/

/-- C22: let every output, initially and after every output change, have a
valid rectangle and a non-empty name. In every state reached from the empty
shuffler by windows added and removed, window signals, window moves, output
changes and shuffle() calls: (a) for each tracked window the saved (last)
output rectangle is valid whenever an output named by the saved (last) output
name exists; (b) the source and target areas selected by shuffle() for a
window are valid, the source width and height are positive, and
moveBetweenRects is defined on them; (c) shuffle() runs to its end. -/
theorem moveBetweenRects_precondition_holds (outputs0 : List AbstractOutput)
    (events : List ShufflerEvent) (s : Shuffler)
    (hout : outputsWellFormed outputs0)
    (hev : ∀ ev ∈ events, ev.wellFormed)
    (hrun : Shuffler.runEvents { outputs := outputs0, m_shuffleData := [] } events = some s) :
    (∀ tw ∈ s.m_shuffleData,
      (∀ o, findOutput s.outputs tw.data.savedOutputName = some o →
        tw.data.savedOutputRect.isValid = true ∧ o.geometry.isValid = true) ∧
      (∀ o, findOutput s.outputs tw.data.lastOutputName = some o →
        tw.data.lastOutputRect.isValid = true ∧ o.geometry.isValid = true)) ∧
    (∀ tw ∈ s.m_shuffleData, ∀ originalArea originalRect targetArea,
      shuffleSource s.outputs tw.data = some (originalArea, originalRect, targetArea) →
      originalArea.isValid = true ∧ targetArea.isValid = true ∧
      0 < originalArea.width ∧ 0 < originalArea.height ∧
      (moveBetweenRects originalArea targetArea originalRect).isSome = true) ∧
    (∃ s1 calls, s.shuffle = some (s1, calls)) := by
  have hs : s.wellFormed :=
    runEvents_wellFormed events _ s ⟨hout, fun e he => by cases he⟩ hev hrun
  have hfound : ∀ (name : String) (o : AbstractOutput),
      findOutput s.outputs name = some o → o.geometry.isValid = true ∧ name ≠ "" := by
    intro name o ho
    unfold findOutput at ho
    have hmem := List.mem_of_find?_eq_some ho
    have hname : o.name = name := by simpa using List.find?_some ho
    rw [← hname]
    exact hs.1 o hmem
  refine ⟨?_, ?_, ?_⟩
  · intro tw htw
    obtain ⟨h1, h2⟩ := hs.2 tw htw
    constructor
    · intro o ho
      obtain ⟨hv, hne⟩ := hfound _ o ho
      rcases h1 with h | h
      · exact absurd h hne
      · exact ⟨h, hv⟩
    · intro o ho
      obtain ⟨hv, hne⟩ := hfound _ o ho
      rcases h2 with h | h
      · exact absurd h hne
      · exact ⟨h, hv⟩
  · intro tw htw oa g ta hsrc
    obtain ⟨h1, h2⟩ := shuffleSource_valid s.outputs tw.data hs.1 (hs.2 tw htw) oa g ta hsrc
    obtain ⟨hw, hh⟩ := QRect.width_pos_of_isValid oa h1
    refine ⟨h1, h2, hw, hh, ?_⟩
    rw [moveBetweenRects_eq oa ta g h1 h2]
    rfl
  · obtain ⟨l1, calls, hl⟩ := shuffleEntries_defined s.outputs s.m_shuffleData
      (fun e he => shuffleWindow_defined s.outputs e hs.1 (hs.2 e he))
    exact ⟨{ s with m_shuffleData := l1 }, calls, by simp only [Shuffler.shuffle, hl]⟩

/-- Witness for C22: the hotplug round trip of window 1 ends with "DP-1" back
at (0,0) 2000x1000 and the window's saved state still on the old "DP-1"
rectangle; the call shuffle() is about to make has valid areas. -/
theorem moveBetweenRects_precondition_holds_witness :
    (outputsWellFormed [outputDP1, outputHDMI1] ∧
      (∀ ev ∈ roundTripEvents, ev.wellFormed) ∧
      Shuffler.runEvents { outputs := [outputDP1, outputHDMI1], m_shuffleData := [] }
          roundTripEvents =
        some { outputs := [outputDP1Large, outputHDMI1], m_shuffleData := [windowMovedAway] }) ∧
    ∃ s1 calls,
      Shuffler.shuffle
        { outputs := [outputDP1Large, outputHDMI1], m_shuffleData := [windowMovedAway] } =
          some (s1, calls) := by
  have h1 : outputsWellFormed [outputDP1, outputHDMI1] := by
    intro o ho
    simp only [List.mem_cons, List.mem_singleton, List.not_mem_nil, or_false] at ho
    rcases ho with h | h <;> rw [h] <;> exact ⟨by decide, by decide⟩
  have h2 : ∀ ev ∈ roundTripEvents, ev.wellFormed := by
    intro ev hev
    simp only [roundTripEvents, List.mem_cons, List.mem_singleton, List.not_mem_nil,
      or_false] at hev
    rcases hev with h | h | h | h | h <;> rw [h]
    · trivial
    · intro o ho
      rw [List.mem_singleton.1 ho]
      exact ⟨by decide, by decide⟩
    · trivial
    · trivial
    · intro o ho
      simp only [List.mem_cons, List.mem_singleton, List.not_mem_nil, or_false] at ho
      rcases ho with h | h <;> rw [h] <;> exact ⟨by decide, by decide⟩
  have h3 : Shuffler.runEvents { outputs := [outputDP1, outputHDMI1], m_shuffleData := [] }
      roundTripEvents =
      some { outputs := [outputDP1Large, outputHDMI1], m_shuffleData := [windowMovedAway] } := by
    decide
  exact ⟨⟨h1, h2, h3⟩,
    (moveBetweenRects_precondition_holds [outputDP1, outputHDMI1] roundTripEvents
      { outputs := [outputDP1Large, outputHDMI1], m_shuffleData := [windowMovedAway] }
      h1 h2 h3).2.2⟩

end KWin
